import Mathlib

/-!
# The SRR coordinator (fty-srr): registry, digest, save and restore engine

A shallow embedding of `server/include/fty_srr_groups.h` and
`server/src/fty_srr_worker.cc`.

* Exceptions are values of `Exn`; a function that can throw returns an
  `Except Exn _` next to the list of bus requests it has issued so far.
* The message bus and the agents behind it are the field `bus` of the worker:
  a function from the requests issued so far (the current one last) to the
  reply, so that an agent may answer differently each time it is asked.
* `std::map` and `std::set` are key-sorted association lists; a protobuf map
  (whose iteration order is unspecified) is an association list that is
  iterated in the order in which its entries were added.
-/

namespace srr

/-! ## SHA-256 (the OpenSSL routine called by `evalSha256`) -/

/-- The integer `k`-th root of `n` below `2 ^ bits`, found bit by bit. -/
def iroot (k n : Nat) : Nat → Nat → Nat
  | 0, r => r
  | b + 1, r => if (r + 2 ^ b) ^ k ≤ n then iroot k n b (r + 2 ^ b) else iroot k n b r

def first64Primes : List Nat := [
  2, 3, 5, 7, 11, 13, 17, 19, 23, 29, 31, 37, 41, 43, 47, 53, 59, 61, 67, 71, 73, 79, 83, 89, 97,
  101, 103, 107, 109, 113, 127, 131, 137, 139, 149, 151, 157, 163, 167, 173, 179, 181, 191, 193,
  197, 199, 211, 223, 227, 229, 233, 239, 241, 251, 257, 263, 269, 271, 277, 281, 283, 293, 307,
  311]

/-- The round constants: the first 32 bits of the fractional parts of the cube
roots of the first 64 primes. -/
def sha256K : List Nat := first64Primes.map (fun p => iroot 3 (p * 2 ^ 96) 40 0 % 2 ^ 32)

/-- The initial hash value: the first 32 bits of the fractional parts of the
square roots of the first 8 primes. -/
def sha256H0 : List Nat := (first64Primes.take 8).map (fun p => iroot 2 (p * 2 ^ 64) 40 0 % 2 ^ 32)

/-- Rotation to the right of a 32-bit word. -/
def rotr32 (x n : Nat) : Nat := ((x >>> n) ||| (x <<< (32 - n))) % 2 ^ 32

/-- The UTF-8 bytes of a code point. -/
def utf8Bytes (c : Nat) : List Nat :=
  if c < 0x80 then [c]
  else if c < 0x800 then [0xC0 + c / 64, 0x80 + c % 64]
  else if c < 0x10000 then [0xE0 + c / 4096, 0x80 + (c / 64) % 64, 0x80 + c % 64]
  else [0xF0 + c / 262144, 0x80 + (c / 4096) % 64, 0x80 + (c / 64) % 64, 0x80 + c % 64]

/-- The bytes of a `std::string` (`data.c_str()`, `data.length()`). -/
def stringBytes (s : String) : List Nat := s.data.flatMap (fun c => utf8Bytes c.toNat)

/-- The `k` low bytes of `n`, most significant first. -/
def beBytes : Nat → Nat → List Nat
  | 0, _ => []
  | k + 1, n => (n / 256 ^ k) % 256 :: beBytes k n

def sha256Pad (msg : List Nat) : List Nat :=
  msg ++ [0x80] ++ List.replicate ((119 - msg.length % 64) % 64) 0 ++ beBytes 8 (8 * msg.length)

/-- The first `k` big-endian 32-bit words of a byte list. -/
def beWords : Nat → List Nat → List Nat
  | 0, _ => []
  | k + 1, bs =>
    (((bs.getD 0 0 * 256 + bs.getD 1 0) * 256 + bs.getD 2 0) * 256 + bs.getD 3 0)
      :: beWords k (bs.drop 4)

/-- Message schedule; the list holds the most recent word first. -/
def sha256Schedule : Nat → List Nat → List Nat
  | 0, w => w
  | k + 1, w =>
    let w2 := w.getD 1 0
    let w15 := w.getD 14 0
    let s0 := rotr32 w15 7 ^^^ rotr32 w15 18 ^^^ (w15 >>> 3)
    let s1 := rotr32 w2 17 ^^^ rotr32 w2 19 ^^^ (w2 >>> 10)
    sha256Schedule k (((w.getD 15 0 + s0 + w.getD 6 0 + s1) % 2 ^ 32) :: w)

def sha256Round (st : List Nat) (kw : Nat × Nat) : List Nat :=
  match st with
  | [a, b, c, d, e, f, g, h] =>
    let S1 := rotr32 e 6 ^^^ rotr32 e 11 ^^^ rotr32 e 25
    let ch := (e &&& f) ^^^ ((e ^^^ (2 ^ 32 - 1)) &&& g)
    let t1 := (h + S1 + ch + kw.1 + kw.2) % 2 ^ 32
    let S0 := rotr32 a 2 ^^^ rotr32 a 13 ^^^ rotr32 a 22
    let maj := (a &&& b) ^^^ (a &&& c) ^^^ (b &&& c)
    let t2 := (S0 + maj) % 2 ^ 32
    [(t1 + t2) % 2 ^ 32, a, b, c, (d + t1) % 2 ^ 32, e, f, g]
  | _ => st

def sha256Block (h : List Nat) (block : List Nat) : List Nat :=
  let w := (sha256Schedule 48 (beWords 16 block).reverse).reverse
  let st := (sha256K.zip w).foldl sha256Round h
  List.zipWith (fun x y => (x + y) % 2 ^ 32) h st

def sha256Blocks : Nat → List Nat → List Nat → List Nat
  | 0, h, _ => h
  | k + 1, h, bs => sha256Blocks k (sha256Block h (bs.take 64)) (bs.drop 64)

/-- The digest bytes (`SHA256_DIGEST_LENGTH` = 32 of them) of a byte string. -/
def SHA256 (msg : List Nat) : List Nat :=
  (sha256Blocks ((sha256Pad msg).length / 64) sha256H0 (sha256Pad msg)).flatMap (beBytes 4)

def hexDigit (n : Nat) : Char := "0123456789abcdef".data.getD n '0'

/-- `evalSha256`: every digest byte printed as two lowercase hex digits
(`std::hex`, `std::setfill('0')`, `std::setw(2)`). -/
def evalSha256 (data : String) : String :=
  String.mk ((SHA256 (stringBytes data)).flatMap (fun c => [hexDigit (c / 16), hexDigit (c % 16)]))

/-! ## Containers -/

/-- The order of `std::string` keys: lexicographic on the characters (the
order of the code points is that of their UTF-8 bytes). -/
def charsLess : List Char → List Char → Bool
  | _, [] => false
  | [], _ :: _ => true
  | x :: xs, y :: ys =>
    if x.toNat < y.toNat then true
    else if y.toNat < x.toNat then false
    else charsLess xs ys

/-- `a < b` on `std::string`. -/
def stringLess (a b : String) : Bool := charsLess a.data b.data

/-- `std::map::find` / `std::map::at` on a key-sorted association list. -/
def mapFind {β : Type} (m : List (String × β)) (k : String) : Option β := m.lookup k

/-- `std::map::insert`: adds the entry at its place in key order; an entry
already present under the key is kept. -/
def mapInsert {β : Type} (k : String) (v : β) : List (String × β) → List (String × β)
  | [] => [(k, v)]
  | (k', v') :: rest =>
    if stringLess k k' then (k, v) :: (k', v') :: rest
    else if k = k' then (k', v') :: rest
    else (k', v') :: mapInsert k v rest

/-- `m[k] = f (m[k])` for a `std::map`, where a missing entry is first created
with the value `d`. -/
def mapUpdate {β : Type} (k : String) (d : β) (f : β → β) : List (String × β) → List (String × β)
  | [] => [(k, f d)]
  | (k', v') :: rest =>
    if stringLess k k' then (k, f d) :: (k', v') :: rest
    else if k = k' then (k', f v') :: rest
    else (k', v') :: mapUpdate k d f rest

/-- `std::set::insert`. -/
def setInsert (x : String) : List String → List String
  | [] => [x]
  | y :: ys =>
    if stringLess x y then x :: y :: ys
    else if x = y then y :: ys
    else y :: setInsert x ys

/-- `insert` on a protobuf map: a key already present keeps its value. -/
def pbInsert {β : Type} (m : List (String × β)) (kv : String × β) : List (String × β) :=
  if (m.lookup kv.1).isSome then m else m ++ [kv]

/-- `std::sort` with comparator `comp` (`comp a b`: `a` goes before `b`).
`std::sort` does not fix the order of elements that `comp` does not separate;
the model is the insertion sort that the standard libraries run on short
ranges, which keeps such elements in the order in which it found them. -/
def stdSort {α : Type} (comp : α → α → Bool) (l : List α) : List α :=
  l.insertionSort (fun a b => comp b a = false)

/-! ## Data model -/

abbrev FeatureName := String

inductive Status
  | SUCCESS | FAILED | UNKNOWN | IN_PROGRESS | PARTIAL_SUCCESS
  deriving DecidableEq, Repr

/-- The strings of the UI protocol for a status. -/
def statusToString : Status → String
  | .SUCCESS => "SUCCESS"
  | .FAILED => "FAILED"
  | .UNKNOWN => "UNKNOWN"
  | .IN_PROGRESS => "IN_PROGRESS"
  | .PARTIAL_SUCCESS => "PARTIAL_SUCCESS"

/-- A feature snapshot: an opaque blob with its format version. -/
structure Feature where
  version : String
  data : String
  deriving DecidableEq, Repr

structure FeatureStatus where
  status : Status
  error : String
  deriving DecidableEq, Repr

structure FeatureAndStatus where
  feature : Feature
  status : FeatureStatus
  deriving DecidableEq, Repr

structure SrrFeature where
  m_feature_name : FeatureName
  m_feature_and_status : FeatureAndStatus
  deriving DecidableEq, Repr

structure Group where
  m_group_id : String
  m_group_name : String
  m_features : List SrrFeature
  m_data_integrity : String
  deriving DecidableEq, Repr

/-! ## Registry (`fty_srr_groups.h`) -/

/-- The header declares no `m_reset`, yet the worker reads it for every
feature; it is a field here, `false` where the tables do not set it. -/
structure SrrFeatureStruct where
  m_id : String
  m_name : String
  m_description : String
  m_agent : String
  m_restart : Bool
  m_reset : Bool := false
  deriving DecidableEq, Repr

structure SrrFeaturePriorityStruct where
  m_feature : String
  m_priority : Nat
  deriving DecidableEq, Repr

structure SrrGroupStruct where
  m_id : String
  m_name : String
  m_description : String
  m_fp : List SrrFeaturePriorityStruct
  deriving DecidableEq, Repr

/-- The three static tables; every map is listed in key order. -/
structure Registry where
  SrrFeatureMap : List (String × SrrFeatureStruct)
  SrrGroupMap : List (String × SrrGroupStruct)
  agentToQueue : List (String × String)

/-- Modelled from the spec: `getGroupFromFeature`, declared in the header and
defined outside the given sources: the id of the group that lists the feature,
the empty string when no group does. -/
def getGroupFromFeature (reg : Registry) (featureName : String) : String :=
  match reg.SrrGroupMap.find? (fun g => g.2.m_fp.any (fun x => x.m_feature == featureName)) with
  | some g => g.1
  | none => ""

/-- Modelled from the spec: `getPriority`, declared in the header and defined
outside the given sources: the priority of the feature in its group, 0 when the
feature is unknown. -/
def getPriority (reg : Registry) (featureName : String) : Nat :=
  match mapFind reg.SrrGroupMap (getGroupFromFeature reg featureName) with
  | some g =>
    match g.m_fp.find? (fun x => x.m_feature == featureName) with
    | some x => x.m_priority
    | none => 0
  | none => 0

/-! ### The reference tables

Modelled from the spec: the string constants of `fty-srr.h` (feature, group,
agent and queue names), which the header uses and the given sources do not
define. -/

def F_ALERT_AGENT : String := "alert-agent"
def F_ASSET_AGENT : String := "asset-agent"
def F_AUTOMATION_SETTINGS : String := "automation-settings"
def F_AUTOMATIONS : String := "automations"
def F_DISCOVERY : String := "discovery"
def F_MASS_MANAGEMENT : String := "mass-management"
def F_MONITORING_FEATURE_NAME : String := "monitoring"
def F_NETWORK : String := "network"
def F_NOTIFICATION_FEATURE_NAME : String := "notification"
def F_SECURITY_WALLET : String := "security-wallet"
def F_USER_SESSION_FEATURE_NAME : String := "user-session"
def F_VIRTUAL_ASSETS : String := "virtual-assets"

def G_ASSETS : String := "assets"
def G_CONFIG : String := "config"
def G_SECW : String := "security-wallet"

def ALERT_AGENT_NAME : String := "fty-alert-engine"
def ASSET_AGENT_NAME : String := "asset-agent"
def CONFIG_AGENT_NAME : String := "etn-malamute-config"
def EMC4J_AGENT_NAME : String := "etn-emc4j"
def SECU_WALLET_AGENT_NAME : String := "security-wallet"

def ALERT_AGENT_MSG_QUEUE_NAME : String := "ETN.Q.IPMCORE.ALERT"
def ASSET_AGENT_MSG_QUEUE_NAME : String := "ETN.Q.IPMCORE.ASSET"
def CONFIG_MSG_QUEUE_NAME : String := "ETN.Q.IPMCORE.CONFIG"
def EMC4J_MSG_QUEUE_NAME : String := "ETN.Q.EMC4J.REQ"
def SECU_WALLET_MSG_QUEUE_NAME : String := "ETN.Q.IPMCORE.SECUWALLET"

def SRR_PREFIX_TRANSLATE_KEY : String := "srr_"

/-- One entry of `initSrrFeatures`: id, name and description are built from
the key, `m_restart` is `true`, `m_reset` is left at its default. -/
def featureEntry (key agent : String) : String × SrrFeatureStruct :=
  (key, { m_id := key, m_name := key, m_description := SRR_PREFIX_TRANSLATE_KEY ++ key,
          m_agent := agent, m_restart := true })

/-- `initSrrFeatures`. -/
def initSrrFeatures : List (String × SrrFeatureStruct) := [
  featureEntry F_ALERT_AGENT ALERT_AGENT_NAME,
  featureEntry F_ASSET_AGENT ASSET_AGENT_NAME,
  featureEntry F_AUTOMATION_SETTINGS CONFIG_AGENT_NAME,
  featureEntry F_AUTOMATIONS EMC4J_AGENT_NAME,
  featureEntry F_DISCOVERY CONFIG_AGENT_NAME,
  featureEntry F_MASS_MANAGEMENT CONFIG_AGENT_NAME,
  featureEntry F_MONITORING_FEATURE_NAME CONFIG_AGENT_NAME,
  featureEntry F_NETWORK CONFIG_AGENT_NAME,
  featureEntry F_NOTIFICATION_FEATURE_NAME CONFIG_AGENT_NAME,
  featureEntry F_SECURITY_WALLET SECU_WALLET_AGENT_NAME,
  featureEntry F_USER_SESSION_FEATURE_NAME CONFIG_AGENT_NAME,
  featureEntry F_VIRTUAL_ASSETS EMC4J_AGENT_NAME]

/-- `initSrrGroups`. -/
def initSrrGroups : List (String × SrrGroupStruct) := [
  (G_ASSETS, { m_id := G_ASSETS, m_name := G_ASSETS, m_description := G_ASSETS,
               m_fp := [⟨F_ASSET_AGENT, 1⟩] }),
  (G_CONFIG, { m_id := G_CONFIG, m_name := G_CONFIG, m_description := G_CONFIG,
               m_fp := [⟨F_AUTOMATION_SETTINGS, 1⟩, ⟨F_DISCOVERY, 2⟩, ⟨F_MASS_MANAGEMENT, 2⟩,
                        ⟨F_MONITORING_FEATURE_NAME, 3⟩, ⟨F_NOTIFICATION_FEATURE_NAME, 5⟩,
                        ⟨F_USER_SESSION_FEATURE_NAME, 6⟩] }),
  (G_SECW, { m_id := G_SECW, m_name := G_SECW, m_description := G_SECW,
             m_fp := [⟨F_SECURITY_WALLET, 1⟩] })]

/-- The tables of `fty_srr_groups.h`. -/
def referenceRegistry : Registry where
  SrrFeatureMap := initSrrFeatures
  SrrGroupMap := initSrrGroups
  agentToQueue := [
    (ALERT_AGENT_NAME, ALERT_AGENT_MSG_QUEUE_NAME),
    (ASSET_AGENT_NAME, ASSET_AGENT_MSG_QUEUE_NAME),
    (CONFIG_AGENT_NAME, CONFIG_MSG_QUEUE_NAME),
    (EMC4J_AGENT_NAME, EMC4J_MSG_QUEUE_NAME),
    (SECU_WALLET_AGENT_NAME, SECU_WALLET_MSG_QUEUE_NAME)]

/-! ## Integrity digest -/

/-- The lambda of both `std::sort` calls:
`getPriority(l.m_feature_name) > getPriority(r.m_feature_name)`. -/
def priorityGreater (reg : Registry) (l r : SrrFeature) : Bool :=
  decide (getPriority reg l.m_feature_name > getPriority reg r.m_feature_name)

/-- The `std::sort` of a feature list by priority. -/
def sortByPriority (reg : Registry) (features : List SrrFeature) : List SrrFeature :=
  stdSort (priorityGreater reg) features

/-- One feature of the JSON text over which the digest is taken: the feature
name as the key of an object holding version, status, error and the blob. -/
def serializeFeature (f : SrrFeature) : String :=
  "\x7b\"" ++ f.m_feature_name ++ "\":\x7b\"version\":\"" ++ f.m_feature_and_status.feature.version
    ++ "\",\"status\":\"" ++ statusToString f.m_feature_and_status.status.status
    ++ "\",\"error\":\"" ++ f.m_feature_and_status.status.error
    ++ "\",\"data\":" ++ f.m_feature_and_status.feature.data ++ "\x7d\x7d"

/-- `tmpSi <<= group.m_features; serializeJson(tmpSi, false)`: the features as
a JSON array in list order (the serialiser is a library outside the
repository). -/
def serializeJson (features : List SrrFeature) : String :=
  "[" ++ ",".intercalate (features.map serializeFeature) ++ "]"

/-- `evalDataIntegrity`. -/
def evalDataIntegrity (reg : Registry) (group : Group) : Group :=
  let features := sortByPriority reg group.m_features
  { group with m_features := features, m_data_integrity := evalSha256 (serializeJson features) }

/-- `checkDataIntegrity`. -/
def checkDataIntegrity (group : Group) : Bool :=
  evalSha256 (serializeJson group.m_features) == group.m_data_integrity

/-! ## Exceptions -/

inductive Exn
  | SrrInvalidVersion (m_err : String)
  | SrrIntegrityCheckFailed (m_err : String)
  | SrrRestoreFailed (m_err : String)
  | SrrResetFailed (m_err : String)
  /-- `SrrException`, thrown by `sendRequest` for a failure on the bus. -/
  | SrrException (m_err : String)
  /-- `std::out_of_range` of `std::map::at`. -/
  | out_of_range (m_err : String)
  /-- The failure of `at` on a protobuf map. -/
  | FatalException (m_err : String)
  | runtime_error (m_err : String)
  deriving DecidableEq, Repr

/-- `what()`. -/
def Exn.what : Exn → String
  | .SrrInvalidVersion e => e
  | .SrrIntegrityCheckFailed e => e
  | .SrrRestoreFailed e => e
  | .SrrResetFailed e => e
  | .SrrException e => e
  | .out_of_range e => e
  | .FatalException e => e
  | .runtime_error e => e

/-! ## Bus messages -/

structure RestoreQuery where
  version : String := ""
  checksum : String := ""
  passpharse : String := ""
  map_features_data : List (FeatureName × Feature) := []
  deriving DecidableEq, Repr

inductive Query
  | save (features : List FeatureName) (passphrase : String)
  | restore (query : RestoreQuery)
  | reset (version : String) (features : List FeatureName)
  deriving DecidableEq, Repr

/-- What `sendRequest` puts on the bus: subject, queue, addressee and body. -/
structure Request where
  action : String
  queueNameDest : String
  agentNameDest : String
  userData : Query
  deriving DecidableEq, Repr

structure SaveResponse where
  map_features_data : List (FeatureName × FeatureAndStatus) := []
  deriving DecidableEq, Repr

structure RestoreResponse where
  status : FeatureStatus
  deriving DecidableEq, Repr

structure ResetResponse where
  map_features_status : List (FeatureName × FeatureStatus) := []
  deriving DecidableEq, Repr

/-- A reply of an agent, with what each of the accessors `save()`,
`restore()` and `reset()` returns on it. -/
structure Response where
  save : SaveResponse
  restore : RestoreResponse
  reset : ResetResponse
  deriving DecidableEq, Repr

/-- `r1 += r2` on save responses: the entries of `r2` are inserted into the
map of `r1`. -/
def SaveResponse.append (r1 r2 : SaveResponse) : SaveResponse :=
  { map_features_data := r2.map_features_data.foldl pbInsert r1.map_features_data }

/-- The functions of `fty::` (passphrase helpers of an outside library). -/
structure Fty where
  encrypt : String → String → String
  decrypt : String → String → String
  checkPassphraseFormat : String → Bool
  getPassphraseFormat : String

/-- `SrrWorker`: its members, the tables it reads and the bus behind
`m_msgBus`. The bus maps the requests issued so far, the current one last, to
the reply or to the text of the bus exception. -/
structure SrrWorker where
  reg : Registry
  fty : Fty
  m_srrVersion : String
  m_supportedVersions : List String
  bus : List Request → Except String Response

/-- `agentToQueue[agent]`: the empty string for an agent without a queue. -/
def queueOf (reg : Registry) (agent : String) : String :=
  (mapFind reg.agentToQueue agent).getD ""

/-- `SrrFeatureMap.at(featureName)`. -/
def featureAt (reg : Registry) (featureName : String) : Except Exn SrrFeatureStruct :=
  match mapFind reg.SrrFeatureMap featureName with
  | some d => .ok d
  | none => .error (.out_of_range "map::at")

/-- `sendRequest`: the request is put on the bus; a bus exception comes back
as `SrrException`. -/
def sendRequest (w : SrrWorker) (userData : Query) (action queueNameDest agentNameDest : String)
    (trace : List Request) : List Request × Except Exn Response :=
  let trace' := trace ++ [⟨action, queueNameDest, agentNameDest, userData⟩]
  match w.bus trace' with
  | .ok resp => (trace', .ok resp)
  | .error e => (trace', .error (.SrrException e))

/-! ## Save engine -/

/-- `groupFeaturesByAgent`: agent name to the set of its features; a feature
missing from `SrrFeatureMap` is dropped. -/
def groupFeaturesByAgent (reg : Registry) (features : List FeatureName) :
    List (String × List FeatureName) :=
  features.foldl (fun map feature =>
    match featureAt reg feature with
    | .ok d => mapUpdate d.m_agent [] (setInsert feature) map
    | .error _ => map) []

/-- The loop of `saveFeatures` over the entries of the agent map. -/
def saveAgents (w : SrrWorker) (passphrase : String) :
    List (String × List FeatureName) → SaveResponse → List Request →
      List Request × Except Exn SaveResponse
  | [], response, trace => (trace, .ok response)
  | (agentNameDest, featuresByAgent) :: rest, response, trace =>
    match sendRequest w (.save featuresByAgent passphrase) "save"
        (queueOf w.reg agentNameDest) agentNameDest trace with
    | (trace', .ok featureResponse) =>
      saveAgents w passphrase rest (response.append featureResponse.save) trace'
    | (trace', .error e) => (trace', .error e)

/-- `SrrWorker::saveFeatures`. -/
def saveFeatures (w : SrrWorker) (features : List FeatureName) (passphrase : String)
    (trace : List Request) : List Request × Except Exn SaveResponse :=
  saveAgents w passphrase (groupFeaturesByAgent w.reg features) {} trace

/-! ## Restore and reset of one feature -/

/-- `SrrWorker::restoreFeature`. -/
def restoreFeature (w : SrrWorker) (featureName : FeatureName) (query : RestoreQuery)
    (trace : List Request) : List Request × Except Exn RestoreResponse :=
  match featureAt w.reg featureName with
  | .error e => (trace, .error e)
  | .ok d =>
    match sendRequest w (.restore query) "restore" (queueOf w.reg d.m_agent) d.m_agent trace with
    | (trace', .error e) => (trace', .error e)
    | (trace', .ok response) =>
      if response.restore.status.status ≠ Status.SUCCESS then
        (trace', .error (.SrrRestoreFailed ("Restore procedure failed for feature " ++ featureName)))
      else (trace', .ok response.restore)

/-- `SrrWorker::resetFeature`. -/
def resetFeature (w : SrrWorker) (featureName : FeatureName) (trace : List Request) :
    List Request × Except Exn ResetResponse :=
  match featureAt w.reg featureName with
  | .error e => (trace, .error e)
  | .ok d =>
    match sendRequest w (.reset w.m_srrVersion [featureName]) "reset"
        (queueOf w.reg d.m_agent) d.m_agent trace with
    | (trace', .error e) => (trace', .error e)
    | (trace', .ok response) =>
      match response.reset.map_features_status.lookup featureName with
      | none => (trace', .error (.FatalException "key not found"))
      | some s =>
        if s.status ≠ Status.SUCCESS then
          (trace', .error (.SrrResetFailed ("Reset procedure failed for feature " ++ featureName)))
        else (trace', .ok response.reset)

def Exn.isResetFailed : Exn → Bool
  | .SrrResetFailed _ => true
  | _ => false

def Exn.isRestoreFailed : Exn → Bool
  | .SrrRestoreFailed _ => true
  | _ => false

/-- The block that precedes every restore:
`try { if (SrrFeatureMap.at(name).m_reset) resetFeature(name); }
catch (SrrResetFailed&) { log_warning }`. Any other exception leaves it. -/
def resetIfSupported (w : SrrWorker) (featureName : FeatureName) (trace : List Request) :
    List Request × Except Exn Unit :=
  match featureAt w.reg featureName with
  | .error e => (trace, .error e)
  | .ok d =>
    if d.m_reset then
      match resetFeature w featureName trace with
      | (trace', .ok _) => (trace', .ok ())
      | (trace', .error e) => if e.isResetFailed then (trace', .ok ()) else (trace', .error e)
    else (trace, .ok ())

/-! ## Rollback -/

/-- The restore query that `rollback` builds for one snapshot. -/
def rollbackQuery (w : SrrWorker) (passphrase : String) (featureName : FeatureName)
    (featureData : Feature) : RestoreQuery :=
  { version := w.m_srrVersion, checksum := w.fty.encrypt passphrase passphrase,
    passpharse := passphrase, map_features_data := [(featureName, featureData)] }

/-- The loop of `rollback` over the entries of `rollbackMap`. -/
def rollbackLoop (w : SrrWorker) (passphrase : String) :
    List (String × FeatureAndStatus) → Bool → List Request → List Request × Except Exn Bool
  | [], restart, trace => (trace, .ok restart)
  | (featureName, fs) :: rest, restart, trace =>
    match featureAt w.reg featureName with
    | .error e => (trace, .error e)
    | .ok d =>
      match resetIfSupported w featureName trace with
      | (t1, .error e) => (t1, .error e)
      | (t1, .ok _) =>
        match restoreFeature w featureName (rollbackQuery w passphrase featureName fs.feature) t1 with
        | (t2, .ok _) => rollbackLoop w passphrase rest (restart || d.m_restart) t2
        | (t2, .error e) =>
          if e.isRestoreFailed then rollbackLoop w passphrase rest (restart || d.m_restart) t2
          else (t2, .error e)

/-- The `std::map` that `rollback` builds from the entries of the save
response. -/
def rollbackMap (rollbackSaveResponse : SaveResponse) : List (String × FeatureAndStatus) :=
  rollbackSaveResponse.map_features_data.foldl (fun m kv => mapInsert kv.1 kv.2 m) []

/-- `SrrWorker::rollback`. -/
def rollback (w : SrrWorker) (rollbackSaveResponse : SaveResponse) (passphrase : String)
    (trace : List Request) : List Request × Except Exn Bool :=
  rollbackLoop w passphrase (rollbackMap rollbackSaveResponse) false trace

/-! ## UI messages -/

structure SrrSaveRequest where
  m_passphrase : String
  m_group_list : List String
  deriving DecidableEq, Repr

structure SrrSaveResponse where
  m_version : String
  m_status : String
  m_error : String := ""
  m_checksum : String := ""
  m_data : List Group := []
  deriving DecidableEq, Repr

/-- The payload of a restore request: a flat feature list (version 1.0) or a
list of groups (version 2.0). -/
inductive SrrRestoreRequestData
  | V1 (m_data : List SrrFeature)
  | V2 (m_data : List Group)
  deriving DecidableEq, Repr

/-- `getSrrFeatures()`. -/
def SrrRestoreRequestData.getSrrFeatures : SrrRestoreRequestData → List SrrFeature
  | .V1 fs => fs
  | .V2 gs => gs.flatMap (fun g => g.m_features)

structure SrrRestoreRequest where
  m_version : String
  m_checksum : String
  m_passphrase : String
  m_data : SrrRestoreRequestData
  deriving DecidableEq, Repr

structure RestoreStatus where
  m_name : String
  m_status : String
  m_error : String := ""
  deriving DecidableEq, Repr

structure SrrRestoreResponse where
  m_status : String
  m_error : String := ""
  m_status_list : List RestoreStatus := []
  deriving DecidableEq, Repr

/-! ## `requestSave` -/

/-- What one call of `requestSave` does: the reply and the requests it sent. -/
structure SaveOutcome where
  response : SrrSaveResponse
  trace : List Request

/-- The features of the groups of `m_group_list`; an unknown group is skipped. -/
def featuresToSave (reg : Registry) (groupList : List String) : List FeatureName :=
  groupList.flatMap (fun groupId =>
    match mapFind reg.SrrGroupMap groupId with
    | some group => group.m_fp.map (fun fp => fp.m_feature)
    | none => [])

/-- The `savedGroups` map: every returned feature is appended to the feature
list of its group; a feature of no group is left out. -/
def savedGroups (reg : Registry) (mapFeaturesData : List (FeatureName × FeatureAndStatus)) :
    List (String × List SrrFeature) :=
  mapFeaturesData.foldl (fun m fs =>
    let groupId := getGroupFromFeature reg fs.1
    if groupId.isEmpty then m
    else mapUpdate groupId [] (fun features => features ++ [⟨fs.1, fs.2⟩]) m) []

/-- The groups of the save reply: id and name set, features sorted, digest
evaluated. -/
def assembleGroups (reg : Registry) (saved : List (String × List SrrFeature)) : List Group :=
  saved.map (fun groupElement =>
    evalDataIntegrity reg
      { m_group_id := groupElement.1, m_group_name := groupElement.1,
        m_features := groupElement.2, m_data_integrity := "" })

/-- `SrrWorker::requestSave`, on the parsed request. -/
def requestSave (w : SrrWorker) (srrSaveReq : SrrSaveRequest) : SaveOutcome :=
  if w.fty.checkPassphraseFormat srrSaveReq.m_passphrase then
    let checksum := w.fty.encrypt srrSaveReq.m_passphrase srrSaveReq.m_passphrase
    match saveFeatures w (featuresToSave w.reg srrSaveReq.m_group_list) srrSaveReq.m_passphrase [] with
    | (trace, .ok saveResp) =>
      { response :=
          { m_version := w.m_srrVersion, m_status := statusToString Status.SUCCESS,
            m_checksum := checksum,
            m_data := assembleGroups w.reg (savedGroups w.reg saveResp.map_features_data) },
        trace := trace }
    | (trace, .error e) =>
      { response :=
          { m_version := w.m_srrVersion, m_status := statusToString Status.FAILED,
            m_checksum := checksum,
            m_error := "Exception on save Ipm2 configuration: (" ++ e.what ++ ")" },
        trace := trace }
  else
    { response :=
        { m_version := w.m_srrVersion, m_status := statusToString Status.FAILED,
          m_error := "Passphrase must have " ++ w.fty.getPassphraseFormat ++ " characters" },
      trace := [] }

/-! ## `requestRestore` -/

/-- The state a restore carries along: the requests sent so far, the status
list of the reply and the `restart` flag. It survives an exception. -/
structure RestoreState where
  trace : List Request := []
  status_list : List RestoreStatus := []
  restart : Bool := false
  deriving DecidableEq, Repr

/-! ### Version 1.0 -/

/-- How the feature loop of version 1.0 ends: it ran through, it left by
`break` with `restoreFailed` set, or an exception left it. -/
inductive V1Exit
  | completed
  | restoreFailed
  | threw (e : Exn)
  deriving DecidableEq, Repr

structure V1State where
  trace : List Request
  rollbackSaveResponse : SaveResponse
  status_list : List RestoreStatus
  featureName : String

/-- The feature loop of version 1.0. -/
def restoreV1Loop (w : SrrWorker) (passphrase : String) :
    List SrrFeature → V1State → V1State × V1Exit
  | [], st => (st, .completed)
  | feature :: rest, st =>
    let featureName := feature.m_feature_name
    let query : RestoreQuery :=
      { passpharse := passphrase,
        map_features_data := [(featureName, feature.m_feature_and_status.feature)] }
    match saveFeatures w [featureName] passphrase st.trace with
    | (t1, saved) =>
      let R := match saved with
        | .ok r => st.rollbackSaveResponse.append r
        | .error _ => st.rollbackSaveResponse
      match resetIfSupported w featureName t1 with
      | (t2, .error e) => (⟨t2, R, st.status_list, featureName⟩, .threw e)
      | (t2, .ok _) =>
        match restoreFeature w featureName query t2 with
        | (t3, .ok resp) =>
          restoreV1Loop w passphrase rest
            ⟨t3, R, st.status_list ++
              [⟨featureName, statusToString resp.status.status, resp.status.error⟩], featureName⟩
        | (t3, .error e) =>
          if e.isRestoreFailed then (⟨t3, R, st.status_list, featureName⟩, .restoreFailed)
          else (⟨t3, R, st.status_list, featureName⟩, .threw e)

/-- The branch `m_version == "1.0"`. -/
def restoreV1 (w : SrrWorker) (passphrase : String) (features : List SrrFeature) :
    RestoreState × Except Exn Unit :=
  match restoreV1Loop w passphrase features ⟨[], {}, [], ""⟩ with
  | (st, .completed) => (⟨st.trace, st.status_list, false⟩, .ok ())
  | (st, .threw e) => (⟨st.trace, st.status_list, false⟩, .error e)
  | (st, .restoreFailed) =>
    match rollback w st.rollbackSaveResponse passphrase st.trace with
    | (t, .ok b) =>
      (⟨t, st.status_list, false || b⟩,
        .error (.SrrRestoreFailed ("Restore of feature " ++ st.featureName ++ " failed")))
    | (t, .error e) => (⟨t, st.status_list, false⟩, .error e)

/-! ### Version 2.0 -/

/-- The `ftMap` of a payload group: `ftMap[name] = value` for every feature. -/
def ftMapOf (features : List SrrFeature) : List (String × FeatureAndStatus) :=
  features.foldl (fun m f =>
    mapUpdate f.m_feature_name f.m_feature_and_status (fun _ => f.m_feature_and_status) m) []

/-- The loop that fills `restoreQueriesMap` from the features the registry
declares for the group; `ftMap.at` throws for a feature the payload lacks. -/
def buildRestoreQueries (passphrase : String) (ftMap : List (String × FeatureAndStatus)) :
    List SrrFeaturePriorityStruct → List (String × RestoreQuery) →
      Except Exn (List (String × RestoreQuery))
  | [], m => .ok m
  | fp :: rest, m =>
    match mapFind ftMap fp.m_feature with
    | none => .error (.out_of_range "map::at")
    | some fs =>
      buildRestoreQueries passphrase ftMap rest
        (mapUpdate fp.m_feature {} (fun request =>
          { request with
            passpharse := passphrase,
            map_features_data := pbInsert request.map_features_data (fp.m_feature, fs.feature) }) m)

/-- `restoreQueriesMap[featureName]`: an empty query for a missing key. -/
def queryFor (restoreQueriesMap : List (String × RestoreQuery)) (featureName : String) :
    RestoreQuery :=
  (mapFind restoreQueriesMap featureName).getD {}

/-- The loop that saves the current state of every feature of the group; a
failed save is logged and skipped. -/
def stageRollback (w : SrrWorker) (passphrase : String) :
    List SrrFeature → SaveResponse → List Request → List Request × SaveResponse
  | [], R, trace => (trace, R)
  | feature :: rest, R, trace =>
    match saveFeatures w [feature.m_feature_name] passphrase trace with
    | (t, .ok r) => stageRollback w passphrase rest (R.append r) t
    | (t, .error _) => stageRollback w passphrase rest R t

/-- The reset loop over the features it is given (the caller passes the list
reversed). -/
def resetPhase (w : SrrWorker) : List SrrFeature → List Request → List Request × Except Exn Unit
  | [], trace => (trace, .ok ())
  | feature :: rest, trace =>
    match resetIfSupported w feature.m_feature_name trace with
    | (t, .ok _) => resetPhase w rest t
    | (t, .error e) => (t, .error e)

/-- The restore loop of a group. It ends with `none` when every feature was
restored, with the failing feature and its exception otherwise. -/
def restorePhase (w : SrrWorker) (restoreQueriesMap : List (String × RestoreQuery)) :
    List SrrFeature → Bool → List Request → List Request × Bool × Option (FeatureName × Exn)
  | [], restart, trace => (trace, restart, none)
  | feature :: rest, restart, trace =>
    match restoreFeature w feature.m_feature_name
        (queryFor restoreQueriesMap feature.m_feature_name) trace with
    | (t, .ok _) =>
      match featureAt w.reg feature.m_feature_name with
      | .ok d => restorePhase w restoreQueriesMap rest (restart || d.m_restart) t
      | .error e => (t, restart, some (feature.m_feature_name, e))
    | (t, .error e) => (t, restart, some (feature.m_feature_name, e))

/-- The status entry of a group whose payload lacks a declared feature. -/
def missingFeaturesStatus (groupId : String) : RestoreStatus :=
  { m_name := groupId, m_status := statusToString Status.FAILED,
    m_error := "Group " ++ groupId ++ " cannot be restored. Missing features" }

/-- The body of the loop over the groups of a version 2.0 payload. -/
def restoreGroup (w : SrrWorker) (passphrase : String) (group : Group) (st : RestoreState) :
    RestoreState × Except Exn Unit :=
  match mapFind w.reg.SrrGroupMap group.m_group_id with
  | none => (st, .ok ())
  | some g =>
    match buildRestoreQueries passphrase (ftMapOf group.m_features) g.m_fp [] with
    | .error _ =>
      ({ st with status_list := st.status_list ++ [missingFeaturesStatus group.m_group_id] },
        .ok ())
    | .ok restoreQueriesMap =>
      match stageRollback w passphrase group.m_features {} st.trace with
      | (t1, rollbackSaveResponse) =>
        match resetPhase w group.m_features.reverse t1 with
        | (t2, .error e) => ({ st with trace := t2 }, .error e)
        | (t2, .ok _) =>
          match restorePhase w restoreQueriesMap group.m_features st.restart t2 with
          | (t3, restart, none) =>
            (⟨t3, st.status_list ++
                [⟨group.m_group_id, statusToString Status.SUCCESS, ""⟩], restart⟩, .ok ())
          | (t3, restart, some (featureName, ex)) =>
            match rollback w rollbackSaveResponse passphrase t3 with
            | (t4, .ok b) =>
              (⟨t4, st.status_list ++
                  [⟨group.m_group_id, statusToString Status.FAILED,
                    "Restore failed for feature " ++ featureName ++ ": " ++ ex.what⟩],
                restart || b⟩, .ok ())
            | (t4, .error e) => (⟨t4, st.status_list, restart⟩, .error e)

/-- The loop over the groups. -/
def restoreGroups (w : SrrWorker) (passphrase : String) :
    List Group → RestoreState → RestoreState × Except Exn Unit
  | [], st => (st, .ok ())
  | group :: rest, st =>
    match restoreGroup w passphrase group st with
    | (st', .ok _) => restoreGroups w passphrase rest st'
    | (st', .error e) => (st', .error e)

/-- The body of the first loop of the branch: the features of the group are
sorted by priority. -/
def sortedGroup (reg : Registry) (group : Group) : Group :=
  { group with m_features := sortByPriority reg group.m_features }

/-- The first loop of the branch: every group gets its features sorted. -/
def sortGroups (reg : Registry) (groups : List Group) : List Group :=
  groups.map (sortedGroup reg)

/-- The ids of the groups whose digest check fails, in payload order. -/
def groupsIntegrityCheckFailed (groups : List Group) : List String :=
  (groups.filter (fun group => !checkDataIntegrity group)).map (fun group => group.m_group_id)

/-- The text of `SrrIntegrityCheckFailed`: `std::accumulate` of the ids onto
the string of one blank. -/
def integrityError (ids : List String) : String :=
  "Data integrity check failed for groups:" ++ ids.foldl (fun acc id => acc ++ id) " "

/-- The branch `m_version == "2.0"`. -/
def restoreV2 (w : SrrWorker) (passphrase : String) (groups : List Group) (force : Bool) :
    RestoreState × Except Exn Unit :=
  let groups := sortGroups w.reg groups
  let failed := if force then [] else groupsIntegrityCheckFailed groups
  if !force && !failed.isEmpty then
    ({}, .error (.SrrIntegrityCheckFailed (integrityError failed)))
  else restoreGroups w passphrase groups {}

/-- The `try` block of `requestRestore`: the state it leaves and the value of
`m_status` at its end, or the exception that left it. -/
def restoreTry (w : SrrWorker) (req : SrrRestoreRequest) (force : Bool) :
    RestoreState × Except Exn String :=
  if w.fty.decrypt req.m_checksum req.m_passphrase ≠ req.m_passphrase then
    ({}, .error (.runtime_error "Invalid passphrase"))
  else if req.m_version = "1.0" then
    match restoreV1 w req.m_passphrase req.m_data.getSrrFeatures with
    | (st, .ok _) => (st, .ok (statusToString Status.FAILED))
    | (st, .error e) => (st, .error e)
  else if req.m_version = "2.0" then
    match req.m_data with
    | .V2 groups =>
      match restoreV2 w req.m_passphrase groups force with
      | (st, .ok _) => (st, .ok (statusToString Status.SUCCESS))
      | (st, .error e) => (st, .error e)
    | .V1 _ => ({}, .error (.runtime_error "bad cast"))
  else ({}, .error (.SrrInvalidVersion "Invalid SRR version"))

/-- What one call of `requestRestore` does: the reply, whether the delayed
restart is started, and the requests it sent. -/
structure RestoreOutcome where
  response : SrrRestoreResponse
  restart : Bool
  trace : List Request
  deriving DecidableEq, Repr

/-- The three `catch` clauses: status and error text of the reply. -/
def catchStatus : Exn → String × String
  | .SrrRestoreFailed e => (statusToString Status.FAILED, e)
  | .SrrIntegrityCheckFailed e => (statusToString Status.UNKNOWN, e)
  | e => (statusToString Status.FAILED, e.what)

/-- `SrrWorker::requestRestore`, on the parsed request. -/
def requestRestore (w : SrrWorker) (req : SrrRestoreRequest) (force : Bool) : RestoreOutcome :=
  match restoreTry w req force with
  | (st, .ok status) =>
    { response := { m_status := status, m_status_list := st.status_list },
      restart := st.restart, trace := st.trace }
  | (st, .error e) =>
    { response := { m_status := (catchStatus e).1, m_error := (catchStatus e).2,
                    m_status_list := st.status_list },
      restart := st.restart, trace := st.trace }

/-- `SrrWorker::isVerstionCompatible`. -/
def isVerstionCompatible (w : SrrWorker) (version : String) : Bool :=
  decide (version ∈ w.m_supportedVersions)

/-! ## Vocabulary of the statements -/

/-- The agent that owns a feature, the empty string for an unknown feature. -/
def agentOf (reg : Registry) (featureName : FeatureName) : String :=
  ((mapFind reg.SrrFeatureMap featureName).map (fun d => d.m_agent)).getD ""

/-- The request by which `restoreFeature` sends `query` for a feature. -/
def restoreRequest (w : SrrWorker) (featureName : FeatureName) (query : RestoreQuery) : Request :=
  ⟨"restore", queueOf w.reg (agentOf w.reg featureName), agentOf w.reg featureName, .restore query⟩

/-- The request by which `resetFeature` resets a feature. -/
def resetRequest (w : SrrWorker) (featureName : FeatureName) : Request :=
  ⟨"reset", queueOf w.reg (agentOf w.reg featureName), agentOf w.reg featureName,
    .reset w.m_srrVersion [featureName]⟩

/-- The staging loop of a group run from the state `st`: the requests sent so
far and the rollback accumulator. -/
def staged (w : SrrWorker) (p : String) (group : Group) (st : RestoreState) :
    List Request × SaveResponse :=
  stageRollback w p group.m_features {} st.trace

/-- The reset loop of a group, run after the staging loop. -/
def afterReset (w : SrrWorker) (p : String) (group : Group) (st : RestoreState) :
    List Request × Except Exn Unit :=
  resetPhase w group.m_features.reverse (staged w p group st).1

/-- The restore loop of a group, run after the reset loop. -/
def afterRestore (w : SrrWorker) (p : String) (queries : List (String × RestoreQuery))
    (group : Group) (st : RestoreState) : List Request × Bool × Option (FeatureName × Exn) :=
  restorePhase w queries group.m_features st.restart (afterReset w p group st).1

/-- The rollback of a group, run after the restore loop. -/
def afterRollback (w : SrrWorker) (p : String) (queries : List (String × RestoreQuery))
    (group : Group) (st : RestoreState) : List Request × Except Exn Bool :=
  rollback w (staged w p group st).2 p (afterRestore w p queries group st).1

def Exn.isIntegrityCheckFailed : Exn → Bool
  | .SrrIntegrityCheckFailed _ => true
  | _ => false

/-- A group without its stored digest. -/
def withoutDigest (group : Group) : Group := { group with m_data_integrity := "" }

/-- Every restore request is answered, and answered with SUCCESS. -/
def RestoresSucceed (w : SrrWorker) : Prop :=
  ∀ (t : List Request) (queue agent : String) (q : RestoreQuery),
    ∃ resp, w.bus (t ++ [⟨"restore", queue, agent, .restore q⟩]) = .ok resp
      ∧ resp.restore.status.status = Status.SUCCESS

/-- The status entry of a group whose features were all restored. -/
def successStatus (group : Group) : RestoreStatus :=
  ⟨group.m_group_id, statusToString Status.SUCCESS, ""⟩

/-- The payload group holds every feature that the registry declares for its
id. -/
def Complete (reg : Registry) (group : Group) : Prop :=
  ∀ decl, mapFind reg.SrrGroupMap group.m_group_id = some decl →
    ∀ fp ∈ decl.m_fp, fp.m_feature ∈ group.m_features.map (fun f => f.m_feature_name)

/-- The save request that `saveFeatures` builds for one entry of the agent
map. -/
def saveRequest (w : SrrWorker) (passphrase : String) (e : String × List FeatureName) : Request :=
  ⟨"save", queueOf w.reg e.1, e.1, .save e.2 passphrase⟩

/-- The feature is registered and owned by the agent. -/
def OwnedBy (reg : Registry) (agent : String) (f : FeatureName) : Prop :=
  ∃ d, mapFind reg.SrrFeatureMap f = some d ∧ d.m_agent = agent

/-- What the agent map holds after the features `processed`: keys in
ascending order, under every key the sorted set of the processed features
that the key owns, and no key for an agent that owns none of them. -/
def AgentMapInv (reg : Registry) (acc : List (String × List FeatureName))
    (processed : List FeatureName) : Prop :=
  (acc.map Prod.fst).Pairwise (fun a b => stringLess a b = true)
  ∧ (∀ a s, mapFind acc a = some s →
      s.Pairwise (fun x y => stringLess x y = true) ∧ s ≠ []
      ∧ ∀ f, f ∈ s ↔ (f ∈ processed ∧ OwnedBy reg a f))
  ∧ (∀ a, mapFind acc a = none → ∀ f ∈ processed, ¬ OwnedBy reg a f)

/-- The request is a restore request. -/
def isRestore (r : Request) : Bool := r.action == "restore"

/-- The feature name is a key of `SrrFeatureMap`. -/
def Registered (reg : Registry) (n : FeatureName) : Prop :=
  (mapFind reg.SrrFeatureMap n).isSome = true

/-- No request fails on the bus, the agents return snapshots of registered
features only, and the reply to a reset lists the feature that was to be
reset. The statuses in the replies are free. -/
def Responsive (w : SrrWorker) : Prop :=
  (∀ t, ∃ r, w.bus t = .ok r ∧ ∀ kv ∈ r.save.map_features_data, Registered w.reg kv.1)
  ∧ (∀ t queue agent version n r,
      w.bus (t ++ [⟨"reset", queue, agent, .reset version [n]⟩]) = .ok r →
      (r.reset.map_features_status.lookup n).isSome = true)

/-- The reply with every status of its reset part set to SUCCESS. -/
def resetsAsSuccess (r : Response) : Response :=
  { r with reset := ⟨r.reset.map_features_status.map (fun e => (e.1, ⟨Status.SUCCESS, e.2.error⟩))⟩ }

/-- The worker on a bus whose answered resets all report SUCCESS and that is
otherwise the bus of `w`. -/
def withResetsSucceeding (w : SrrWorker) : SrrWorker :=
  { w with bus := fun t => (w.bus t).map resetsAsSuccess }

/-- The restore query that the loop of version 1.0 prepares for a feature. -/
def featureQuery (passphrase : String) (feature : SrrFeature) : RestoreQuery :=
  { passpharse := passphrase,
    map_features_data := [(feature.m_feature_name, feature.m_feature_and_status.feature)] }

/-- The rollback accumulator of version 1.0 after the save of one more feature:
a save that threw adds nothing. -/
def accumulate (R : SaveResponse) (saved : Except Exn SaveResponse) : SaveResponse :=
  match saved with
  | .ok r => R.append r
  | .error _ => R

/-- Every reset request for a feature that declares a reset is answered, and
the reply lists the feature. The status in the reply is free. -/
def ResetsAnswered (w : SrrWorker) : Prop :=
  ∀ (t : List Request) (queue agent : String) (n : FeatureName),
    (∃ d, mapFind w.reg.SrrFeatureMap n = some d ∧ d.m_reset = true) →
    ∃ r, w.bus (t ++ [⟨"reset", queue, agent, .reset w.m_srrVersion [n]⟩]) = .ok r
      ∧ (r.reset.map_features_status.lookup n).isSome = true

/-- The feature is registered with the restart flag set. -/
def asksRestart (reg : Registry) (featureName : FeatureName) : Bool :=
  (mapFind reg.SrrFeatureMap featureName).any (fun d => d.m_restart)

/-- Whether one of the features of the groups asks for a restart. -/
def anyAsksRestart (reg : Registry) (groups : List Group) : Bool :=
  groups.any (fun g => g.m_features.any (fun f => asksRestart reg f.m_feature_name))

/-- The status entry of a group whose restore failed at a feature. -/
def failedStatus (group : Group) (failed : FeatureName × Exn) : RestoreStatus :=
  ⟨group.m_group_id, statusToString Status.FAILED,
    "Restore failed for feature " ++ failed.1 ++ ": " ++ failed.2.what⟩

/-- The test behind `Complete`: every feature that the registry declares for
the id of the group is among the features of the group. -/
def isComplete (reg : Registry) (group : Group) : Bool :=
  (mapFind reg.SrrGroupMap group.m_group_id).all (fun decl =>
    decl.m_fp.all (fun fp =>
      decide (fp.m_feature ∈ group.m_features.map (fun f => f.m_feature_name))))

/-! ## Sample workers and payloads -/

/-- A stand-in for the passphrase helpers: the checksum of a passphrase is the
passphrase itself. -/
def sampleFty : Fty :=
  ⟨fun data _ => data, fun checksum _ => checksum, fun s => decide (8 ≤ s.length), "8"⟩

/-- The snapshot an agent returns for a feature. -/
def snapshotOf (n : FeatureName) : FeatureAndStatus :=
  ⟨⟨"1.0", "\"saved " ++ n ++ "\""⟩, ⟨.SUCCESS, ""⟩⟩

/-- The entry of a restore payload for a feature. -/
def payloadOf (n : FeatureName) : SrrFeature :=
  ⟨n, ⟨⟨"1.0", "\"new " ++ n ++ "\""⟩, ⟨.SUCCESS, ""⟩⟩⟩

/-- The reply to a save: a snapshot of every feature asked for. -/
def saveReply (fs : List FeatureName) : Response :=
  ⟨⟨fs.map (fun f => (f, snapshotOf f))⟩, ⟨⟨.SUCCESS, ""⟩⟩, {}⟩

/-- A reply whose restore status is SUCCESS. -/
def successReply : Response := ⟨{}, ⟨⟨.SUCCESS, ""⟩⟩, {}⟩

/-- A reply whose restore status is FAILED. -/
def refusedReply : Response := ⟨{}, ⟨⟨.FAILED, "refused"⟩⟩, {}⟩

/-- The features a restore request carries. -/
def restoredFeatures (r : Request) : List FeatureName :=
  match r.userData with
  | .restore q => q.map_features_data.map Prod.fst
  | _ => []

/-- The features a reset request names. -/
def resetFeatures (r : Request) : List FeatureName :=
  match r.userData with
  | .reset _ fs => fs
  | _ => []

/-- Agents that answer every save with snapshots and every restore with
SUCCESS. -/
def obligingBus : List Request → Except String Response := fun t =>
  match t.getLast? with
  | some ⟨_, _, _, .save fs _⟩ => .ok (saveReply fs)
  | _ => .ok successReply

def obligingWorker : SrrWorker := ⟨referenceRegistry, sampleFty, "2.0", ["1.0", "2.0"], obligingBus⟩

/-- A payload group `config` with its six features. -/
def configPayload : Group :=
  evalDataIntegrity referenceRegistry
    ⟨G_CONFIG, G_CONFIG,
      [F_AUTOMATION_SETTINGS, F_DISCOVERY, F_MASS_MANAGEMENT, F_MONITORING_FEATURE_NAME,
        F_NOTIFICATION_FEATURE_NAME, F_USER_SESSION_FEATURE_NAME].map payloadOf, ""⟩

def configRestoreRequest : SrrRestoreRequest :=
  ⟨"2.0", "Eaton1234!", "Eaton1234!", .V2 [configPayload]⟩

/-- The registry entry of the group `config`. -/
def configDecl : SrrGroupStruct :=
  (mapFind referenceRegistry.SrrGroupMap G_CONFIG).getD ⟨"", "", "", []⟩

/-- The restore queries built for the payload group `config`. -/
def configQueries : List (String × RestoreQuery) :=
  match buildRestoreQueries "Eaton1234!" (ftMapOf configPayload.m_features) configDecl.m_fp [] with
  | .ok m => m
  | .error _ => []

/-- A payload group `assets` whose stored digest is not the digest of its
features. -/
def tamperedAssetsPayload : Group := ⟨G_ASSETS, G_ASSETS, [payloadOf F_ASSET_AGENT], "00"⟩

/-- The reference tables with the reset flag set for every feature. -/
def resettableRegistry : Registry :=
  { referenceRegistry with
    SrrFeatureMap := initSrrFeatures.map (fun e => (e.1, { e.2 with m_reset := true })) }

/-- Agents that answer every save with snapshots and every reset with SUCCESS,
and that refuse to restore `notification`. -/
def refusingBus : List Request → Except String Response := fun t =>
  match t.getLast? with
  | some ⟨_, _, _, .save fs _⟩ => .ok (saveReply fs)
  | some ⟨_, _, _, .reset _ fs⟩ =>
    .ok ⟨{}, ⟨⟨.SUCCESS, ""⟩⟩, ⟨fs.map (fun f => (f, ⟨.SUCCESS, ""⟩))⟩⟩
  | some ⟨_, _, _, .restore q⟩ =>
    if q.map_features_data.map Prod.fst = [F_NOTIFICATION_FEATURE_NAME] then .ok refusedReply
    else .ok successReply
  | none => .ok successReply

def resettableWorker : SrrWorker :=
  ⟨resettableRegistry, sampleFty, "2.0", ["1.0", "2.0"], refusingBus⟩

/-- Agents that return the snapshots of a save in the reverse of the order in
which the features were asked for. -/
def reversingBus : List Request → Except String Response := fun t =>
  match t.getLast? with
  | some ⟨_, _, _, .save fs _⟩ => .ok (saveReply fs.reverse)
  | _ => .ok successReply

def reversingWorker : SrrWorker :=
  ⟨referenceRegistry, sampleFty, "2.0", ["1.0", "2.0"], reversingBus⟩

/-- The names of the features of a group, in list order. -/
def featureNames (group : Group) : List FeatureName :=
  group.m_features.map (fun f => f.m_feature_name)

/-- Agents that leave `discovery` out of their save replies. -/
def forgetfulBus : List Request → Except String Response := fun t =>
  match t.getLast? with
  | some ⟨_, _, _, .save fs _⟩ => .ok (saveReply (fs.filter (fun f => f != F_DISCOVERY)))
  | _ => .ok successReply

def forgetfulWorker : SrrWorker :=
  ⟨referenceRegistry, sampleFty, "2.0", ["1.0", "2.0"], forgetfulBus⟩

/-- A worker constructed with "1.0" as its only supported version. -/
def legacyWorker : SrrWorker := ⟨referenceRegistry, sampleFty, "1.0", ["1.0"], obligingBus⟩

/-- The feature names that the groups of a registry list, group by group. -/
def groupedFeatures (reg : Registry) : List String :=
  reg.SrrGroupMap.flatMap (fun g => g.2.m_fp.map (fun fp => fp.m_feature))

/-- A bus on which every request times out. -/
def deafBus : List Request → Except String Response := fun _ => .error "timeout"

def deafWorker : SrrWorker := ⟨referenceRegistry, sampleFty, "2.0", ["1.0", "2.0"], deafBus⟩

/-- Agents that refuse every restore of the restore loop; the restore requests
of a rollback (they carry the version) time out on the bus. -/
def rollbackDeafBus : List Request → Except String Response := fun t =>
  match t.getLast? with
  | some ⟨_, _, _, .save fs _⟩ => .ok (saveReply fs)
  | some ⟨_, _, _, .restore q⟩ => if q.version = "" then .ok refusedReply else .error "timeout"
  | _ => .ok successReply

def rollbackDeafWorker : SrrWorker :=
  ⟨referenceRegistry, sampleFty, "2.0", ["1.0", "2.0"], rollbackDeafBus⟩

/-- A bus on which every reset request times out; the other requests are
answered as by `obligingBus`. -/
def resetDeafBus : List Request → Except String Response := fun t =>
  match t.getLast? with
  | some ⟨_, _, _, .save fs _⟩ => .ok (saveReply fs)
  | some ⟨_, _, _, .reset _ _⟩ => .error "timeout"
  | _ => .ok successReply

def resetDeafWorker : SrrWorker :=
  ⟨resettableRegistry, sampleFty, "2.0", ["1.0", "2.0"], resetDeafBus⟩

/-- The bus of `resetDeafBus` with its reset requests answered: every feature
named in a reset is reported as SUCCESS. -/
def resetAnsweringBus : List Request → Except String Response := fun t =>
  match t.getLast? with
  | some ⟨_, _, _, .save fs _⟩ => .ok (saveReply fs)
  | some ⟨_, _, _, .reset _ fs⟩ =>
    .ok ⟨{}, ⟨⟨.SUCCESS, ""⟩⟩, ⟨fs.map (fun f => (f, ⟨.SUCCESS, ""⟩))⟩⟩
  | _ => .ok successReply

def resetAnsweringWorker : SrrWorker :=
  ⟨resettableRegistry, sampleFty, "2.0", ["1.0", "2.0"], resetAnsweringBus⟩

/-- A version 1.0 payload with the feature `discovery`. -/
def discoveryRestoreRequestV1 : SrrRestoreRequest :=
  ⟨"1.0", "Eaton1234!", "Eaton1234!", .V1 [payloadOf F_DISCOVERY]⟩

/-- A version 1.0 payload with `discovery`, `notification` and `monitoring`. -/
def threeFeaturesRestoreRequestV1 : SrrRestoreRequest :=
  ⟨"1.0", "Eaton1234!", "Eaton1234!",
    .V1 ([F_DISCOVERY, F_NOTIFICATION_FEATURE_NAME, F_MONITORING_FEATURE_NAME].map payloadOf)⟩

/-- The state of the version 1.0 loop of `resettableWorker` after `discovery`. -/
def afterDiscovery : V1State :=
  (restoreV1Loop resettableWorker "Eaton1234!" [payloadOf F_DISCOVERY] ⟨[], {}, [], ""⟩).1

/-- The save of `notification` that follows. -/
def notificationSave : List Request × Except Exn SaveResponse :=
  saveFeatures resettableWorker [F_NOTIFICATION_FEATURE_NAME] "Eaton1234!" afterDiscovery.trace

/-- The reset of `notification` that follows. -/
def notificationReset : List Request × Except Exn Unit :=
  resetIfSupported resettableWorker F_NOTIFICATION_FEATURE_NAME notificationSave.1

/-- The restore of `notification` that follows; the agent refuses it. -/
def notificationRestore : List Request × Except Exn RestoreResponse :=
  restoreFeature resettableWorker F_NOTIFICATION_FEATURE_NAME
    (featureQuery "Eaton1234!" (payloadOf F_NOTIFICATION_FEATURE_NAME)) notificationReset.1

/-- The payload group `config` with a stored digest that is not the digest of
its features. -/
def tamperedConfigPayload : Group := { configPayload with m_data_integrity := "00" }

def tamperedConfigRestoreRequest : SrrRestoreRequest :=
  ⟨"2.0", "Eaton1234!", "Eaton1234!", .V2 [tamperedAssetsPayload, tamperedConfigPayload]⟩

/-- The state of the group loop of `resettableWorker` after the group `assets`
of `tamperedConfigRestoreRequest`. -/
def afterAssets : RestoreState :=
  (restoreGroups resettableWorker "Eaton1234!"
    (sortGroups resettableWorker.reg [tamperedAssetsPayload]) {}).1

/-- A save request for the groups `assets` and `config`. -/
def roundTripSave : SrrSaveRequest := ⟨"Eaton1234!", ["assets", "config"]⟩

/-! ## Sorting by priority -/

theorem priorityOrder_total (reg : Registry) :
    IsTotal SrrFeature (fun a b => priorityGreater reg b a = false) :=
  ⟨fun a b => by
    simp only [priorityGreater, gt_iff_lt, decide_eq_false_iff_not, not_lt]
    exact Nat.le_total _ _⟩

theorem priorityOrder_trans (reg : Registry) :
    IsTrans SrrFeature (fun a b => priorityGreater reg b a = false) :=
  ⟨fun a b c hab hbc => by
    simp only [priorityGreater, gt_iff_lt, decide_eq_false_iff_not, not_lt] at *
    exact Nat.le_trans hbc hab⟩

theorem sortByPriority_perm (reg : Registry) (fs : List SrrFeature) :
    (sortByPriority reg fs).Perm fs :=
  List.perm_insertionSort _ fs

theorem sortByPriority_sorted (reg : Registry) (fs : List SrrFeature) :
    (sortByPriority reg fs).Pairwise
      (fun a b => getPriority reg b.m_feature_name ≤ getPriority reg a.m_feature_name) := by
  haveI := priorityOrder_total reg
  haveI := priorityOrder_trans reg
  have h := List.sorted_insertionSort (fun a b => priorityGreater reg b a = false) fs
  refine List.Pairwise.imp ?_ h
  intro a b hab
  simpa [priorityGreater] using hab

theorem sortByPriority_of_sorted (reg : Registry) (fs : List SrrFeature)
    (h : fs.Pairwise
      (fun a b => getPriority reg b.m_feature_name ≤ getPriority reg a.m_feature_name)) :
    sortByPriority reg fs = fs := by
  apply List.Sorted.insertionSort_eq
  refine List.Pairwise.imp ?_ h
  intro a b hab
  simpa [priorityGreater] using hab

theorem sortByPriority_idem (reg : Registry) (fs : List SrrFeature) :
    sortByPriority reg (sortByPriority reg fs) = sortByPriority reg fs :=
  sortByPriority_of_sorted reg _ (sortByPriority_sorted reg fs)

/-! ## Requests sent by the single steps -/

theorem featureAt_ok_agent {reg : Registry} {n : String} {d : SrrFeatureStruct}
    (h : featureAt reg n = .ok d) : agentOf reg n = d.m_agent ∧ mapFind reg.SrrFeatureMap n = some d := by
  unfold featureAt at h
  split at h
  · next d' hd => cases h; simp [agentOf, hd]
  · cases h

theorem sendRequest_fst (w : SrrWorker) (q : Query) (a qu ag : String) (t : List Request) :
    (sendRequest w q a qu ag t).1 = t ++ [⟨a, qu, ag, q⟩] := by
  simp only [sendRequest]
  cases w.bus (t ++ [⟨a, qu, ag, q⟩]) <;> rfl

/-- A restore that returns, or that fails with `SrrRestoreFailed`, has sent
its request. -/
theorem restoreFeature_sent {w : SrrWorker} {n : String} {q : RestoreQuery}
    {t t' : List Request} {res : Except Exn RestoreResponse}
    (h : restoreFeature w n q t = (t', res))
    (hres : (∃ r, res = .ok r) ∨ (∃ e, res = .error e ∧ e.isRestoreFailed = true)) :
    t' = t ++ [restoreRequest w n q] ∧ (mapFind w.reg.SrrFeatureMap n).isSome = true := by
  unfold restoreFeature at h
  split at h
  · next e he =>
    cases h
    unfold featureAt at he
    split at he
    · cases he
    · cases he
      rcases hres with ⟨r, hr⟩ | ⟨e, he', hi⟩
      · cases hr
      · cases he'; simp [Exn.isRestoreFailed] at hi
  · next d hd =>
    obtain ⟨ha, hm⟩ := featureAt_ok_agent hd
    have hs := sendRequest_fst w (.restore q) "restore" (queueOf w.reg d.m_agent) d.m_agent t
    split at h
    · next t1 e hsend =>
      cases h
      rw [hsend] at hs
      refine ⟨?_, by simp [hm]⟩
      simpa [restoreRequest, ha] using hs
    · next t1 resp hsend =>
      rw [hsend] at hs
      have ht : t1 = t ++ [restoreRequest w n q] := by simpa [restoreRequest, ha] using hs
      split at h <;> cases h <;> exact ⟨ht, by simp [hm]⟩

/-- Every step only appends to the list of requests. -/
theorem restoreFeature_extends (w : SrrWorker) (n : String) (q : RestoreQuery) (t : List Request) :
    (restoreFeature w n q t).1 = t ∨ (restoreFeature w n q t).1 = t ++ [restoreRequest w n q] := by
  unfold restoreFeature
  split
  · left; rfl
  · next d hd =>
    obtain ⟨ha, _⟩ := featureAt_ok_agent hd
    have hs := sendRequest_fst w (.restore q) "restore" (queueOf w.reg d.m_agent) d.m_agent t
    right
    split
    · next t1 e hsend => rw [hsend] at hs; simpa [restoreRequest, ha] using hs
    · next t1 resp hsend =>
      rw [hsend] at hs
      split <;> simpa [restoreRequest, ha] using hs

theorem resetFeature_fst (w : SrrWorker) (n : String) (t : List Request) :
    (resetFeature w n t).1 = t ∨ (resetFeature w n t).1 = t ++ [resetRequest w n] := by
  unfold resetFeature
  split
  · left; rfl
  · next d hd =>
    obtain ⟨ha, _⟩ := featureAt_ok_agent hd
    have hs := sendRequest_fst w (.reset w.m_srrVersion [n]) "reset" (queueOf w.reg d.m_agent)
      d.m_agent t
    right
    split
    · next t1 e hsend => rw [hsend] at hs; simpa [resetRequest, ha] using hs
    · next t1 resp hsend =>
      rw [hsend] at hs
      split
      · simpa [resetRequest, ha] using hs
      · split <;> simpa [resetRequest, ha] using hs

theorem resetIfSupported_fst (w : SrrWorker) (n : String) (t : List Request) :
    (resetIfSupported w n t).1 = t ∨ (resetIfSupported w n t).1 = t ++ [resetRequest w n] := by
  unfold resetIfSupported
  split
  · left; rfl
  · split
    · have h := resetFeature_fst w n t
      split
      · next t1 r heq => rw [heq] at h; exact h
      · next t1 e heq => rw [heq] at h; split <;> exact h
    · left; rfl

/-! ## `std::map::insert` and the map of `rollback` -/

theorem mapInsert_keys {β : Type} (k : String) (v : β) (m : List (String × β)) (x : String)
    (h : x ∈ (mapInsert k v m).map Prod.fst) : x = k ∨ x ∈ m.map Prod.fst := by
  induction m with
  | nil => simpa [mapInsert] using h
  | cons hd tl ih =>
    obtain ⟨k', v'⟩ := hd
    simp only [mapInsert] at h
    split at h
    · simpa using h
    · split at h
      · right; exact h
      · simp only [List.map_cons, List.mem_cons] at h ⊢
        rcases h with h | h
        · exact Or.inr (Or.inl h)
        · rcases ih h with h | h
          · exact Or.inl h
          · exact Or.inr (Or.inr h)

/-- The body of the group loop, written with the four stages. -/
theorem restoreGroup_eq (w : SrrWorker) (p : String) (group : Group) (st : RestoreState)
    (g : SrrGroupStruct) (queries : List (String × RestoreQuery))
    (hg : mapFind w.reg.SrrGroupMap group.m_group_id = some g)
    (hq : buildRestoreQueries p (ftMapOf group.m_features) g.m_fp [] = .ok queries) :
    restoreGroup w p group st =
      match (afterReset w p group st).2 with
      | .error e => ({ st with trace := (afterReset w p group st).1 }, .error e)
      | .ok _ =>
        match (afterRestore w p queries group st).2.2 with
        | none =>
          (⟨(afterRestore w p queries group st).1, st.status_list ++
              [⟨group.m_group_id, statusToString Status.SUCCESS, ""⟩],
            (afterRestore w p queries group st).2.1⟩, .ok ())
        | some failed =>
          match (afterRollback w p queries group st).2 with
          | .ok b =>
            (⟨(afterRollback w p queries group st).1, st.status_list ++
                [⟨group.m_group_id, statusToString Status.FAILED,
                  "Restore failed for feature " ++ failed.1 ++ ": " ++ failed.2.what⟩],
              (afterRestore w p queries group st).2.1 || b⟩, .ok ())
          | .error e =>
            (⟨(afterRollback w p queries group st).1, st.status_list,
              (afterRestore w p queries group st).2.1⟩, .error e) := by
  unfold restoreGroup
  simp only [hg, hq, afterRollback, afterRestore, afterReset, staged]
  rcases stageRollback w p group.m_features {} st.trace with ⟨t1, R⟩
  simp only []
  rcases resetPhase w group.m_features.reverse t1 with ⟨t2, r2⟩
  cases r2 with
  | error e => simp only []
  | ok u =>
    simp only []
    rcases restorePhase w queries group.m_features st.restart t2 with ⟨t3, restart, r3⟩
    cases r3 with
    | none => simp only []
    | some failed =>
      obtain ⟨n, ex⟩ := failed
      simp only []
      rcases rollback w R p t3 with ⟨t4, r4⟩
      cases r4 <;> simp only []

/-! ## The feature map of a payload group and the restore queries -/

theorem mapFind_mapUpdate_none {β : Type} (k : String) (d : β) (f : β → β)
    (m : List (String × β)) (x : String) :
    mapFind (mapUpdate k d f m) x = none ↔ x ≠ k ∧ mapFind m x = none := by
  induction m with
  | nil =>
    by_cases hx : x = k
    · simp [mapFind, mapUpdate, List.lookup_cons, hx]
    · have : (x == k) = false := by simpa using hx
      simp [mapFind, mapUpdate, List.lookup_cons, this, hx]
  | cons hd tl ih =>
    obtain ⟨k', v'⟩ := hd
    simp only [mapFind] at ih ⊢
    simp only [mapUpdate]
    by_cases hx : x = k
    · subst hx
      split
      · simp [List.lookup_cons]
      · split
        · next h => subst h; simp [List.lookup_cons]
        · next h =>
          have : (x == k') = false := by simpa using h
          simp [List.lookup_cons, this, ih]
    · have hxk : (x == k) = false := by simpa using hx
      split
      · simp [List.lookup_cons, hxk, hx]
      · split
        · next h => subst h; simp [List.lookup_cons, hxk, hx]
        · by_cases hx' : x = k'
          · subst hx'; simp [List.lookup_cons]
          · have : (x == k') = false := by simpa using hx'
            simp [List.lookup_cons, this, ih, hx]

theorem mapFind_ftMap_foldl (fs : List SrrFeature) (acc : List (String × FeatureAndStatus))
    (x : String) :
    mapFind (fs.foldl (fun m f =>
      mapUpdate f.m_feature_name f.m_feature_and_status (fun _ => f.m_feature_and_status) m) acc) x
        = none ↔
      mapFind acc x = none ∧ x ∉ fs.map (fun f => f.m_feature_name) := by
  induction fs generalizing acc with
  | nil => simp
  | cons f tl ih =>
    simp only [List.foldl_cons, List.map_cons, List.mem_cons, not_or]
    rw [ih, mapFind_mapUpdate_none]
    tauto

/-- `ftMap.at` fails exactly for the names that the payload group lacks. -/
theorem mapFind_ftMapOf (fs : List SrrFeature) (x : String) :
    mapFind (ftMapOf fs) x = none ↔ x ∉ fs.map (fun f => f.m_feature_name) := by
  unfold ftMapOf
  rw [mapFind_ftMap_foldl]
  simp [mapFind]

theorem buildRestoreQueries_complete (p : String) (ftMap : List (String × FeatureAndStatus))
    (fps : List SrrFeaturePriorityStruct) :
    ∀ (m : List (String × RestoreQuery)),
      (∀ fp ∈ fps, mapFind ftMap fp.m_feature ≠ none) →
      ∃ queries, buildRestoreQueries p ftMap fps m = .ok queries := by
  induction fps with
  | nil => intro m _; exact ⟨m, rfl⟩
  | cons fp tl ih =>
    intro m h
    simp only [buildRestoreQueries]
    split
    · next hnone => exact absurd hnone (h fp (List.mem_cons_self _ _))
    · exact ih _ (fun fp' hfp' => h fp' (List.mem_cons_of_mem _ hfp'))

/-! ## No step of the group loop raises `SrrIntegrityCheckFailed` -/

theorem featureAt_error {reg : Registry} {n : String} {e : Exn}
    (h : featureAt reg n = .error e) : e = .out_of_range "map::at" := by
  unfold featureAt at h
  split at h
  · cases h
  · cases h; rfl

theorem sendRequest_error {w : SrrWorker} {q : Query} {a qu ag : String} {t t' : List Request}
    {e : Exn} (h : sendRequest w q a qu ag t = (t', .error e)) : ∃ s, e = .SrrException s := by
  simp only [sendRequest] at h
  split at h
  · cases h
  · next s _ => cases h; exact ⟨s, rfl⟩

theorem restoreFeature_error {w : SrrWorker} {n : String} {q : RestoreQuery}
    {t t' : List Request} {e : Exn} (h : restoreFeature w n q t = (t', .error e)) :
    e.isIntegrityCheckFailed = false := by
  unfold restoreFeature at h
  split at h
  · next e' he => cases h; rw [featureAt_error he]; rfl
  · split at h
    · next t1 e1 hs =>
      cases h
      obtain ⟨s, rfl⟩ := sendRequest_error hs
      rfl
    · split at h
      · cases h; rfl
      · cases h

theorem resetFeature_error {w : SrrWorker} {n : String} {t t' : List Request} {e : Exn}
    (h : resetFeature w n t = (t', .error e)) : e.isIntegrityCheckFailed = false := by
  unfold resetFeature at h
  split at h
  · next e' he => cases h; rw [featureAt_error he]; rfl
  · split at h
    · next t1 e1 hs =>
      cases h
      obtain ⟨s, rfl⟩ := sendRequest_error hs
      rfl
    · split at h
      · cases h; rfl
      · split at h
        · cases h; rfl
        · cases h

theorem resetIfSupported_error {w : SrrWorker} {n : String} {t t' : List Request} {e : Exn}
    (h : resetIfSupported w n t = (t', .error e)) : e.isIntegrityCheckFailed = false := by
  unfold resetIfSupported at h
  split at h
  · next e' he => cases h; rw [featureAt_error he]; rfl
  · split at h
    · split at h
      · cases h
      · next t1 e1 hr =>
        split at h
        · cases h
        · cases h; exact resetFeature_error hr
    · cases h

theorem rollbackLoop_error (w : SrrWorker) (p : String) (m : List (String × FeatureAndStatus)) :
    ∀ (restart : Bool) (t t' : List Request) (e : Exn),
      rollbackLoop w p m restart t = (t', .error e) → e.isIntegrityCheckFailed = false := by
  induction m with
  | nil => intro restart t t' e h; simp [rollbackLoop] at h
  | cons hd tl ih =>
    obtain ⟨n, fs⟩ := hd
    intro restart t t' e h
    simp only [rollbackLoop] at h
    split at h
    · next e' he => cases h; rw [featureAt_error he]; rfl
    · split at h
      · next t1 e1 hr => cases h; exact resetIfSupported_error hr
      · split at h
        · exact ih _ _ _ _ h
        · next t2 e2 hr =>
          split at h
          · exact ih _ _ _ _ h
          · cases h; exact restoreFeature_error hr

theorem resetPhase_error (w : SrrWorker) (fs : List SrrFeature) :
    ∀ (t t' : List Request) (e : Exn),
      resetPhase w fs t = (t', .error e) → e.isIntegrityCheckFailed = false := by
  induction fs with
  | nil => intro t t' e h; simp [resetPhase] at h
  | cons f tl ih =>
    intro t t' e h
    simp only [resetPhase] at h
    split at h
    · exact ih _ _ _ h
    · next t1 e1 hr => cases h; exact resetIfSupported_error hr

theorem restoreGroup_error {w : SrrWorker} {p : String} {group : Group} {st st' : RestoreState}
    {e : Exn} (h : restoreGroup w p group st = (st', .error e)) :
    e.isIntegrityCheckFailed = false := by
  unfold restoreGroup at h
  split at h
  · cases h
  · split at h
    · cases h
    · split at h
      split at h
      · next t2 e2 hr => cases h; exact resetPhase_error _ _ _ _ _ hr
      · split at h
        · cases h
        · split at h
          · cases h
          · next t4 e4 hr => cases h; exact rollbackLoop_error _ _ _ _ _ _ _ hr

theorem restoreGroups_error (w : SrrWorker) (p : String) (groups : List Group) :
    ∀ (st st' : RestoreState) (e : Exn),
      restoreGroups w p groups st = (st', .error e) → e.isIntegrityCheckFailed = false := by
  induction groups with
  | nil => intro st st' e h; simp [restoreGroups] at h
  | cons g tl ih =>
    intro st st' e h
    simp only [restoreGroups] at h
    split at h
    · exact ih _ _ _ h
    · next st1 e1 hr => cases h; exact restoreGroup_error hr

theorem catchStatus_ne_unknown {e : Exn} (h : e.isIntegrityCheckFailed = false) :
    (catchStatus e).1 = statusToString Status.FAILED := by
  cases e <;> first | rfl | (simp [Exn.isIntegrityCheckFailed] at h)

theorem sortGroups_eq_map (reg : Registry) (groups : List Group) :
    sortGroups reg groups = groups.map (sortedGroup reg) := rfl

theorem foldl_append_eq (ids : List String) (a : String) :
    ids.foldl (fun acc id => acc ++ id) a = a ++ String.join ids := by
  unfold String.join
  induction ids generalizing a with
  | nil => simp
  | cons x xs ih =>
    simp only [List.foldl_cons]
    rw [ih (a ++ x), ih ("" ++ x), String.append_assoc]
    simp

theorem groupsIntegrityCheckFailed_sortGroups (reg : Registry) (groups : List Group) :
    groupsIntegrityCheckFailed (sortGroups reg groups)
      = (groups.filter (fun g => !checkDataIntegrity (sortedGroup reg g))).map
          (fun g => g.m_group_id) := by
  induction groups with
  | nil => rfl
  | cons g tl ih =>
    simp only [sortGroups_eq_map, groupsIntegrityCheckFailed, List.map_cons, List.filter_cons] at ih ⊢
    by_cases h : checkDataIntegrity (sortedGroup reg g) = true
    · simp only [h, Bool.not_true, Bool.false_eq_true, if_false]
      exact ih
    · simp only [Bool.not_eq_true] at h
      simp only [h, Bool.not_false, if_true, List.map_cons]
      rw [ih]
      rfl

/-! ## Force -/

theorem restoreGroup_withoutDigest (w : SrrWorker) (p : String) (group : Group)
    (st : RestoreState) :
    restoreGroup w p (sortedGroup w.reg group) st
      = restoreGroup w p (sortedGroup w.reg (withoutDigest group)) st := rfl

theorem restoreGroups_congr (w : SrrWorker) (p : String) (groups : List Group) :
    ∀ (groups' : List Group) (st : RestoreState),
      groups'.map withoutDigest = groups.map withoutDigest →
      restoreGroups w p (sortGroups w.reg groups') st
        = restoreGroups w p (sortGroups w.reg groups) st := by
  induction groups with
  | nil =>
    intro groups' st h
    cases groups' with
    | nil => rfl
    | cons _ _ => simp at h
  | cons g tl ih =>
    intro groups' st h
    cases groups' with
    | nil => simp at h
    | cons g' tl' =>
      simp only [List.map_cons, List.cons.injEq] at h
      simp only [sortGroups_eq_map, List.map_cons, restoreGroups]
      rw [restoreGroup_withoutDigest w p g', restoreGroup_withoutDigest w p g, h.1]
      have := ih tl' 
      simp only [sortGroups_eq_map] at this
      split
      · exact this _ h.2
      · rfl

theorem sortedGroup_evalDataIntegrity (reg : Registry) (group : Group) :
    sortedGroup reg (evalDataIntegrity reg group) = evalDataIntegrity reg group := by
  simp [sortedGroup, evalDataIntegrity, sortByPriority_idem]

theorem withoutDigest_evalDataIntegrity (reg : Registry) (group : Group) :
    withoutDigest (evalDataIntegrity reg group) = withoutDigest (sortedGroup reg group) := rfl

theorem groupsIntegrityCheckFailed_eval (reg : Registry) (groups : List Group) :
    groupsIntegrityCheckFailed (sortGroups reg (groups.map (evalDataIntegrity reg))) = [] := by
  rw [groupsIntegrityCheckFailed_sortGroups]
  simp only [List.map_eq_nil_iff, List.filter_eq_nil_iff, List.mem_map]
  rintro g ⟨g0, _, rfl⟩
  rw [sortedGroup_evalDataIntegrity]
  simp [checkDataIntegrity, evalDataIntegrity]

theorem sortGroups_idem (reg : Registry) (groups : List Group) :
    sortGroups reg (sortGroups reg groups) = sortGroups reg groups := by
  simp only [sortGroups_eq_map, List.map_map]
  apply List.map_congr_left
  intro g _
  simp [sortedGroup, sortByPriority_idem]

/-! ## The requests of the four stages of a group -/

theorem saveAgents_trace (w : SrrWorker) (p : String) (entries : List (String × List FeatureName)) :
    ∀ (resp : SaveResponse) (t : List Request),
      ∃ saves, (saveAgents w p entries resp t).1 = t ++ saves ∧ ∀ r ∈ saves, r.action = "save" := by
  induction entries with
  | nil => intro resp t; exact ⟨[], by simp [saveAgents], by simp⟩
  | cons hd tl ih =>
    obtain ⟨agent, feats⟩ := hd
    intro resp t
    simp only [saveAgents]
    have hs := sendRequest_fst w (.save feats p) "save" (queueOf w.reg agent) agent t
    split
    · next t1 r hsend =>
      rw [hsend] at hs
      simp only at hs
      obtain ⟨saves, h1, h2⟩ := ih (resp.append r.save) t1
      refine ⟨⟨"save", queueOf w.reg agent, agent, .save feats p⟩ :: saves, ?_, ?_⟩
      · rw [h1, hs]; simp
      · intro r hr
        rcases List.mem_cons.mp hr with h | h
        · rw [h]
        · exact h2 r h
    · next t1 e hsend =>
      rw [hsend] at hs
      simp only at hs
      exact ⟨[⟨"save", queueOf w.reg agent, agent, .save feats p⟩], hs, by simp⟩

theorem stageRollback_trace (w : SrrWorker) (p : String) (fs : List SrrFeature) :
    ∀ (R : SaveResponse) (t : List Request),
      ∃ saves, (stageRollback w p fs R t).1 = t ++ saves ∧ ∀ r ∈ saves, r.action = "save" := by
  induction fs with
  | nil => intro R t; exact ⟨[], by simp [stageRollback], by simp⟩
  | cons f tl ih =>
    intro R t
    simp only [stageRollback]
    obtain ⟨s1, h1, h2⟩ := saveAgents_trace w p (groupFeaturesByAgent w.reg [f.m_feature_name]) {} t
    have hsf : (saveFeatures w [f.m_feature_name] p t).1 = t ++ s1 := h1
    split
    · next t1 r heq =>
      rw [heq] at hsf
      simp only at hsf
      obtain ⟨s2, h3, h4⟩ := ih (R.append r) t1
      refine ⟨s1 ++ s2, by rw [h3, hsf]; simp, ?_⟩
      intro r hr
      rcases List.mem_append.mp hr with h | h
      · exact h2 r h
      · exact h4 r h
    · next t1 e heq =>
      rw [heq] at hsf
      simp only at hsf
      obtain ⟨s2, h3, h4⟩ := ih R t1
      refine ⟨s1 ++ s2, by rw [h3, hsf]; simp, ?_⟩
      intro r hr
      rcases List.mem_append.mp hr with h | h
      · exact h2 r h
      · exact h4 r h

/-- The reset loop sends the reset requests of a sublist of the features it
walks through, in the order of the walk. -/
theorem resetPhase_trace (w : SrrWorker) (fs : List SrrFeature) :
    ∀ (t : List Request),
      ∃ rs : List SrrFeature, rs.Sublist fs ∧
        (resetPhase w fs t).1 = t ++ rs.map (fun f => resetRequest w f.m_feature_name) := by
  induction fs with
  | nil => intro t; exact ⟨[], List.Sublist.refl _, by simp [resetPhase]⟩
  | cons f tl ih =>
    intro t
    simp only [resetPhase]
    have hr := resetIfSupported_fst w f.m_feature_name t
    split
    · next t1 u heq =>
      rw [heq] at hr
      simp only at hr
      obtain ⟨rs, hsub, htr⟩ := ih t1
      rcases hr with hr | hr
      · exact ⟨rs, hsub.cons _, by rw [htr, hr]⟩
      · exact ⟨f :: rs, hsub.cons₂ _, by rw [htr, hr]; simp⟩
    · next t1 e heq =>
      rw [heq] at hr
      simp only at hr
      rcases hr with hr | hr
      · exact ⟨[], List.nil_sublist _, by simp [hr]⟩
      · exact ⟨[f], by simp, by simp [hr]⟩

/-- The restore loop sends the restore requests of a prefix of the feature
list, in list order. -/
theorem restorePhase_trace (w : SrrWorker) (q : List (String × RestoreQuery))
    (fs : List SrrFeature) :
    ∀ (restart : Bool) (t : List Request),
      ∃ pre : List SrrFeature, pre <+: fs ∧
        (restorePhase w q fs restart t).1
          = t ++ pre.map (fun f =>
              restoreRequest w f.m_feature_name (queryFor q f.m_feature_name)) := by
  induction fs with
  | nil => intro restart t; exact ⟨[], List.prefix_refl _, by simp [restorePhase]⟩
  | cons f tl ih =>
    intro restart t
    simp only [restorePhase]
    have hr := restoreFeature_extends w f.m_feature_name (queryFor q f.m_feature_name) t
    split
    · next t1 r heq =>
      obtain ⟨ht1, _⟩ := restoreFeature_sent heq (Or.inl ⟨r, rfl⟩)
      split
      · obtain ⟨pre, hpre, htr⟩ := ih (restart || _) t1
        refine ⟨f :: pre, ?_, by rw [htr, ht1]; simp⟩
        exact (List.prefix_cons_inj f).mpr hpre
      · exact ⟨[f], by simp [List.prefix_iff_eq_take], by simp [ht1]⟩
    · next t1 e heq =>
      rw [heq] at hr
      simp only at hr
      rcases hr with hr | hr
      · exact ⟨[], List.nil_prefix, by simp [hr]⟩
      · exact ⟨[f], by simp [List.prefix_iff_eq_take], by simp [hr]⟩

theorem rollbackLoop_extends (w : SrrWorker) (p : String) (m : List (String × FeatureAndStatus)) :
    ∀ (restart : Bool) (t : List Request),
      ∃ extra, (rollbackLoop w p m restart t).1 = t ++ extra := by
  induction m with
  | nil => intro restart t; exact ⟨[], by simp [rollbackLoop]⟩
  | cons hd tl ih =>
    obtain ⟨n, fs⟩ := hd
    intro restart t
    simp only [rollbackLoop]
    split
    · exact ⟨[], by simp⟩
    · have hr := resetIfSupported_fst w n t
      have hr' : ∃ e1, (resetIfSupported w n t).1 = t ++ e1 := by
        rcases hr with hr | hr
        · exact ⟨[], by simpa using hr⟩
        · exact ⟨_, hr⟩
      obtain ⟨e1, he1⟩ := hr'
      split
      · next t1 e heq => rw [heq] at he1; exact ⟨e1, he1⟩
      · next t1 u heq =>
        rw [heq] at he1
        simp only at he1
        have hf := restoreFeature_extends w n (rollbackQuery w p n fs.feature) t1
        have hf' : ∃ e2, (restoreFeature w n (rollbackQuery w p n fs.feature) t1).1
            = t1 ++ e2 := by
          rcases hf with hf | hf
          · exact ⟨[], by simpa using hf⟩
          · exact ⟨_, hf⟩
        obtain ⟨e2, he2⟩ := hf'
        split
        · next t2 r heq2 =>
          rw [heq2] at he2
          simp only at he2
          obtain ⟨e3, he3⟩ := ih (restart || _) t2
          exact ⟨e1 ++ e2 ++ e3, by rw [he3, he2, he1]; simp⟩
        · next t2 e heq2 =>
          rw [heq2] at he2
          simp only at he2
          split
          · obtain ⟨e3, he3⟩ := ih (restart || _) t2
            exact ⟨e1 ++ e2 ++ e3, by rw [he3, he2, he1]; simp⟩
          · exact ⟨e1 ++ e2, by rw [he2, he1]; simp⟩

/-! ## The groups of a save reply -/

theorem mem_mapUpdate {β : Type} (k : String) (d : β) (f : β → β) (m : List (String × β))
    (e : String × β) (h : e ∈ mapUpdate k d f m) :
    e ∈ m ∨ (e.1 = k ∧ (e.2 = f d ∨ ∃ v, (k, v) ∈ m ∧ e.2 = f v)) := by
  induction m with
  | nil =>
    simp only [mapUpdate, List.mem_singleton] at h
    subst h
    exact Or.inr ⟨rfl, Or.inl rfl⟩
  | cons hd tl ih =>
    obtain ⟨k', v'⟩ := hd
    simp only [mapUpdate] at h
    split at h
    · rcases List.mem_cons.mp h with h | h
      · subst h; exact Or.inr ⟨rfl, Or.inl rfl⟩
      · exact Or.inl h
    · split at h
      · next hk =>
        subst hk
        rcases List.mem_cons.mp h with h | h
        · subst h; exact Or.inr ⟨rfl, Or.inr ⟨v', List.mem_cons_self _ _, rfl⟩⟩
        · exact Or.inl (List.mem_cons_of_mem _ h)
      · rcases List.mem_cons.mp h with h | h
        · subst h; exact Or.inl (List.mem_cons_self _ _)
        · rcases ih h with h | ⟨h1, h2⟩
          · exact Or.inl (List.mem_cons_of_mem _ h)
          · refine Or.inr ⟨h1, ?_⟩
            rcases h2 with h2 | ⟨v, hv, h2⟩
            · exact Or.inl h2
            · exact Or.inr ⟨v, List.mem_cons_of_mem _ hv, h2⟩

/-- Every group of `savedGroups` has a non-empty id, at least one feature, and
only features that `getGroupFromFeature` sends to it. -/
theorem savedGroups_foldl_inv (reg : Registry) (l : List (FeatureName × FeatureAndStatus)) :
    ∀ (acc : List (String × List SrrFeature)),
      (∀ e ∈ acc, e.1.isEmpty = false ∧ e.2 ≠ [] ∧
        ∀ f ∈ e.2, getGroupFromFeature reg f.m_feature_name = e.1) →
      ∀ e ∈ l.foldl (fun m fs =>
          let groupId := getGroupFromFeature reg fs.1
          if groupId.isEmpty then m
          else mapUpdate groupId [] (fun features => features ++ [⟨fs.1, fs.2⟩]) m) acc,
        e.1.isEmpty = false ∧ e.2 ≠ [] ∧
          ∀ f ∈ e.2, getGroupFromFeature reg f.m_feature_name = e.1 := by
  induction l with
  | nil => intro acc h e he; exact h e he
  | cons fs tl ih =>
    intro acc h
    simp only [List.foldl_cons]
    apply ih
    intro e he
    split at he
    · exact h e he
    · next hne =>
      rcases mem_mapUpdate _ _ _ _ _ he with he | ⟨hk, hv⟩
      · exact h e he
      · have hne' : e.1.isEmpty = false := by rw [hk]; simpa using hne
        rcases hv with hv | ⟨v, hv, hv'⟩
        · refine ⟨hne', by rw [hv]; simp, ?_⟩
          intro f hf
          rw [hv] at hf
          simp only [List.nil_append, List.mem_singleton] at hf
          rw [hf, hk]
        · refine ⟨hne', by rw [hv']; simp, ?_⟩
          intro f hf
          rw [hv'] at hf
          rcases List.mem_append.mp hf with hf | hf
          · rw [hk]; exact (h _ hv).2.2 f hf
          · simp only [List.mem_singleton] at hf
            rw [hf, hk]

theorem savedGroups_inv (reg : Registry) (l : List (FeatureName × FeatureAndStatus)) :
    ∀ e ∈ savedGroups reg l, e.1.isEmpty = false ∧ e.2 ≠ [] ∧
      ∀ f ∈ e.2, getGroupFromFeature reg f.m_feature_name = e.1 :=
  savedGroups_foldl_inv reg l [] (by simp)

/-- What `requestSave` returns as data: nothing, or the assembled groups of a
save response. -/
theorem requestSave_data (w : SrrWorker) (req : SrrSaveRequest) :
    (requestSave w req).response.m_data = []
    ∨ ∃ l, (requestSave w req).response.m_data = assembleGroups w.reg (savedGroups w.reg l) := by
  unfold requestSave
  split
  · split
    · next t r _ => exact Or.inr ⟨r.map_features_data, rfl⟩
    · exact Or.inl rfl
  · exact Or.inl rfl

theorem mem_assembleGroups {reg : Registry} {saved : List (String × List SrrFeature)} {g : Group}
    (h : g ∈ assembleGroups reg saved) :
    ∃ e ∈ saved, g = evalDataIntegrity reg ⟨e.1, e.1, e.2, ""⟩ := by
  simp only [assembleGroups, List.mem_map] at h
  obtain ⟨e, he, rfl⟩ := h
  exact ⟨e, he, rfl⟩

/-- The groups of a save reply: sorted by priority, digest in place, id not
empty, at least one feature, every feature a feature of the group. -/
theorem requestSave_group (w : SrrWorker) (req : SrrSaveRequest) (g : Group)
    (hg : g ∈ (requestSave w req).response.m_data) :
    sortedGroup w.reg g = g
    ∧ checkDataIntegrity g = true
    ∧ g.m_group_id.isEmpty = false
    ∧ g.m_features ≠ []
    ∧ ∀ f ∈ g.m_features, getGroupFromFeature w.reg f.m_feature_name = g.m_group_id := by
  rcases requestSave_data w req with h | ⟨l, h⟩
  · rw [h] at hg; cases hg
  · rw [h] at hg
    obtain ⟨e, he, rfl⟩ := mem_assembleGroups hg
    obtain ⟨h1, h2, h3⟩ := savedGroups_inv w.reg l e he
    refine ⟨sortedGroup_evalDataIntegrity _ _, by simp [checkDataIntegrity, evalDataIntegrity],
      h1, ?_, ?_⟩
    · intro hnil
      have hp := (sortByPriority_perm w.reg e.2).length_eq
      simp only [evalDataIntegrity] at hnil
      rw [hnil] at hp
      exact h2 (List.length_eq_zero.mp hp.symm)
    · intro f hf
      simp only [evalDataIntegrity] at hf
      exact h3 f ((sortByPriority_perm w.reg e.2).mem_iff.mp hf)

/-! ## A group whose restores all succeed -/

theorem lookup_isSome_of_mem {β : Type} (l : List (String × β)) (k : String) (v : β)
    (h : (k, v) ∈ l) : (l.lookup k).isSome = true := by
  induction l with
  | nil => cases h
  | cons hd tl ih =>
    obtain ⟨k', v'⟩ := hd
    by_cases hk : k = k'
    · subst hk; simp [List.lookup_cons]
    · have : (k == k') = false := by simpa using hk
      rcases List.mem_cons.mp h with h | h
      · cases h; exact absurd rfl hk
      · simp [List.lookup_cons, this, ih h]

/-- A group id that `getGroupFromFeature` returns is empty or registered. -/
theorem getGroupFromFeature_registered (reg : Registry) (n : String)
    (h : (getGroupFromFeature reg n).isEmpty = false) :
    (mapFind reg.SrrGroupMap (getGroupFromFeature reg n)).isSome = true := by
  cases he : reg.SrrGroupMap.find?
      (fun g => g.2.m_fp.any (fun x => x.m_feature == n)) with
  | none =>
    have : getGroupFromFeature reg n = "" := by simp only [getGroupFromFeature, he]
    rw [this] at h
    exact absurd h (by decide)
  | some e =>
    have hval : getGroupFromFeature reg n = e.1 := by simp only [getGroupFromFeature, he]
    rw [hval]
    exact lookup_isSome_of_mem _ _ e.2 (List.mem_of_find?_eq_some he)

/-- A feature that a group of the reference tables lists is one of eight. -/
theorem getGroupFromFeature_reference (n : String)
    (h : (getGroupFromFeature referenceRegistry n).isEmpty = false) :
    n ∈ [F_ASSET_AGENT, F_AUTOMATION_SETTINGS, F_DISCOVERY, F_MASS_MANAGEMENT,
      F_MONITORING_FEATURE_NAME, F_NOTIFICATION_FEATURE_NAME, F_USER_SESSION_FEATURE_NAME,
      F_SECURITY_WALLET] := by
  unfold getGroupFromFeature at h
  split at h
  · next e he =>
    have hp := List.find?_some he
    have hmem := List.mem_of_find?_eq_some he
    simp only [List.any_eq_true, beq_iff_eq] at hp
    obtain ⟨fp, hfp, rfl⟩ := hp
    simp only [referenceRegistry, initSrrGroups, List.mem_cons, List.mem_singleton,
      List.not_mem_nil, or_false] at hmem
    rcases hmem with rfl | rfl | rfl <;>
      simp only [List.mem_cons, List.mem_singleton, List.not_mem_nil, or_false] at hfp
    · subst hfp; decide
    · rcases hfp with rfl | rfl | rfl | rfl | rfl | rfl <;> decide
    · subst hfp; decide
  · exact absurd h (by decide)

theorem reference_feature_flags :
    ∀ n ∈ [F_ASSET_AGENT, F_AUTOMATION_SETTINGS, F_DISCOVERY, F_MASS_MANAGEMENT,
      F_MONITORING_FEATURE_NAME, F_NOTIFICATION_FEATURE_NAME, F_USER_SESSION_FEATURE_NAME,
      F_SECURITY_WALLET],
      (mapFind referenceRegistry.SrrFeatureMap n).any (fun d => !d.m_reset && d.m_restart)
        = true := by
  decide

/-- In the reference tables every feature of a group is registered, asks for
a restart and declares no reset. -/
theorem reference_grouped_feature (n : String)
    (h : (getGroupFromFeature referenceRegistry n).isEmpty = false) :
    ∃ d, featureAt referenceRegistry n = .ok d ∧ d.m_reset = false ∧ d.m_restart = true := by
  have h1 := reference_feature_flags n (getGroupFromFeature_reference n h)
  unfold featureAt
  cases hf : mapFind referenceRegistry.SrrFeatureMap n with
  | none => rw [hf] at h1; simp at h1
  | some d =>
    rw [hf] at h1
    simp only [Option.any_some, Bool.and_eq_true, Bool.not_eq_true'] at h1
    exact ⟨d, rfl, h1.1, h1.2⟩

theorem resetPhase_no_reset (w : SrrWorker) (fs : List SrrFeature)
    (h : ∀ f ∈ fs, ∃ d, featureAt w.reg f.m_feature_name = .ok d ∧ d.m_reset = false) :
    ∀ t, resetPhase w fs t = (t, .ok ()) := by
  induction fs with
  | nil => intro t; rfl
  | cons f tl ih =>
    intro t
    obtain ⟨d, hd, hr⟩ := h f (List.mem_cons_self _ _)
    have hstep : resetIfSupported w f.m_feature_name t = (t, .ok ()) := by
      unfold resetIfSupported
      simp [hd, hr]
    simp only [resetPhase, hstep]
    exact ih (fun f' hf' => h f' (List.mem_cons_of_mem _ hf')) t

theorem restoreFeature_succeeds (w : SrrWorker) (hbus : RestoresSucceed w) (n : String)
    (q : RestoreQuery) (t : List Request) (d : SrrFeatureStruct)
    (hd : featureAt w.reg n = .ok d) :
    ∃ t' r, restoreFeature w n q t = (t', .ok r) := by
  obtain ⟨resp, h1, h2⟩ := hbus t (queueOf w.reg d.m_agent) d.m_agent q
  unfold restoreFeature
  simp only [hd, sendRequest, h1, h2, ne_eq, not_true_eq_false, if_false]
  exact ⟨_, _, rfl⟩

theorem restorePhase_succeeds (w : SrrWorker) (hbus : RestoresSucceed w)
    (queries : List (String × RestoreQuery)) (fs : List SrrFeature)
    (h : ∀ f ∈ fs, ∃ d, featureAt w.reg f.m_feature_name = .ok d ∧ d.m_restart = true) :
    ∀ (restart : Bool) (t : List Request),
      ∃ t', restorePhase w queries fs restart t = (t', restart || !fs.isEmpty, none) := by
  induction fs with
  | nil => intro restart t; exact ⟨t, by simp [restorePhase]⟩
  | cons f tl ih =>
    intro restart t
    obtain ⟨d, hd, hr⟩ := h f (List.mem_cons_self _ _)
    obtain ⟨t1, r, hrest⟩ := restoreFeature_succeeds w hbus f.m_feature_name
      (queryFor queries f.m_feature_name) t d hd
    obtain ⟨t2, h2⟩ := ih (fun f' hf' => h f' (List.mem_cons_of_mem _ hf')) (restart || d.m_restart) t1
    refine ⟨t2, ?_⟩
    simp only [hr, Bool.or_true, Bool.true_or] at h2
    simp only [restorePhase, hrest, hd, hr, Bool.or_true, h2, List.isEmpty_cons, Bool.not_false]

theorem restoreGroup_succeeds (w : SrrWorker) (hbus : RestoresSucceed w) (p : String)
    (group : Group) (st : RestoreState)
    (hid : (mapFind w.reg.SrrGroupMap group.m_group_id).isSome = true)
    (hcomplete : Complete w.reg group)
    (hne : group.m_features ≠ [])
    (hfeat : ∀ f ∈ group.m_features, ∃ d, featureAt w.reg f.m_feature_name = .ok d
      ∧ d.m_reset = false ∧ d.m_restart = true) :
    ∃ t', restoreGroup w p group st
      = (⟨t', st.status_list ++ [successStatus group], true⟩, .ok ()) := by
  cases hdecl : mapFind w.reg.SrrGroupMap group.m_group_id with
  | none => rw [hdecl] at hid; cases hid
  | some decl =>
    obtain ⟨queries, hq⟩ := buildRestoreQueries_complete p (ftMapOf group.m_features) decl.m_fp []
      (fun fp hfp hnone =>
        (mapFind_ftMapOf group.m_features fp.m_feature).mp hnone (hcomplete decl hdecl fp hfp))
    rw [restoreGroup_eq w p group st decl queries hdecl hq]
    have hreset : afterReset w p group st = ((staged w p group st).1, .ok ()) := by
      unfold afterReset
      apply resetPhase_no_reset
      intro f hf
      obtain ⟨d, h1, h2, _⟩ := hfeat f (List.mem_reverse.mp hf)
      exact ⟨d, h1, h2⟩
    obtain ⟨t', hrestore⟩ := restorePhase_succeeds w hbus queries group.m_features
      (fun f hf => by
        obtain ⟨d, h1, _, h3⟩ := hfeat f hf
        exact ⟨d, h1, h3⟩) st.restart (afterReset w p group st).1
    have hrestore' : afterRestore w p queries group st
        = (t', st.restart || !group.m_features.isEmpty, none) := hrestore
    have hemp : group.m_features.isEmpty = false := by
      cases hfs : group.m_features with
      | nil => exact absurd hfs hne
      | cons _ _ => rfl
    refine ⟨t', ?_⟩
    simp only [hreset, hrestore', hemp, Bool.not_false, Bool.or_true, successStatus]

theorem restoreGroups_succeeds (w : SrrWorker) (hbus : RestoresSucceed w) (p : String)
    (groups : List Group)
    (hall : ∀ g ∈ groups, (mapFind w.reg.SrrGroupMap g.m_group_id).isSome = true
      ∧ Complete w.reg g ∧ g.m_features ≠ []
      ∧ ∀ f ∈ g.m_features, ∃ d, featureAt w.reg f.m_feature_name = .ok d
          ∧ d.m_reset = false ∧ d.m_restart = true) :
    ∀ st : RestoreState, ∃ t', restoreGroups w p groups st
      = (⟨t', st.status_list ++ groups.map successStatus, st.restart || !groups.isEmpty⟩,
          .ok ()) := by
  induction groups with
  | nil => intro st; exact ⟨st.trace, by simp [restoreGroups]⟩
  | cons g tl ih =>
    intro st
    obtain ⟨h1, h2, h3, h4⟩ := hall g (List.mem_cons_self _ _)
    obtain ⟨t1, hstep⟩ := restoreGroup_succeeds w hbus p g st h1 h2 h3 h4
    obtain ⟨t2, hrest⟩ := ih (fun g' hg' => hall g' (List.mem_cons_of_mem _ hg'))
      ⟨t1, st.status_list ++ [successStatus g], true⟩
    refine ⟨t2, ?_⟩
    simp only [restoreGroups, hstep, hrest, List.map_cons, List.append_assoc,
      List.singleton_append, Bool.true_or, List.isEmpty_cons, Bool.not_false, Bool.or_true]

/-! ## The order of `std::string` keys -/

theorem charsLess_irrefl (a : List Char) : charsLess a a = false := by
  induction a with
  | nil => rfl
  | cons x xs ih => simp [charsLess, ih]

theorem charsLess_trans : ∀ (a b c : List Char),
    charsLess a b = true → charsLess b c = true → charsLess a c = true := by
  intro a
  induction a with
  | nil =>
    intro b c hab hbc
    cases c with
    | nil => cases b <;> simp [charsLess] at hbc
    | cons _ _ => rfl
  | cons x xs ih =>
    intro b c hab hbc
    cases b with
    | nil => simp [charsLess] at hab
    | cons y ys =>
      cases c with
      | nil => simp [charsLess] at hbc
      | cons z zs =>
        simp only [charsLess] at hab hbc ⊢
        by_cases h1 : x.toNat < y.toNat
        · by_cases h2 : y.toNat < z.toNat
          · have : x.toNat < z.toNat := by omega
            simp [this]
          · simp only [h2, if_false] at hbc
            by_cases h3 : z.toNat < y.toNat
            · simp [h3] at hbc
            · have : x.toNat < z.toNat := by omega
              simp [this]
        · simp only [h1, if_false] at hab
          by_cases h1' : y.toNat < x.toNat
          · simp [h1'] at hab
          · simp only [h1', if_false] at hab
            by_cases h2 : y.toNat < z.toNat
            · have : x.toNat < z.toNat := by omega
              simp [this]
            · simp only [h2, if_false] at hbc
              by_cases h3 : z.toNat < y.toNat
              · simp [h3] at hbc
              · simp only [h3, if_false] at hbc
                have e1 : ¬ x.toNat < z.toNat := by omega
                have e2 : ¬ z.toNat < x.toNat := by omega
                simp only [e1, e2, if_false]
                exact ih ys zs hab hbc

theorem char_eq_of_toNat_eq (x y : Char) (h : x.toNat = y.toNat) : x = y := by
  apply Char.ext
  apply UInt32.ext
  exact h

theorem charsLess_total : ∀ (a b : List Char),
    charsLess a b = false → a ≠ b → charsLess b a = true := by
  intro a
  induction a with
  | nil =>
    intro b hab hne
    cases b with
    | nil => exact absurd rfl hne
    | cons _ _ => simp [charsLess] at hab
  | cons x xs ih =>
    intro b hab hne
    cases b with
    | nil => rfl
    | cons y ys =>
      simp only [charsLess] at hab ⊢
      by_cases h1 : x.toNat < y.toNat
      · simp [h1] at hab
      · simp only [h1, if_false] at hab
        by_cases h2 : y.toNat < x.toNat
        · simp [h2]
        · simp only [h2, if_false] at hab ⊢
          have hxy : x = y := char_eq_of_toNat_eq x y (by omega)
          subst hxy
          simp only [Nat.lt_irrefl, if_false]
          exact ih ys hab (fun h => hne (by rw [h]))

theorem stringLess_irrefl (a : String) : stringLess a a = false := charsLess_irrefl _

theorem stringLess_trans {a b c : String} (hab : stringLess a b = true)
    (hbc : stringLess b c = true) : stringLess a c = true :=
  charsLess_trans _ _ _ hab hbc

theorem stringLess_total {a b : String} (hab : stringLess a b = false) (hne : a ≠ b) :
    stringLess b a = true :=
  charsLess_total _ _ hab (fun h => hne (String.ext h))

theorem stringLess_ne {a b : String} (h : stringLess a b = true) : a ≠ b := by
  intro heq
  subst heq
  rw [stringLess_irrefl] at h
  cases h

/-! ## Sorted maps and sets -/

theorem mem_setInsert (x : String) (s : List String) (y : String) :
    y ∈ setInsert x s ↔ y = x ∨ y ∈ s := by
  induction s with
  | nil => simp [setInsert]
  | cons z zs ih =>
    simp only [setInsert]
    split
    · simp
    · split
      · next h => subst h; simp
      · simp only [List.mem_cons, ih]
        tauto

theorem setInsert_sorted (x : String) (s : List String)
    (hs : s.Pairwise (fun a b => stringLess a b = true)) :
    (setInsert x s).Pairwise (fun a b => stringLess a b = true) := by
  induction s with
  | nil => simp [setInsert]
  | cons z zs ih =>
    rw [List.pairwise_cons] at hs
    simp only [setInsert]
    split
    · next hlt =>
      refine List.pairwise_cons.mpr ⟨?_, List.pairwise_cons.mpr hs⟩
      intro a ha
      rcases List.mem_cons.mp ha with rfl | ha
      · exact hlt
      · exact stringLess_trans hlt (hs.1 a ha)
    · split
      · exact List.pairwise_cons.mpr hs
      · next hnlt hne =>
        refine List.pairwise_cons.mpr ⟨?_, ih hs.2⟩
        intro a ha
        rcases (mem_setInsert x zs a).mp ha with rfl | ha
        · exact stringLess_total (by simpa using hnlt) hne
        · exact hs.1 a ha

theorem keys_mapUpdate {β : Type} (k : String) (d : β) (f : β → β) (m : List (String × β))
    (x : String) (h : x ∈ (mapUpdate k d f m).map Prod.fst) : x = k ∨ x ∈ m.map Prod.fst := by
  obtain ⟨e, he, rfl⟩ := List.mem_map.mp h
  rcases mem_mapUpdate k d f m e he with h | ⟨h, _⟩
  · exact Or.inr (List.mem_map.mpr ⟨e, h, rfl⟩)
  · exact Or.inl h

theorem mapUpdate_sorted {β : Type} (k : String) (d : β) (f : β → β) (m : List (String × β))
    (hm : (m.map Prod.fst).Pairwise (fun a b => stringLess a b = true)) :
    ((mapUpdate k d f m).map Prod.fst).Pairwise (fun a b => stringLess a b = true) := by
  induction m with
  | nil => simp [mapUpdate]
  | cons hd tl ih =>
    obtain ⟨k', v'⟩ := hd
    simp only [List.map_cons, List.pairwise_cons] at hm
    simp only [mapUpdate]
    split
    · next hlt =>
      simp only [List.map_cons, List.pairwise_cons]
      refine ⟨?_, hm⟩
      intro a ha
      rcases List.mem_cons.mp ha with rfl | ha
      · exact hlt
      · exact stringLess_trans hlt (hm.1 a ha)
    · split
      · simp only [List.map_cons, List.pairwise_cons]
        exact hm
      · next hnlt hne =>
        simp only [List.map_cons, List.pairwise_cons]
        refine ⟨?_, ih hm.2⟩
        intro a ha
        rcases keys_mapUpdate k d f tl a ha with rfl | ha
        · exact stringLess_total (by simpa using hnlt) hne
        · exact hm.1 a ha

theorem mapFind_none_of_less {β : Type} (k : String) (m : List (String × β))
    (h : ∀ x ∈ m.map Prod.fst, stringLess k x = true) : mapFind m k = none := by
  induction m with
  | nil => rfl
  | cons hd tl ih =>
    obtain ⟨k', v'⟩ := hd
    have hk : k ≠ k' := stringLess_ne (h k' (by simp))
    have : (k == k') = false := by simpa using hk
    simp only [mapFind, List.lookup_cons, this]
    exact ih (fun x hx => h x (by simp only [List.map_cons, List.mem_cons]; exact Or.inr hx))

/-- On a key-sorted map, `m[k] = f (m[k])` changes the value under `k` and
nothing else. -/
theorem mapFind_mapUpdate {β : Type} (k : String) (d : β) (f : β → β) (m : List (String × β))
    (hm : (m.map Prod.fst).Pairwise (fun a b => stringLess a b = true)) (x : String) :
    mapFind (mapUpdate k d f m) x
      = if x = k then some (f ((mapFind m k).getD d)) else mapFind m x := by
  induction m with
  | nil =>
    by_cases hx : x = k
    · subst hx; simp [mapUpdate, mapFind, List.lookup_cons]
    · have : (x == k) = false := by simpa using hx
      simp [mapUpdate, mapFind, List.lookup_cons, this, hx]
  | cons hd tl ih =>
    obtain ⟨k', v'⟩ := hd
    simp only [List.map_cons, List.pairwise_cons] at hm
    simp only [mapUpdate]
    split
    · next hlt =>
      have hnone : mapFind ((k', v') :: tl) k = none := by
        apply mapFind_none_of_less
        intro a ha
        simp only [List.map_cons, List.mem_cons] at ha
        rcases ha with rfl | ha
        · exact hlt
        · exact stringLess_trans hlt (hm.1 a ha)
      by_cases hx : x = k
      · subst hx
        simp [mapFind, List.lookup_cons] at hnone ⊢
        simp [hnone]
      · have : (x == k) = false := by simpa using hx
        simp [mapFind, List.lookup_cons, this, hx]
    · split
      · next hkk =>
        subst hkk
        by_cases hx : x = k
        · subst hx; simp [mapFind, List.lookup_cons]
        · have : (x == k) = false := by simpa using hx
          simp [mapFind, List.lookup_cons, this, hx]
      · next hnlt hne =>
        have hkk' : (k == k') = false := by simpa using hne
        by_cases hx' : x = k'
        · subst hx'
          have : ¬ (x = k) := fun h => hne h.symm
          simp [mapFind, List.lookup_cons, this]
        · have hxk' : (x == k') = false := by simpa using hx'
          have := ih hm.2
          simp only [mapFind] at this ⊢
          simp only [List.lookup_cons, hxk', hkk', this]

theorem mem_iff_mapFind {β : Type} (m : List (String × β))
    (hm : (m.map Prod.fst).Pairwise (fun a b => stringLess a b = true)) (k : String) (v : β) :
    (k, v) ∈ m ↔ mapFind m k = some v := by
  induction m with
  | nil => simp [mapFind]
  | cons hd tl ih =>
    obtain ⟨k', v'⟩ := hd
    simp only [List.map_cons, List.pairwise_cons] at hm
    by_cases hk : k = k'
    · subst hk
      simp only [mapFind, List.lookup_cons, beq_self_eq_true, List.mem_cons, Prod.mk.injEq,
        true_and, Option.some.injEq]
      constructor
      · rintro (h | h)
        · exact h.symm
        · exact absurd rfl (stringLess_ne (hm.1 k (List.mem_map.mpr ⟨(k, v), h, rfl⟩)))
      · intro h; exact Or.inl h.symm
    · have : (k == k') = false := by simpa using hk
      simp only [mapFind, List.lookup_cons, this, List.mem_cons, Prod.mk.injEq, hk, false_and,
        false_or]
      exact ih hm.2

theorem mem_mapInsert {β : Type} (k : String) (v : β) (m : List (String × β)) (e : String × β)
    (h : e ∈ mapInsert k v m) : e = (k, v) ∨ e ∈ m := by
  induction m with
  | nil => simpa [mapInsert] using h
  | cons hd tl ih =>
    obtain ⟨k', v'⟩ := hd
    simp only [mapInsert] at h
    split at h
    · simpa using h
    · split at h
      · exact Or.inr h
      · rcases List.mem_cons.mp h with h | h
        · exact Or.inr (h ▸ List.mem_cons_self _ _)
        · rcases ih h with h | h
          · exact Or.inl h
          · exact Or.inr (List.mem_cons_of_mem _ h)

theorem mapInsert_sorted {β : Type} (k : String) (v : β) (m : List (String × β))
    (hm : (m.map Prod.fst).Pairwise (fun a b => stringLess a b = true)) :
    ((mapInsert k v m).map Prod.fst).Pairwise (fun a b => stringLess a b = true) := by
  induction m with
  | nil => simp [mapInsert]
  | cons hd tl ih =>
    obtain ⟨k', v'⟩ := hd
    simp only [List.map_cons, List.pairwise_cons] at hm
    simp only [mapInsert]
    split
    · next hlt =>
      simp only [List.map_cons, List.pairwise_cons]
      refine ⟨?_, hm⟩
      intro a ha
      rcases List.mem_cons.mp ha with rfl | ha
      · exact hlt
      · exact stringLess_trans hlt (hm.1 a ha)
    · split
      · simp only [List.map_cons, List.pairwise_cons]
        exact hm
      · next hnlt hne =>
        simp only [List.map_cons, List.pairwise_cons]
        refine ⟨?_, ih hm.2⟩
        intro a ha
        rcases mapInsert_keys k v tl a ha with rfl | ha
        · exact stringLess_total (by simpa using hnlt) hne
        · exact hm.1 a ha

/-! ## The agent map of `saveFeatures` -/

theorem agentMapInv_step (reg : Registry) (acc : List (String × List FeatureName))
    (processed : List FeatureName) (f0 : FeatureName) (h : AgentMapInv reg acc processed) :
    AgentMapInv reg
      (match featureAt reg f0 with
        | .ok d => mapUpdate d.m_agent [] (setInsert f0) acc
        | .error _ => acc) (processed ++ [f0]) := by
  obtain ⟨hS, hV, hN⟩ := h
  unfold featureAt
  cases hf0 : mapFind reg.SrrFeatureMap f0 with
  | none =>
    have hno : ∀ a, ¬ OwnedBy reg a f0 := by
      rintro a ⟨d, hd, _⟩
      rw [hf0] at hd
      cases hd
    refine ⟨hS, ?_, ?_⟩
    · intro a s has
      obtain ⟨h1, h2, h3⟩ := hV a s has
      refine ⟨h1, h2, fun f => ?_⟩
      rw [h3 f, List.mem_append, List.mem_singleton]
      constructor
      · rintro ⟨hp, ho⟩; exact ⟨Or.inl hp, ho⟩
      · rintro ⟨hp | hp, ho⟩
        · exact ⟨hp, ho⟩
        · subst hp; exact absurd ho (hno a)
    · intro a ha f hf ho
      rcases List.mem_append.mp hf with hf | hf
      · exact hN a ha f hf ho
      · rw [List.mem_singleton] at hf
        subst hf
        exact hno a ho
  | some d0 =>
    have hown : ∀ a, OwnedBy reg a f0 ↔ a = d0.m_agent := by
      intro a
      constructor
      · rintro ⟨d, hd, ha⟩
        rw [hf0] at hd
        cases hd
        exact ha.symm
      · rintro rfl
        exact ⟨d0, hf0, rfl⟩
    simp only []
    refine ⟨mapUpdate_sorted _ _ _ _ hS, ?_, ?_⟩
    · intro a s has
      rw [mapFind_mapUpdate _ _ _ _ hS] at has
      by_cases ha : a = d0.m_agent
      · subst ha
        simp only [if_true, Option.some.injEq] at has
        subst has
        cases hold : mapFind acc d0.m_agent with
        | none =>
          simp only [Option.getD_none]
          refine ⟨by simp [setInsert], by simp [setInsert], fun f => ?_⟩
          simp only [setInsert, List.mem_singleton, List.mem_append]
          constructor
          · rintro rfl; exact ⟨Or.inr rfl, (hown _).mpr rfl⟩
          · rintro ⟨hp | hp, ho⟩
            · exact absurd ho (hN _ hold f hp)
            · exact hp
        | some sOld =>
          obtain ⟨h1, h2, h3⟩ := hV _ sOld hold
          simp only [Option.getD_some]
          refine ⟨setInsert_sorted _ _ h1, ?_, fun f => ?_⟩
          · intro hnil
            have : f0 ∈ setInsert f0 sOld := (mem_setInsert _ _ _).mpr (Or.inl rfl)
            rw [hnil] at this
            cases this
          · rw [mem_setInsert, h3 f, List.mem_append, List.mem_singleton]
            constructor
            · rintro (rfl | ⟨hp, ho⟩)
              · exact ⟨Or.inr rfl, (hown _).mpr rfl⟩
              · exact ⟨Or.inl hp, ho⟩
            · rintro ⟨hp | hp, ho⟩
              · exact Or.inr ⟨hp, ho⟩
              · exact Or.inl hp
      · simp only [ha, if_false] at has
        obtain ⟨h1, h2, h3⟩ := hV a s has
        refine ⟨h1, h2, fun f => ?_⟩
        rw [h3 f, List.mem_append, List.mem_singleton]
        constructor
        · rintro ⟨hp, ho⟩; exact ⟨Or.inl hp, ho⟩
        · rintro ⟨hp | hp, ho⟩
          · exact ⟨hp, ho⟩
          · subst hp; exact absurd ((hown a).mp ho) ha
    · intro a ha f hf ho
      rw [mapFind_mapUpdate _ _ _ _ hS] at ha
      by_cases haa : a = d0.m_agent
      · simp [haa] at ha
      · simp only [haa, if_false] at ha
        rcases List.mem_append.mp hf with hf | hf
        · exact hN a ha f hf ho
        · rw [List.mem_singleton] at hf
          subst hf
          exact haa ((hown a).mp ho)

theorem agentMapInv_foldl (reg : Registry) (fs : List FeatureName) :
    ∀ (acc : List (String × List FeatureName)) (processed : List FeatureName),
      AgentMapInv reg acc processed →
      AgentMapInv reg (fs.foldl (fun map feature =>
        match featureAt reg feature with
        | .ok d => mapUpdate d.m_agent [] (setInsert feature) map
        | .error _ => map) acc) (processed ++ fs) := by
  induction fs with
  | nil => intro acc processed h; simpa using h
  | cons f tl ih =>
    intro acc processed h
    have := ih _ _ (agentMapInv_step reg acc processed f h)
    simpa [List.foldl_cons, List.append_assoc] using this

theorem groupFeaturesByAgent_inv (reg : Registry) (fs : List FeatureName) :
    AgentMapInv reg (groupFeaturesByAgent reg fs) fs := by
  have := agentMapInv_foldl reg fs [] [] ⟨by simp, by simp [mapFind], by simp⟩
  simpa [groupFeaturesByAgent] using this

theorem saveAgents_prefix (w : SrrWorker) (p : String)
    (entries : List (String × List FeatureName)) :
    ∀ (resp : SaveResponse) (t : List Request),
      ∃ k, (saveAgents w p entries resp t).1 = t ++ (entries.map (saveRequest w p)).take k
        ∧ ((∃ r, (saveAgents w p entries resp t).2 = .ok r) → k = entries.length)
        ∧ (∀ e, (saveAgents w p entries resp t).2 = .error e → ∃ s, e = .SrrException s) := by
  induction entries with
  | nil =>
    intro resp t
    exact ⟨0, by simp [saveAgents], fun _ => rfl, fun e h => by simp [saveAgents] at h⟩
  | cons hd tl ih =>
    obtain ⟨agent, feats⟩ := hd
    intro resp t
    simp only [saveAgents]
    have hs := sendRequest_fst w (.save feats p) "save" (queueOf w.reg agent) agent t
    split
    · next t1 r hsend =>
      rw [hsend] at hs
      simp only at hs
      obtain ⟨k, h1, h2, h3⟩ := ih (resp.append r.save) t1
      refine ⟨k + 1, ?_, ?_, h3⟩
      · rw [h1, hs]
        simp [saveRequest]
      · intro hok
        rw [h2 hok]
        rfl
    · next t1 e hsend =>
      rw [hsend] at hs
      simp only at hs
      refine ⟨1, ?_, ?_, ?_⟩
      · rw [hs]; simp [saveRequest]
      · rintro ⟨r, hr⟩; cases hr
      · intro e' he'
        cases he'
        exact sendRequest_error hsend

/-! ## The map and the requests of `rollback` -/

theorem mapFind_mapInsert {β : Type} (k : String) (v : β) (m : List (String × β))
    (hm : (m.map Prod.fst).Pairwise (fun a b => stringLess a b = true)) (x : String) :
    mapFind (mapInsert k v m) x
      = if x = k then some ((mapFind m k).getD v) else mapFind m x := by
  induction m with
  | nil =>
    by_cases hx : x = k
    · subst hx; simp [mapInsert, mapFind, List.lookup_cons]
    · have : (x == k) = false := by simpa using hx
      simp [mapInsert, mapFind, List.lookup_cons, this, hx]
  | cons hd tl ih =>
    obtain ⟨k', v'⟩ := hd
    simp only [List.map_cons, List.pairwise_cons] at hm
    simp only [mapInsert]
    split
    · next hlt =>
      have hnone : mapFind ((k', v') :: tl) k = none := by
        apply mapFind_none_of_less
        intro a ha
        simp only [List.map_cons, List.mem_cons] at ha
        rcases ha with rfl | ha
        · exact hlt
        · exact stringLess_trans hlt (hm.1 a ha)
      by_cases hx : x = k
      · subst hx
        simp [mapFind, List.lookup_cons] at hnone ⊢
        simp [hnone]
      · have : (x == k) = false := by simpa using hx
        simp [mapFind, List.lookup_cons, this, hx]
    · split
      · next hkk =>
        subst hkk
        by_cases hx : x = k
        · subst hx; simp [mapFind, List.lookup_cons]
        · simp [hx]
      · next hnlt hne =>
        have hkk' : (k == k') = false := by simpa using hne
        by_cases hx' : x = k'
        · subst hx'
          have : ¬ (x = k) := fun h => hne h.symm
          simp [mapFind, List.lookup_cons, this]
        · have hxk' : (x == k') = false := by simpa using hx'
          have := ih hm.2
          simp only [mapFind] at this ⊢
          simp only [List.lookup_cons, hxk', hkk', this]

theorem rollbackMap_foldl (l : List (String × FeatureAndStatus)) :
    ∀ (acc : List (String × FeatureAndStatus)),
      (acc.map Prod.fst).Pairwise (fun a b => stringLess a b = true) →
      ((l.foldl (fun m kv => mapInsert kv.1 kv.2 m) acc).map Prod.fst).Pairwise
          (fun a b => stringLess a b = true)
      ∧ ∀ x, mapFind (l.foldl (fun m kv => mapInsert kv.1 kv.2 m) acc) x
          = (mapFind acc x).orElse (fun _ => l.lookup x) := by
  induction l with
  | nil =>
    intro acc hacc
    refine ⟨hacc, fun x => ?_⟩
    simp only [List.foldl_nil, List.lookup_nil]
    cases mapFind acc x <;> rfl
  | cons hd tl ih =>
    obtain ⟨k, v⟩ := hd
    intro acc hacc
    simp only [List.foldl_cons]
    obtain ⟨h1, h2⟩ := ih (mapInsert k v acc) (mapInsert_sorted k v acc hacc)
    refine ⟨h1, fun x => ?_⟩
    rw [h2 x, mapFind_mapInsert k v acc hacc x]
    by_cases hx : x = k
    · subst hx
      cases mapFind acc x <;> simp [List.lookup_cons]
    · have : (x == k) = false := by simpa using hx
      simp only [hx, if_false, List.lookup_cons, this]

/-- The map of `rollback`: keys in ascending order, and under each key the
snapshot that the save response holds for it. -/
theorem rollbackMap_spec (R : SaveResponse) :
    ((rollbackMap R).map Prod.fst).Pairwise (fun a b => stringLess a b = true)
    ∧ ∀ k v, (k, v) ∈ rollbackMap R ↔ R.map_features_data.lookup k = some v := by
  obtain ⟨h1, h2⟩ := rollbackMap_foldl R.map_features_data [] (by simp)
  refine ⟨h1, fun k v => ?_⟩
  have hmem := mem_iff_mapFind _ h1 k v
  have := h2 k
  simp only [mapFind, List.lookup_nil, Option.orElse] at this
  unfold rollbackMap
  rw [hmem]
  simp only [mapFind]
  rw [this]

theorem filter_isRestore_reset (w : SrrWorker) (n : String) (t : List Request)
    (e1 : List Request) (h : (resetIfSupported w n t).1 = t ++ e1) :
    e1.filter isRestore = [] := by
  rcases resetIfSupported_fst w n t with h' | h'
  · rw [h'] at h
    have : e1 = [] := by simpa using h
    rw [this]; rfl
  · rw [h'] at h
    have : e1 = [resetRequest w n] := by simpa using h.symm
    rw [this]
    rfl

/-- The restore requests of `rollback`, in the order in which they are sent,
are those of an initial part of the map; of the whole map when `rollback`
returns. -/
theorem rollbackLoop_restores (w : SrrWorker) (p : String)
    (m : List (String × FeatureAndStatus)) :
    ∀ (restart : Bool) (t : List Request),
      ∃ k extra, (rollbackLoop w p m restart t).1 = t ++ extra
        ∧ extra.filter isRestore
          = (m.map (fun kv => restoreRequest w kv.1 (rollbackQuery w p kv.1 kv.2.feature))).take k
        ∧ ((∃ b, (rollbackLoop w p m restart t).2 = .ok b) → k = m.length) := by
  induction m with
  | nil =>
    intro restart t
    exact ⟨0, [], by simp [rollbackLoop], by simp, fun _ => rfl⟩
  | cons hd tl ih =>
    obtain ⟨n, fs⟩ := hd
    intro restart t
    simp only [rollbackLoop]
    split
    · exact ⟨0, [], by simp, by simp, fun ⟨b, hb⟩ => by cases hb⟩
    · have hr' : ∃ e1, (resetIfSupported w n t).1 = t ++ e1 := by
        rcases resetIfSupported_fst w n t with hr | hr
        · exact ⟨[], by simpa using hr⟩
        · exact ⟨_, hr⟩
      obtain ⟨e1, he1⟩ := hr'
      have hf1 := filter_isRestore_reset w n t e1 he1
      split
      · next t1 e heq =>
        rw [heq] at he1
        exact ⟨0, e1, he1, by simp [hf1], fun ⟨b, hb⟩ => by cases hb⟩
      · next t1 u heq =>
        rw [heq] at he1
        simp only at he1
        subst he1
        split
        · next t2 r heq2 =>
          obtain ⟨ht2, _⟩ := restoreFeature_sent heq2 (Or.inl ⟨r, rfl⟩)
          obtain ⟨k, e3, he3, hf3, hk3⟩ := ih (restart || _) t2
          refine ⟨k + 1, e1 ++ [restoreRequest w n (rollbackQuery w p n fs.feature)] ++ e3,
            by rw [he3, ht2]; simp, ?_, fun hok => by rw [hk3 hok]; rfl⟩
          simp only [List.filter_append, hf1, hf3, List.nil_append, List.map_cons,
            List.take_succ_cons]
          rfl
        · next t2 e heq2 =>
          split
          · next hi =>
            obtain ⟨ht2, _⟩ := restoreFeature_sent heq2 (Or.inr ⟨e, rfl, hi⟩)
            obtain ⟨k, e3, he3, hf3, hk3⟩ := ih (restart || _) t2
            refine ⟨k + 1, e1 ++ [restoreRequest w n (rollbackQuery w p n fs.feature)] ++ e3,
              by rw [he3, ht2]; simp, ?_, fun hok => by rw [hk3 hok]; rfl⟩
            simp only [List.filter_append, hf1, hf3, List.nil_append, List.map_cons,
              List.take_succ_cons]
            rfl
          · have hx := restoreFeature_extends w n (rollbackQuery w p n fs.feature) (t ++ e1)
            rw [heq2] at hx
            simp only at hx
            rcases hx with hx | hx
            · exact ⟨0, e1, by rw [hx], by simp [hf1], fun ⟨b, hb⟩ => by cases hb⟩
            · refine ⟨1, e1 ++ [restoreRequest w n (rollbackQuery w p n fs.feature)],
                by rw [hx]; simp, ?_, fun ⟨b, hb⟩ => by cases hb⟩
              simp only [List.filter_append, hf1, List.nil_append, List.map_cons]
              rfl

/-! ## The rollback accumulator -/

theorem registered_featureAt {reg : Registry} {n : String} (h : Registered reg n) :
    ∃ d, featureAt reg n = .ok d := by
  unfold Registered at h
  unfold featureAt
  cases hf : mapFind reg.SrrFeatureMap n with
  | none => rw [hf] at h; cases h
  | some d => exact ⟨d, rfl⟩

theorem resetIfSupported_returns (w : SrrWorker) (hw : Responsive w) (n : String)
    (hn : Registered w.reg n) (t : List Request) :
    ∃ t', resetIfSupported w n t = (t', .ok ()) := by
  obtain ⟨d, hd⟩ := registered_featureAt hn
  unfold resetIfSupported
  simp only [hd]
  split
  · obtain ⟨r, hr, _⟩ := hw.1 (t ++ [⟨"reset", queueOf w.reg d.m_agent, d.m_agent,
      .reset w.m_srrVersion [n]⟩])
    have hl := hw.2 t (queueOf w.reg d.m_agent) d.m_agent w.m_srrVersion n r hr
    obtain ⟨s, hs⟩ := Option.isSome_iff_exists.mp hl
    by_cases hst : s.status = Status.SUCCESS
    · have hrf : resetFeature w n t
          = (t ++ [⟨"reset", queueOf w.reg d.m_agent, d.m_agent, .reset w.m_srrVersion [n]⟩],
              .ok r.reset) := by
        unfold resetFeature
        simp only [hd, sendRequest, hr, hs, hst, ne_eq, not_true_eq_false, if_false]
      rw [hrf]
      exact ⟨_, rfl⟩
    · have hrf : resetFeature w n t
          = (t ++ [⟨"reset", queueOf w.reg d.m_agent, d.m_agent, .reset w.m_srrVersion [n]⟩],
              .error (.SrrResetFailed ("Reset procedure failed for feature " ++ n))) := by
        unfold resetFeature
        simp only [hd, sendRequest, hr, hs, hst, ne_eq, not_false_eq_true, if_true]
      rw [hrf]
      exact ⟨_, rfl⟩
  · exact ⟨t, rfl⟩

theorem restoreFeature_returns (w : SrrWorker) (hw : Responsive w) (n : String)
    (hn : Registered w.reg n) (q : RestoreQuery) (t : List Request) :
    ∃ t', (∃ r, restoreFeature w n q t = (t', .ok r))
      ∨ (∃ e, restoreFeature w n q t = (t', .error e) ∧ e.isRestoreFailed = true) := by
  obtain ⟨d, hd⟩ := registered_featureAt hn
  obtain ⟨r, hr, _⟩ := hw.1 (t ++ [⟨"restore", queueOf w.reg d.m_agent, d.m_agent, .restore q⟩])
  unfold restoreFeature
  simp only [hd, sendRequest, hr]
  split
  · exact ⟨_, Or.inr ⟨_, rfl, rfl⟩⟩
  · exact ⟨_, Or.inl ⟨_, rfl⟩⟩

theorem rollbackLoop_returns (w : SrrWorker) (hw : Responsive w) (p : String)
    (m : List (String × FeatureAndStatus)) (hm : ∀ kv ∈ m, Registered w.reg kv.1) :
    ∀ (restart : Bool) (t : List Request), ∃ t' b, rollbackLoop w p m restart t = (t', .ok b) := by
  induction m with
  | nil => intro restart t; exact ⟨t, restart, rfl⟩
  | cons hd tl ih =>
    obtain ⟨n, fs⟩ := hd
    intro restart t
    have hn : Registered w.reg n := hm (n, fs) (List.mem_cons_self _ _)
    obtain ⟨d, hd⟩ := registered_featureAt hn
    obtain ⟨t1, h1⟩ := resetIfSupported_returns w hw n hn t
    have ih' := ih (fun kv hkv => hm kv (List.mem_cons_of_mem _ hkv))
    obtain ⟨t2, h2⟩ := restoreFeature_returns w hw n hn (rollbackQuery w p n fs.feature) t1
    simp only [rollbackLoop, hd, h1]
    rcases h2 with ⟨r, h2⟩ | ⟨e, h2, he⟩
    · simp only [h2]
      exact ih' _ _
    · simp only [h2, he, if_true]
      exact ih' _ _

theorem resetPhase_returns (w : SrrWorker) (hw : Responsive w) (fs : List SrrFeature)
    (hfs : ∀ f ∈ fs, Registered w.reg f.m_feature_name) :
    ∀ t, ∃ t', resetPhase w fs t = (t', .ok ()) := by
  induction fs with
  | nil => intro t; exact ⟨t, rfl⟩
  | cons f tl ih =>
    intro t
    obtain ⟨t1, h1⟩ := resetIfSupported_returns w hw f.m_feature_name
      (hfs f (List.mem_cons_self _ _)) t
    simp only [resetPhase, h1]
    exact ih (fun f' hf' => hfs f' (List.mem_cons_of_mem _ hf')) t1

theorem mem_pbInsert {β : Type} (m : List (String × β)) (kv e : String × β)
    (h : e ∈ pbInsert m kv) : e ∈ m ∨ e = kv := by
  unfold pbInsert at h
  split at h
  · exact Or.inl h
  · simpa using h

theorem mem_foldl_pbInsert {β : Type} (l : List (String × β)) :
    ∀ (m : List (String × β)) (e : String × β), e ∈ l.foldl pbInsert m → e ∈ m ∨ e ∈ l := by
  induction l with
  | nil => intro m e h; exact Or.inl h
  | cons hd tl ih =>
    intro m e h
    simp only [List.foldl_cons] at h
    rcases ih _ _ h with h | h
    · rcases mem_pbInsert _ _ _ h with h | h
      · exact Or.inl h
      · exact Or.inr (h ▸ List.mem_cons_self _ _)
    · exact Or.inr (List.mem_cons_of_mem _ h)

theorem saveAgents_registered (w : SrrWorker) (hw : Responsive w) (p : String)
    (entries : List (String × List FeatureName)) :
    ∀ (resp : SaveResponse) (t t' : List Request) (r : SaveResponse),
      (∀ kv ∈ resp.map_features_data, Registered w.reg kv.1) →
      saveAgents w p entries resp t = (t', .ok r) →
      ∀ kv ∈ r.map_features_data, Registered w.reg kv.1 := by
  induction entries with
  | nil =>
    intro resp t t' r hresp h
    simp only [saveAgents, Prod.mk.injEq, Except.ok.injEq] at h
    rw [← h.2]
    exact hresp
  | cons hd tl ih =>
    obtain ⟨agent, feats⟩ := hd
    intro resp t t' r hresp h
    simp only [saveAgents] at h
    split at h
    · next t1 r1 hsend =>
      apply ih _ _ _ _ _ h
      intro kv hkv
      rcases mem_foldl_pbInsert _ _ _ hkv with hkv | hkv
      · exact hresp kv hkv
      · obtain ⟨r0, hr0, hreg⟩ := hw.1 (t ++ [⟨"save", queueOf w.reg agent, agent, .save feats p⟩])
        simp only [sendRequest, hr0, Prod.mk.injEq, Except.ok.injEq] at hsend
        rw [← hsend.2] at hkv
        exact hreg kv hkv
    · cases h

theorem stageRollback_registered (w : SrrWorker) (hw : Responsive w) (p : String)
    (fs : List SrrFeature) :
    ∀ (R : SaveResponse) (t : List Request),
      (∀ kv ∈ R.map_features_data, Registered w.reg kv.1) →
      ∀ kv ∈ (stageRollback w p fs R t).2.map_features_data, Registered w.reg kv.1 := by
  induction fs with
  | nil => intro R t hR; exact hR
  | cons f tl ih =>
    intro R t hR
    simp only [stageRollback]
    split
    · next t1 r heq =>
      apply ih
      intro kv hkv
      rcases mem_foldl_pbInsert _ _ _ hkv with hkv | hkv
      · exact hR kv hkv
      · exact saveAgents_registered w hw p _ {} t t1 r (by simp) heq kv hkv
    · exact ih R _ hR

theorem mem_of_lookup {β : Type} (l : List (String × β)) (k : String) (v : β)
    (h : l.lookup k = some v) : (k, v) ∈ l := by
  induction l with
  | nil => simp at h
  | cons hd tl ih =>
    obtain ⟨k', v'⟩ := hd
    by_cases hk : k = k'
    · subst hk
      simp only [List.lookup_cons, beq_self_eq_true, Option.some.injEq] at h
      subst h
      exact List.mem_cons_self _ _
    · have : (k == k') = false := by simpa using hk
      simp only [List.lookup_cons, this] at h
      exact List.mem_cons_of_mem _ (ih h)

/-- With responsive agents `rollback` returns, whatever the statuses of the
replies, when the accumulator holds registered features only. -/
theorem rollback_returns (w : SrrWorker) (hw : Responsive w) (p : String) (R : SaveResponse)
    (hR : ∀ kv ∈ R.map_features_data, Registered w.reg kv.1) (t : List Request) :
    ∃ t' b, rollback w R p t = (t', .ok b) := by
  apply rollbackLoop_returns w hw p
  intro kv hkv
  have := ((rollbackMap_spec R).2 kv.1 kv.2).mp hkv
  exact hR _ (mem_of_lookup _ _ _ this)

theorem restoreGroup_returns (w : SrrWorker) (hw : Responsive w) (p : String) (group : Group)
    (hfs : ∀ f ∈ group.m_features, Registered w.reg f.m_feature_name) (st : RestoreState) :
    ∃ st', restoreGroup w p group st = (st', .ok ()) := by
  unfold restoreGroup
  split
  · exact ⟨_, rfl⟩
  · split
    · exact ⟨_, rfl⟩
    · next queries _ =>
      have hreg := stageRollback_registered w hw p group.m_features {} st.trace (by simp)
      rcases hstage : stageRollback w p group.m_features {} st.trace with ⟨t1, R⟩
      rw [hstage] at hreg
      simp only [] at hreg ⊢
      obtain ⟨t2, h2⟩ := resetPhase_returns w hw group.m_features.reverse
        (fun f hf => hfs f (List.mem_reverse.mp hf)) t1
      simp only [h2]
      rcases hres : restorePhase w queries group.m_features st.restart t2 with ⟨t3, restart, r3⟩
      cases r3 with
      | none => exact ⟨_, rfl⟩
      | some failed =>
        obtain ⟨n, ex⟩ := failed
        obtain ⟨t4, b, h4⟩ := rollback_returns w hw p R hreg t3
        simp only [h4]
        exact ⟨_, rfl⟩

theorem restoreGroups_returns (w : SrrWorker) (hw : Responsive w) (p : String)
    (groups : List Group)
    (hfs : ∀ g ∈ groups, ∀ f ∈ g.m_features, Registered w.reg f.m_feature_name) :
    ∀ st, ∃ st', restoreGroups w p groups st = (st', .ok ()) := by
  induction groups with
  | nil => intro st; exact ⟨st, rfl⟩
  | cons g tl ih =>
    intro st
    obtain ⟨st1, h1⟩ := restoreGroup_returns w hw p g (hfs g (List.mem_cons_self _ _)) st
    simp only [restoreGroups, h1]
    exact ih (fun g' hg' => hfs g' (List.mem_cons_of_mem _ hg')) st1

theorem lookup_map_snd {β γ : Type} (l : List (String × β)) (g : β → γ) (k : String) :
    (l.map (fun e => (e.1, g e.2))).lookup k = (l.lookup k).map g := by
  induction l with
  | nil => rfl
  | cons hd tl ih =>
    obtain ⟨k', v'⟩ := hd
    by_cases h : k = k'
    · subst h; simp [List.lookup_cons]
    · have : (k == k') = false := by simpa using h
      simp only [List.map_cons, List.lookup_cons, this]
      exact ih

theorem sendRequest_resets (w : SrrWorker) (q : Query) (a qu ag : String) (t : List Request) :
    sendRequest (withResetsSucceeding w) q a qu ag t
      = ((sendRequest w q a qu ag t).1, (sendRequest w q a qu ag t).2.map resetsAsSuccess) := by
  simp only [sendRequest, withResetsSucceeding]
  cases w.bus (t ++ [⟨a, qu, ag, q⟩]) <;> rfl

theorem saveAgents_resets (w : SrrWorker) (p : String)
    (entries : List (String × List FeatureName)) :
    ∀ (resp : SaveResponse) (t : List Request),
      saveAgents (withResetsSucceeding w) p entries resp t = saveAgents w p entries resp t := by
  induction entries with
  | nil => intro resp t; rfl
  | cons hd tl ih =>
    obtain ⟨agent, feats⟩ := hd
    intro resp t
    simp only [saveAgents]
    rw [sendRequest_resets]
    have hreg : (withResetsSucceeding w).reg = w.reg := rfl
    rw [hreg]
    rcases sendRequest w (.save feats p) "save" (queueOf w.reg agent) agent t with ⟨t1, r1⟩
    cases r1 with
    | error e => rfl
    | ok r => exact ih _ _

theorem saveFeatures_resets (w : SrrWorker) (fs : List FeatureName) (p : String)
    (t : List Request) :
    saveFeatures (withResetsSucceeding w) fs p t = saveFeatures w fs p t :=
  saveAgents_resets w p _ _ _

theorem restoreFeature_resets (w : SrrWorker) (n : String) (q : RestoreQuery)
    (t : List Request) :
    restoreFeature (withResetsSucceeding w) n q t = restoreFeature w n q t := by
  unfold restoreFeature
  have hreg : (withResetsSucceeding w).reg = w.reg := rfl
  rw [hreg]
  cases featureAt w.reg n with
  | error e => rfl
  | ok d =>
    simp only []
    rw [sendRequest_resets]
    rcases sendRequest w (.restore q) "restore" (queueOf w.reg d.m_agent) d.m_agent t with ⟨t1, r1⟩
    cases r1 <;> rfl

theorem resetIfSupported_resets (w : SrrWorker) (n : String) (t : List Request) :
    resetIfSupported (withResetsSucceeding w) n t = resetIfSupported w n t := by
  unfold resetIfSupported resetFeature
  have hreg : (withResetsSucceeding w).reg = w.reg := rfl
  have hver : (withResetsSucceeding w).m_srrVersion = w.m_srrVersion := rfl
  rw [hreg, hver]
  cases featureAt w.reg n with
  | error e => rfl
  | ok d =>
    simp only []
    cases d.m_reset with
    | false => rfl
    | true =>
      simp only [if_true]
      rw [sendRequest_resets]
      rcases sendRequest w (.reset w.m_srrVersion [n]) "reset" (queueOf w.reg d.m_agent)
        d.m_agent t with ⟨t1, r1⟩
      cases r1 with
      | error e => rfl
      | ok r =>
        have hl := lookup_map_snd r.reset.map_features_status
          (fun s : FeatureStatus => (⟨Status.SUCCESS, s.error⟩ : FeatureStatus)) n
        simp only [Except.map, resetsAsSuccess]
        rw [hl]
        cases r.reset.map_features_status.lookup n with
        | none => rfl
        | some s =>
          simp only [Option.map_some']
          by_cases hs : s.status = Status.SUCCESS
          · simp [hs]
          · simp [hs, Exn.isResetFailed]

theorem rollbackLoop_resets (w : SrrWorker) (p : String) (m : List (String × FeatureAndStatus)) :
    ∀ (restart : Bool) (t : List Request),
      rollbackLoop (withResetsSucceeding w) p m restart t = rollbackLoop w p m restart t := by
  induction m with
  | nil => intro restart t; rfl
  | cons hd tl ih =>
    obtain ⟨n, fs⟩ := hd
    intro restart t
    simp only [rollbackLoop, resetIfSupported_resets, restoreFeature_resets, ih]
    rfl

theorem rollback_resets (w : SrrWorker) (R : SaveResponse) (p : String) (t : List Request) :
    rollback (withResetsSucceeding w) R p t = rollback w R p t :=
  rollbackLoop_resets w p _ _ _

theorem stageRollback_resets (w : SrrWorker) (p : String) (fs : List SrrFeature) :
    ∀ (R : SaveResponse) (t : List Request),
      stageRollback (withResetsSucceeding w) p fs R t = stageRollback w p fs R t := by
  induction fs with
  | nil => intro R t; rfl
  | cons f tl ih =>
    intro R t
    simp only [stageRollback, saveFeatures_resets, ih]

theorem resetPhase_resets (w : SrrWorker) (fs : List SrrFeature) :
    ∀ (t : List Request), resetPhase (withResetsSucceeding w) fs t = resetPhase w fs t := by
  induction fs with
  | nil => intro t; rfl
  | cons f tl ih =>
    intro t
    simp only [resetPhase, resetIfSupported_resets, ih]

theorem restorePhase_resets (w : SrrWorker) (q : List (String × RestoreQuery))
    (fs : List SrrFeature) :
    ∀ (restart : Bool) (t : List Request),
      restorePhase (withResetsSucceeding w) q fs restart t = restorePhase w q fs restart t := by
  induction fs with
  | nil => intro restart t; rfl
  | cons f tl ih =>
    intro restart t
    simp only [restorePhase, restoreFeature_resets, ih]
    rfl

theorem restoreGroup_resets (w : SrrWorker) (p : String) (group : Group) (st : RestoreState) :
    restoreGroup (withResetsSucceeding w) p group st = restoreGroup w p group st := by
  unfold restoreGroup
  simp only [stageRollback_resets, resetPhase_resets, restorePhase_resets, rollback_resets]
  rfl

theorem restoreGroups_resets (w : SrrWorker) (p : String) (groups : List Group) :
    ∀ st, restoreGroups (withResetsSucceeding w) p groups st = restoreGroups w p groups st := by
  induction groups with
  | nil => intro st; rfl
  | cons g tl ih =>
    intro st
    simp only [restoreGroups, restoreGroup_resets, ih]

theorem restoreV1Loop_resets (w : SrrWorker) (p : String) (fs : List SrrFeature) :
    ∀ st, restoreV1Loop (withResetsSucceeding w) p fs st = restoreV1Loop w p fs st := by
  induction fs with
  | nil => intro st; rfl
  | cons f tl ih =>
    intro st
    simp only [restoreV1Loop, saveFeatures_resets, resetIfSupported_resets,
      restoreFeature_resets, ih]

theorem restoreTry_resets (w : SrrWorker) (req : SrrRestoreRequest) (force : Bool) :
    restoreTry (withResetsSucceeding w) req force = restoreTry w req force := by
  unfold restoreTry restoreV1 restoreV2
  simp only [restoreV1Loop_resets, rollback_resets, restoreGroups_resets]
  rfl

/-! ## The feature loop of version 1.0 -/

theorem restoreV1Loop_append (w : SrrWorker) (p : String) (rest : List SrrFeature) :
    ∀ (pre : List SrrFeature) (st0 st : V1State),
      restoreV1Loop w p pre st0 = (st, .completed) →
      restoreV1Loop w p (pre ++ rest) st0 = restoreV1Loop w p rest st := by
  intro pre
  induction pre with
  | nil =>
    intro st0 st h
    simp only [restoreV1Loop, Prod.mk.injEq, and_true] at h
    subst h
    rfl
  | cons f tl ih =>
    intro st0 st
    simp only [List.cons_append, restoreV1Loop]
    rcases saveFeatures w [f.m_feature_name] p st0.trace with ⟨t1, saved⟩
    simp only []
    rcases resetIfSupported w f.m_feature_name t1 with ⟨t2, e | u⟩
    · intro h; simp at h
    · simp only []
      generalize restoreFeature w f.m_feature_name _ t2 = r
      rcases r with ⟨t3, e | resp⟩
      · simp only []
        split <;> (intro h; simp at h)
      · exact ih _ _

theorem restoreV1Loop_refused (w : SrrWorker) (p : String) (f : SrrFeature)
    (post : List SrrFeature) (st : V1State) (t1 t2 t3 : List Request)
    (saved : Except Exn SaveResponse) (e : Exn)
    (hsave : saveFeatures w [f.m_feature_name] p st.trace = (t1, saved))
    (hreset : resetIfSupported w f.m_feature_name t1 = (t2, .ok ()))
    (hrestore : restoreFeature w f.m_feature_name (featureQuery p f) t2 = (t3, .error e))
    (he : e.isRestoreFailed = true) :
    restoreV1Loop w p (f :: post) st
      = (⟨t3, accumulate st.rollbackSaveResponse saved, st.status_list, f.m_feature_name⟩,
          .restoreFailed) := by
  unfold featureQuery at hrestore
  simp only [restoreV1Loop, hsave, hreset, hrestore, he, if_true]
  cases saved <;> rfl

/-! ## Resets and rollbacks that are answered do not leave the group loop -/

theorem resetIfSupported_answered (w : SrrWorker) (hr : ResetsAnswered w) (n : String)
    (hn : Registered w.reg n) (t : List Request) :
    ∃ t', resetIfSupported w n t = (t', .ok ()) := by
  unfold Registered at hn
  cases hmap : mapFind w.reg.SrrFeatureMap n with
  | none => rw [hmap] at hn; cases hn
  | some d =>
    have hd : featureAt w.reg n = .ok d := by unfold featureAt; rw [hmap]
    unfold resetIfSupported
    simp only [hd]
    by_cases hreset : d.m_reset = true
    · simp only [hreset, if_true]
      obtain ⟨r, hbus, hl⟩ := hr t (queueOf w.reg d.m_agent) d.m_agent n ⟨d, hmap, hreset⟩
      obtain ⟨s, hs⟩ := Option.isSome_iff_exists.mp hl
      by_cases hst : s.status = Status.SUCCESS
      · have hrf : resetFeature w n t
            = (t ++ [⟨"reset", queueOf w.reg d.m_agent, d.m_agent, .reset w.m_srrVersion [n]⟩],
                .ok r.reset) := by
          unfold resetFeature
          simp only [hd, sendRequest, hbus, hs, hst, ne_eq, not_true_eq_false, if_false]
        rw [hrf]
        exact ⟨_, rfl⟩
      · have hrf : resetFeature w n t
            = (t ++ [⟨"reset", queueOf w.reg d.m_agent, d.m_agent, .reset w.m_srrVersion [n]⟩],
                .error (.SrrResetFailed ("Reset procedure failed for feature " ++ n))) := by
          unfold resetFeature
          simp only [hd, sendRequest, hbus, hs, hst, ne_eq, not_false_eq_true, if_true]
        rw [hrf]
        exact ⟨_, rfl⟩
    · simp only [hreset, Bool.false_eq_true, if_false]
      exact ⟨t, rfl⟩

theorem resetPhase_answered (w : SrrWorker) (hr : ResetsAnswered w) (fs : List SrrFeature)
    (hfs : ∀ f ∈ fs, Registered w.reg f.m_feature_name) :
    ∀ t, ∃ t', resetPhase w fs t = (t', .ok ()) := by
  induction fs with
  | nil => intro t; exact ⟨t, rfl⟩
  | cons f tl ih =>
    intro t
    obtain ⟨t1, h1⟩ := resetIfSupported_answered w hr f.m_feature_name
      (hfs f (List.mem_cons_self _ _)) t
    simp only [resetPhase, h1]
    exact ih (fun f' hf' => hfs f' (List.mem_cons_of_mem _ hf')) t1

theorem restorePhase_succeeds_general (w : SrrWorker) (hbus : RestoresSucceed w)
    (queries : List (String × RestoreQuery)) (fs : List SrrFeature)
    (h : ∀ f ∈ fs, Registered w.reg f.m_feature_name) :
    ∀ (restart : Bool) (t : List Request),
      ∃ t', restorePhase w queries fs restart t
        = (t', restart || fs.any (fun f => asksRestart w.reg f.m_feature_name), none) := by
  induction fs with
  | nil => intro restart t; exact ⟨t, by simp [restorePhase]⟩
  | cons f tl ih =>
    intro restart t
    have hn := h f (List.mem_cons_self _ _)
    unfold Registered at hn
    cases hmap : mapFind w.reg.SrrFeatureMap f.m_feature_name with
    | none => rw [hmap] at hn; cases hn
    | some d =>
      have hd : featureAt w.reg f.m_feature_name = .ok d := by unfold featureAt; rw [hmap]
      obtain ⟨t1, r, hrest⟩ := restoreFeature_succeeds w hbus f.m_feature_name
        (queryFor queries f.m_feature_name) t d hd
      obtain ⟨t2, h2⟩ := ih (fun f' hf' => h f' (List.mem_cons_of_mem _ hf'))
        (restart || d.m_restart) t1
      refine ⟨t2, ?_⟩
      simp only [restorePhase, hrest, hd, h2, List.any_cons, asksRestart, hmap, Option.any_some,
        Bool.or_assoc]

theorem restoreGroup_succeeds_general (w : SrrWorker) (hbus : RestoresSucceed w)
    (hr : ResetsAnswered w) (p : String) (group : Group) (st : RestoreState)
    (hid : (mapFind w.reg.SrrGroupMap group.m_group_id).isSome = true)
    (hcomplete : Complete w.reg group)
    (hfeat : ∀ f ∈ group.m_features, Registered w.reg f.m_feature_name) :
    ∃ t', restoreGroup w p group st
      = (⟨t', st.status_list ++ [successStatus group],
          st.restart || group.m_features.any (fun f => asksRestart w.reg f.m_feature_name)⟩,
          .ok ()) := by
  cases hdecl : mapFind w.reg.SrrGroupMap group.m_group_id with
  | none => rw [hdecl] at hid; cases hid
  | some decl =>
    obtain ⟨queries, hq⟩ := buildRestoreQueries_complete p (ftMapOf group.m_features) decl.m_fp []
      (fun fp hfp hnone =>
        (mapFind_ftMapOf group.m_features fp.m_feature).mp hnone (hcomplete decl hdecl fp hfp))
    rw [restoreGroup_eq w p group st decl queries hdecl hq]
    obtain ⟨t2, hreset⟩ := resetPhase_answered w hr group.m_features.reverse
      (fun f hf => hfeat f (List.mem_reverse.mp hf)) (staged w p group st).1
    have hreset' : afterReset w p group st = (t2, .ok ()) := hreset
    obtain ⟨t', hrestore⟩ := restorePhase_succeeds_general w hbus queries group.m_features hfeat
      st.restart (afterReset w p group st).1
    have hrestore' : afterRestore w p queries group st
        = (t', st.restart || group.m_features.any (fun f => asksRestart w.reg f.m_feature_name),
            none) := hrestore
    refine ⟨t', ?_⟩
    simp only [hreset', hrestore', successStatus]

theorem restoreGroups_succeeds_general (w : SrrWorker) (hbus : RestoresSucceed w)
    (hr : ResetsAnswered w) (p : String) (groups : List Group)
    (hall : ∀ g ∈ groups, (mapFind w.reg.SrrGroupMap g.m_group_id).isSome = true
      ∧ Complete w.reg g ∧ ∀ f ∈ g.m_features, Registered w.reg f.m_feature_name) :
    ∀ st : RestoreState, ∃ t', restoreGroups w p groups st
      = (⟨t', st.status_list ++ groups.map successStatus,
          st.restart || anyAsksRestart w.reg groups⟩, .ok ()) := by
  induction groups with
  | nil => intro st; exact ⟨st.trace, by simp [restoreGroups, anyAsksRestart]⟩
  | cons g tl ih =>
    intro st
    obtain ⟨h1, h2, h3⟩ := hall g (List.mem_cons_self _ _)
    obtain ⟨t1, hstep⟩ := restoreGroup_succeeds_general w hbus hr p g st h1 h2 h3
    obtain ⟨t2, hrest⟩ := ih (fun g' hg' => hall g' (List.mem_cons_of_mem _ hg'))
      ⟨t1, st.status_list ++ [successStatus g],
        st.restart || g.m_features.any (fun f => asksRestart w.reg f.m_feature_name)⟩
    refine ⟨t2, ?_⟩
    simp only [restoreGroups, hstep, hrest, List.map_cons, List.append_assoc,
      List.singleton_append, anyAsksRestart, List.any_cons, Bool.or_assoc]

/-- No feature of the reference tables declares a reset, so no reset request
is ever due. -/
theorem reference_resetsAnswered (w : SrrWorker) (href : w.reg = referenceRegistry) :
    ResetsAnswered w := by
  intro t queue agent n hn
  obtain ⟨d, hmap, hreset⟩ := hn
  rw [href] at hmap
  have hmem := mem_of_lookup _ _ _ hmap
  have hall : ∀ kv ∈ referenceRegistry.SrrFeatureMap, kv.2.m_reset = false := by decide
  have := hall (n, d) hmem
  rw [hreset] at this
  cases this

theorem featureAt_registered {reg : Registry} {n : String} {d : SrrFeatureStruct}
    (h : featureAt reg n = .ok d) : mapFind reg.SrrFeatureMap n = some d := by
  unfold featureAt at h
  split at h
  · next d' hd => cases h; exact hd
  · cases h

/-- With the reference tables, groups of grouped features ask for a restart as
soon as there is one group. -/
theorem reference_anyAsksRestart (groups : List Group)
    (h : ∀ g ∈ groups, g.m_features ≠ [] ∧ ∀ f ∈ g.m_features,
      (getGroupFromFeature referenceRegistry f.m_feature_name).isEmpty = false) :
    anyAsksRestart referenceRegistry groups = !groups.isEmpty := by
  cases groups with
  | nil => rfl
  | cons g tl =>
    obtain ⟨hne, hf⟩ := h g (List.mem_cons_self _ _)
    obtain ⟨f, hfm⟩ := List.exists_mem_of_ne_nil _ hne
    obtain ⟨d, hd, _, hrestart⟩ := reference_grouped_feature f.m_feature_name (hf f hfm)
    have hask : asksRestart referenceRegistry f.m_feature_name = true := by
      simp only [asksRestart, featureAt_registered hd, Option.any_some, hrestart]
    have hg : g.m_features.any (fun f => asksRestart referenceRegistry f.m_feature_name) = true :=
      List.any_eq_true.mpr ⟨f, hfm, hask⟩
    simp only [anyAsksRestart, List.any_cons, hg, Bool.true_or, List.isEmpty_cons, Bool.not_false]

/-! ## The group loop only adds requests and status entries -/

theorem restoreGroup_extends (w : SrrWorker) (p : String) (group : Group) (st : RestoreState) :
    ∃ extra more, (restoreGroup w p group st).1.trace = st.trace ++ extra
      ∧ (restoreGroup w p group st).1.status_list = st.status_list ++ more := by
  unfold restoreGroup
  split
  · exact ⟨[], [], by simp, by simp⟩
  · split
    · exact ⟨[], [missingFeaturesStatus group.m_group_id], by simp, rfl⟩
    · next queries _ =>
      obtain ⟨s1, h1, _⟩ := stageRollback_trace w p group.m_features {} st.trace
      rcases hstage : stageRollback w p group.m_features {} st.trace with ⟨t1, R⟩
      rw [hstage] at h1
      simp only [] at h1 ⊢
      obtain ⟨rs, _, h2⟩ := resetPhase_trace w group.m_features.reverse t1
      rcases hres : resetPhase w group.m_features.reverse t1 with ⟨t2, r2⟩
      rw [hres] at h2
      simp only [] at h2
      cases r2 with
      | error e => exact ⟨_, [], by rw [h2, h1, List.append_assoc], by simp⟩
      | ok u =>
        simp only []
        obtain ⟨pre, _, h3⟩ := restorePhase_trace w queries group.m_features st.restart t2
        rcases hrp : restorePhase w queries group.m_features st.restart t2 with ⟨t3, restart, r3⟩
        rw [hrp] at h3
        simp only [] at h3
        cases r3 with
        | none => exact ⟨_, [_], by rw [h3, h2, h1, List.append_assoc, List.append_assoc], rfl⟩
        | some failed =>
          obtain ⟨n, ex⟩ := failed
          simp only []
          obtain ⟨x, h4⟩ := rollbackLoop_extends w p (rollbackMap R) false t3
          have h4' : (rollback w R p t3).1 = t3 ++ x := h4
          rcases hrb : rollback w R p t3 with ⟨t4, r4⟩
          rw [hrb] at h4'
          simp only [] at h4'
          cases r4 with
          | error e =>
            exact ⟨_, [], by rw [h4', h3, h2, h1, List.append_assoc, List.append_assoc,
              List.append_assoc], by simp⟩
          | ok b =>
            exact ⟨_, [_], by rw [h4', h3, h2, h1, List.append_assoc, List.append_assoc,
              List.append_assoc], rfl⟩

theorem restoreGroups_extends (w : SrrWorker) (p : String) (groups : List Group) :
    ∀ st : RestoreState, ∃ extra more,
      (restoreGroups w p groups st).1.trace = st.trace ++ extra
      ∧ (restoreGroups w p groups st).1.status_list = st.status_list ++ more := by
  induction groups with
  | nil => intro st; exact ⟨[], [], by simp [restoreGroups], by simp [restoreGroups]⟩
  | cons g tl ih =>
    intro st
    obtain ⟨e1, m1, h1, h2⟩ := restoreGroup_extends w p g st
    simp only [restoreGroups]
    rcases hstep : restoreGroup w p g st with ⟨st1, r1⟩
    rw [hstep] at h1 h2
    simp only [] at h1 h2
    cases r1 with
    | error e => exact ⟨e1, m1, h1, h2⟩
    | ok u =>
      obtain ⟨e2, m2, h3, h4⟩ := ih st1
      exact ⟨e1 ++ e2, m1 ++ m2, by simp only [h3, h1, List.append_assoc],
        by simp only [h4, h2, List.append_assoc]⟩

theorem restoreGroups_append (w : SrrWorker) (p : String) (rest : List Group) :
    ∀ (pre : List Group) (st0 st : RestoreState),
      restoreGroups w p pre st0 = (st, .ok ()) →
      restoreGroups w p (pre ++ rest) st0 = restoreGroups w p rest st := by
  intro pre
  induction pre with
  | nil =>
    intro st0 st h
    simp only [restoreGroups, Prod.mk.injEq, and_true] at h
    subst h
    rfl
  | cons g tl ih =>
    intro st0 st
    simp only [List.cons_append, restoreGroups]
    rcases restoreGroup w p g st0 with ⟨st1, r1⟩
    cases r1 with
    | error e => intro h; simp at h
    | ok u => exact ih st1 st

/-- A restore that fails inside a group of the loop is followed by the rollback
of that group: by the restore requests of the snapshots staged for the group,
in the order of the rollback map, up to the first request of the rollback that
fails on the bus. -/
theorem restoreGroups_rollback (w : SrrWorker) (p : String) (pre post : List Group) (g : Group)
    (st0 st : RestoreState) (decl : SrrGroupStruct) (queries : List (String × RestoreQuery))
    (failed : FeatureName × Exn)
    (hpre : restoreGroups w p pre st0 = (st, .ok ()))
    (hg : mapFind w.reg.SrrGroupMap g.m_group_id = some decl)
    (hq : buildRestoreQueries p (ftMapOf g.m_features) decl.m_fp [] = .ok queries)
    (hreset : (afterReset w p g st).2 = .ok ())
    (hfail : (afterRestore w p queries g st).2.2 = some failed) :
    ∃ k extra rest,
      (restoreGroups w p (pre ++ g :: post) st0).1.trace
        = (afterRestore w p queries g st).1 ++ extra ++ rest
      ∧ (afterRollback w p queries g st).1 = (afterRestore w p queries g st).1 ++ extra
      ∧ extra.filter isRestore
        = ((rollbackMap (staged w p g st).2).map (fun kv =>
            restoreRequest w kv.1 (rollbackQuery w p kv.1 kv.2.feature))).take k
      ∧ (∀ b, (afterRollback w p queries g st).2 = .ok b →
          k = (rollbackMap (staged w p g st).2).length
          ∧ failedStatus g failed ∈ (restoreGroups w p (pre ++ g :: post) st0).1.status_list) := by
  obtain ⟨k, extra, h1, h2, h3⟩ := rollbackLoop_restores w p (rollbackMap (staged w p g st).2)
    false (afterRestore w p queries g st).1
  have h1' : (afterRollback w p queries g st).1 = (afterRestore w p queries g st).1 ++ extra := h1
  have h3' : (∃ b, (afterRollback w p queries g st).2 = .ok b) →
      k = (rollbackMap (staged w p g st).2).length := h3
  rw [restoreGroups_append w p (g :: post) pre st0 st hpre]
  simp only [restoreGroups]
  rw [restoreGroup_eq w p g st decl queries hg hq, hreset]
  simp only [hfail]
  cases hrb : (afterRollback w p queries g st).2 with
  | error e =>
    refine ⟨k, extra, [], ?_, h1', h2, ?_⟩
    · simp only [List.append_nil]; exact h1'
    · intro b hb; cases hb
  | ok b =>
    simp only []
    obtain ⟨rest, more, h5, h6⟩ := restoreGroups_extends w p post
      ⟨(afterRollback w p queries g st).1, st.status_list ++
          [⟨g.m_group_id, statusToString Status.FAILED,
            "Restore failed for feature " ++ failed.1 ++ ": " ++ failed.2.what⟩],
        (afterRestore w p queries g st).2.1 || b⟩
    refine ⟨k, extra, rest, ?_, h1', h2, ?_⟩
    · rw [h5]; simp only [h1']
    · intro b' _
      refine ⟨h3' ⟨b, hrb⟩, ?_⟩
      rw [h6]
      simp [failedStatus]

/-! ## Rollback completeness -/

/-- C3. A version 2.0 payload with a valid passphrase, restored without
`force`: when the digest recomputed over the priority-sorted features of at
least one group differs from the stored one, `requestRestore` sends no
request, starts no restart, returns the status UNKNOWN with an empty status
list, and its error text is the header followed by the ids of exactly the
groups that fail the check, in payload order. -/
theorem integrity_gate
    (w : SrrWorker) (req : SrrRestoreRequest) (groups : List Group)
    (hpass : w.fty.decrypt req.m_checksum req.m_passphrase = req.m_passphrase)
    (hver : req.m_version = "2.0")
    (hdata : req.m_data = .V2 groups)
    (hbad : ∃ g ∈ groups, checkDataIntegrity (sortedGroup w.reg g) = false) :
    (requestRestore w req false).trace = []
    ∧ (requestRestore w req false).restart = false
    ∧ (requestRestore w req false).response.m_status = statusToString Status.UNKNOWN
    ∧ (requestRestore w req false).response.m_status_list = []
    ∧ (requestRestore w req false).response.m_error
      = "Data integrity check failed for groups: " ++
          String.join ((groups.filter (fun g => !checkDataIntegrity (sortedGroup w.reg g))).map
            (fun g => g.m_group_id)) := by
  have hne : groupsIntegrityCheckFailed (sortGroups w.reg groups) ≠ [] := by
    rw [groupsIntegrityCheckFailed_sortGroups]
    obtain ⟨g, hg, hfalse⟩ := hbad
    intro hnil
    have : g ∈ groups.filter (fun g => !checkDataIntegrity (sortedGroup w.reg g)) := by
      simp [List.mem_filter, hg, hfalse]
    rw [List.map_eq_nil_iff] at hnil
    rw [hnil] at this
    cases this
  have hv : ¬ (req.m_version = "1.0") := by rw [hver]; decide
  have htry : restoreTry w req false
      = ({}, .error (.SrrIntegrityCheckFailed
          (integrityError (groupsIntegrityCheckFailed (sortGroups w.reg groups))))) := by
    unfold restoreTry
    simp only [hpass, ne_eq, not_true_eq_false, if_false, hv, hver, if_true, hdata, restoreV2]
    have : (groupsIntegrityCheckFailed (sortGroups w.reg groups)).isEmpty = false := by
      cases h : groupsIntegrityCheckFailed (sortGroups w.reg groups) with
      | nil => exact absurd h hne
      | cons _ _ => rfl
    simp [this]
  unfold requestRestore
  rw [htry]
  refine ⟨rfl, rfl, rfl, rfl, ?_⟩
  simp only [catchStatus, integrityError, foldl_append_eq, groupsIntegrityCheckFailed_sortGroups]
  rw [← String.append_assoc]
  rfl

set_option maxRecDepth 100000 in
theorem integrity_gate_witness :
    obligingWorker.fty.decrypt "Eaton1234!" "Eaton1234!" = "Eaton1234!"
    ∧ (∃ g ∈ [tamperedAssetsPayload, configPayload],
        checkDataIntegrity (sortedGroup obligingWorker.reg g) = false)
    ∧ ((requestRestore obligingWorker
          ⟨"2.0", "Eaton1234!", "Eaton1234!", .V2 [tamperedAssetsPayload, configPayload]⟩ false).trace
        = []
      ∧ (requestRestore obligingWorker
          ⟨"2.0", "Eaton1234!", "Eaton1234!", .V2 [tamperedAssetsPayload, configPayload]⟩
          false).restart = false
      ∧ (requestRestore obligingWorker
          ⟨"2.0", "Eaton1234!", "Eaton1234!", .V2 [tamperedAssetsPayload, configPayload]⟩
          false).response.m_status = statusToString Status.UNKNOWN
      ∧ (requestRestore obligingWorker
          ⟨"2.0", "Eaton1234!", "Eaton1234!", .V2 [tamperedAssetsPayload, configPayload]⟩
          false).response.m_status_list = []
      ∧ (requestRestore obligingWorker
          ⟨"2.0", "Eaton1234!", "Eaton1234!", .V2 [tamperedAssetsPayload, configPayload]⟩
          false).response.m_error
        = "Data integrity check failed for groups: " ++
            String.join (([tamperedAssetsPayload, configPayload].filter
              (fun g => !checkDataIntegrity (sortedGroup obligingWorker.reg g))).map
                (fun g => g.m_group_id))) :=
  have h2 : ∃ g ∈ [tamperedAssetsPayload, configPayload],
      checkDataIntegrity (sortedGroup obligingWorker.reg g) = false :=
    ⟨tamperedAssetsPayload, by simp, by decide⟩
  ⟨rfl, h2, integrity_gate obligingWorker
    ⟨"2.0", "Eaton1234!", "Eaton1234!", .V2 [tamperedAssetsPayload, configPayload]⟩
    [tamperedAssetsPayload, configPayload] rfl rfl rfl h2⟩

/-! ## Force -/

theorem restoreTry_forced (w : SrrWorker) (req : SrrRestoreRequest) (gs : List Group)
    (hver : req.m_version = "2.0") :
    restoreTry w { req with m_data := .V2 gs } true
      = if w.fty.decrypt req.m_checksum req.m_passphrase ≠ req.m_passphrase then
          ({}, .error (.runtime_error "Invalid passphrase"))
        else
          match restoreGroups w req.m_passphrase (sortGroups w.reg gs) {} with
          | (st, .ok _) => (st, .ok (statusToString Status.SUCCESS))
          | (st, .error e) => (st, .error e) := by
  have hv : ¬ (("2.0" : String) = "1.0") := by decide
  unfold restoreTry
  by_cases hp : w.fty.decrypt req.m_checksum req.m_passphrase = req.m_passphrase
  · simp only [hp, ne_eq, not_true_eq_false, if_false, hv, hver, if_true, restoreV2,
      Bool.not_true, Bool.false_and, Bool.false_eq_true]
    all_goals rfl
  · simp only [hp, ne_eq, not_false_eq_true, if_true]

theorem requestRestore_forced_state (w : SrrWorker) (req : SrrRestoreRequest) (gs : List Group)
    (hver : req.m_version = "2.0")
    (hpass : w.fty.decrypt req.m_checksum req.m_passphrase = req.m_passphrase) :
    (requestRestore w { req with m_data := .V2 gs } true).trace
      = (restoreGroups w req.m_passphrase (sortGroups w.reg gs) {}).1.trace
    ∧ (requestRestore w { req with m_data := .V2 gs } true).response.m_status_list
      = (restoreGroups w req.m_passphrase (sortGroups w.reg gs) {}).1.status_list := by
  unfold requestRestore
  rw [restoreTry_forced w req gs hver]
  simp only [hpass, ne_eq, not_true_eq_false, if_false]
  rcases restoreGroups w req.m_passphrase (sortGroups w.reg gs) {} with ⟨st, r⟩
  cases r <;> exact ⟨rfl, rfl⟩

/-- C4. With `force` set, the stored digests of a version 2.0 payload are not
read: two payloads that differ only in the `m_data_integrity` of their groups
give, on the same bus, the same requests and the same reply; the reply is
never UNKNOWN; when the other payload passes the integrity gate, its restore
without `force` is that same run. And a restore that fails inside a group
still triggers the rollback of that group: when the group loop reaches a
registered, complete group whose reset loop ends and whose restore loop fails
at a feature, the requests that follow the failed restore are those of the
rollback, which restores the snapshots staged for the group in the order of
the rollback map (all of them when the rollback returns, and the group then
gets its FAILED entry); the further groups follow. -/
theorem force_skips_integrity_only
    (w : SrrWorker) (req : SrrRestoreRequest) (groups groups' : List Group)
    (hver : req.m_version = "2.0")
    (hdata : req.m_data = .V2 groups)
    (hsame : groups'.map withoutDigest = groups.map withoutDigest) :
    requestRestore w { req with m_data := .V2 groups' } true = requestRestore w req true
    ∧ (requestRestore w req true).response.m_status ≠ statusToString Status.UNKNOWN
    ∧ ((∀ g ∈ groups', checkDataIntegrity (sortedGroup w.reg g) = true) →
        requestRestore w { req with m_data := .V2 groups' } false = requestRestore w req true)
    ∧ (∀ (pre post : List Group) (g : Group) (st : RestoreState) (decl : SrrGroupStruct)
        (queries : List (String × RestoreQuery)) (failed : FeatureName × Exn),
        w.fty.decrypt req.m_checksum req.m_passphrase = req.m_passphrase →
        groups = pre ++ g :: post →
        restoreGroups w req.m_passphrase (sortGroups w.reg pre) {} = (st, .ok ()) →
        mapFind w.reg.SrrGroupMap g.m_group_id = some decl →
        buildRestoreQueries req.m_passphrase (ftMapOf (sortedGroup w.reg g).m_features)
          decl.m_fp [] = .ok queries →
        (afterReset w req.m_passphrase (sortedGroup w.reg g) st).2 = .ok () →
        (afterRestore w req.m_passphrase queries (sortedGroup w.reg g) st).2.2 = some failed →
        ∃ k extra rest,
          (requestRestore w req true).trace
            = (afterRestore w req.m_passphrase queries (sortedGroup w.reg g) st).1
                ++ extra ++ rest
          ∧ (afterRollback w req.m_passphrase queries (sortedGroup w.reg g) st).1
            = (afterRestore w req.m_passphrase queries (sortedGroup w.reg g) st).1 ++ extra
          ∧ extra.filter isRestore
            = ((rollbackMap (staged w req.m_passphrase (sortedGroup w.reg g) st).2).map
                (fun kv => restoreRequest w kv.1
                  (rollbackQuery w req.m_passphrase kv.1 kv.2.feature))).take k
          ∧ (∀ b, (afterRollback w req.m_passphrase queries (sortedGroup w.reg g) st).2 = .ok b →
              k = (rollbackMap (staged w req.m_passphrase (sortedGroup w.reg g) st).2).length
              ∧ failedStatus g failed ∈ (requestRestore w req true).response.m_status_list)) := by
  have hv : ¬ (("2.0" : String) = "1.0") := by decide
  have hreq : req = { req with m_data := .V2 groups } := by
    cases req; simp only at hdata; simp [hdata]
  have hforced : requestRestore w { req with m_data := .V2 groups' } true
      = requestRestore w req true := by
    unfold requestRestore
    rw [restoreTry_forced w req groups' hver]
    conv_rhs => rw [hreq, restoreTry_forced w req groups hver]
    rw [restoreGroups_congr w req.m_passphrase groups groups' {} hsame]
  refine ⟨hforced, ?_, ?_, ?_⟩
  · unfold requestRestore
    rw [hreq, restoreTry_forced w req groups hver]
    split
    · next st status h =>
      split at h
      · cases h
      · split at h
        · cases h
          exact (by decide : statusToString Status.SUCCESS ≠ statusToString Status.UNKNOWN)
        · cases h
    · next st e h =>
      split at h
      · cases h
        exact (by decide : statusToString Status.FAILED ≠ statusToString Status.UNKNOWN)
      · split at h
        · cases h
        · next st1 e1 hr =>
          cases h
          simp only []
          rw [catchStatus_ne_unknown (restoreGroups_error _ _ _ _ _ _ hr)]
          exact (by decide : statusToString Status.FAILED ≠ statusToString Status.UNKNOWN)
  · intro hvalid
    rw [← hforced]
    have hnone : groupsIntegrityCheckFailed (sortGroups w.reg groups') = [] := by
      rw [groupsIntegrityCheckFailed_sortGroups]
      simp only [List.map_eq_nil_iff, List.filter_eq_nil_iff]
      intro g hg
      simp [hvalid g hg]
    have htry : restoreTry w { req with m_data := .V2 groups' } false
        = restoreTry w { req with m_data := .V2 groups' } true := by
      rw [restoreTry_forced w req groups' hver]
      unfold restoreTry
      by_cases hp : w.fty.decrypt req.m_checksum req.m_passphrase = req.m_passphrase
      · simp only [hp, ne_eq, not_true_eq_false, if_false, hv, hver, if_true, restoreV2, hnone,
          List.isEmpty_nil, Bool.not_true, Bool.and_false, Bool.false_eq_true, Bool.not_false]
        all_goals rfl
      · simp only [hp, ne_eq, not_false_eq_true, if_true]
    unfold requestRestore
    rw [htry]
  · intro pre post g st decl queries failed hpass hsplit hpre hg hq hreset hfail
    obtain ⟨htrace, hlist⟩ := requestRestore_forced_state w req groups hver hpass
    rw [← hreq] at htrace hlist
    have hsorted : sortGroups w.reg groups
        = sortGroups w.reg pre ++ sortedGroup w.reg g :: sortGroups w.reg post := by
      rw [hsplit]
      simp only [sortGroups, List.map_append, List.map_cons]
    obtain ⟨k, extra, rest, h1, h2, h3, h4⟩ := restoreGroups_rollback w req.m_passphrase
      (sortGroups w.reg pre) (sortGroups w.reg post) (sortedGroup w.reg g) {} st decl queries
      failed hpre hg hq hreset hfail
    rw [← hsorted] at h1 h4
    refine ⟨k, extra, rest, ?_, h2, h3, ?_⟩
    · rw [htrace]; exact h1
    · intro b hb
      refine ⟨(h4 b hb).1, ?_⟩
      rw [hlist]
      exact (h4 b hb).2

set_option maxRecDepth 100000 in
theorem force_skips_integrity_only_witness :
    [evalDataIntegrity referenceRegistry tamperedAssetsPayload, configPayload].map withoutDigest
      = [tamperedAssetsPayload, tamperedConfigPayload].map withoutDigest
    ∧ (∀ g ∈ [evalDataIntegrity referenceRegistry tamperedAssetsPayload, configPayload],
        checkDataIntegrity (sortedGroup resettableWorker.reg g) = true)
    ∧ (requestRestore resettableWorker tamperedConfigRestoreRequest false).response.m_status
      = statusToString Status.UNKNOWN
    ∧ (requestRestore resettableWorker tamperedConfigRestoreRequest true).response.m_status_list
      = [⟨"assets", "SUCCESS", ""⟩,
         ⟨"config", "FAILED", "Restore failed for feature notification: Restore procedure failed for feature notification"⟩]
    ∧ ((requestRestore resettableWorker tamperedConfigRestoreRequest true).trace.filter
        isRestore).map restoredFeatures
      = [["asset-agent"], ["user-session"], ["notification"], ["automation-settings"],
         ["discovery"], ["mass-management"], ["monitoring"], ["notification"],
         ["user-session"]]
    ∧ restoreGroups resettableWorker "Eaton1234!"
        (sortGroups resettableWorker.reg [tamperedAssetsPayload]) {} = (afterAssets, .ok ())
    ∧ mapFind resettableWorker.reg.SrrGroupMap tamperedConfigPayload.m_group_id = some configDecl
    ∧ buildRestoreQueries "Eaton1234!"
        (ftMapOf (sortedGroup resettableWorker.reg tamperedConfigPayload).m_features)
        configDecl.m_fp [] = .ok configQueries
    ∧ (afterReset resettableWorker "Eaton1234!"
        (sortedGroup resettableWorker.reg tamperedConfigPayload) afterAssets).2 = .ok ()
    ∧ (afterRestore resettableWorker "Eaton1234!" configQueries
        (sortedGroup resettableWorker.reg tamperedConfigPayload) afterAssets).2.2
      = some (F_NOTIFICATION_FEATURE_NAME,
          .SrrRestoreFailed "Restore procedure failed for feature notification")
    ∧ (requestRestore resettableWorker
          { tamperedConfigRestoreRequest with
            m_data := .V2 [evalDataIntegrity referenceRegistry tamperedAssetsPayload,
              configPayload] } true
        = requestRestore resettableWorker tamperedConfigRestoreRequest true
      ∧ (requestRestore resettableWorker tamperedConfigRestoreRequest true).response.m_status
        ≠ statusToString Status.UNKNOWN
      ∧ ((∀ g ∈ [evalDataIntegrity referenceRegistry tamperedAssetsPayload, configPayload],
            checkDataIntegrity (sortedGroup resettableWorker.reg g) = true) →
          requestRestore resettableWorker
              { tamperedConfigRestoreRequest with
                m_data := .V2 [evalDataIntegrity referenceRegistry tamperedAssetsPayload,
                  configPayload] } false
            = requestRestore resettableWorker tamperedConfigRestoreRequest true)
      ∧ (∀ (pre post : List Group) (g : Group) (st : RestoreState) (decl : SrrGroupStruct)
          (queries : List (String × RestoreQuery)) (failed : FeatureName × Exn),
          resettableWorker.fty.decrypt tamperedConfigRestoreRequest.m_checksum
              tamperedConfigRestoreRequest.m_passphrase
            = tamperedConfigRestoreRequest.m_passphrase →
          [tamperedAssetsPayload, tamperedConfigPayload] = pre ++ g :: post →
          restoreGroups resettableWorker tamperedConfigRestoreRequest.m_passphrase
            (sortGroups resettableWorker.reg pre) {} = (st, .ok ()) →
          mapFind resettableWorker.reg.SrrGroupMap g.m_group_id = some decl →
          buildRestoreQueries tamperedConfigRestoreRequest.m_passphrase
            (ftMapOf (sortedGroup resettableWorker.reg g).m_features) decl.m_fp []
            = .ok queries →
          (afterReset resettableWorker tamperedConfigRestoreRequest.m_passphrase
            (sortedGroup resettableWorker.reg g) st).2 = .ok () →
          (afterRestore resettableWorker tamperedConfigRestoreRequest.m_passphrase queries
            (sortedGroup resettableWorker.reg g) st).2.2 = some failed →
          ∃ k extra rest,
            (requestRestore resettableWorker tamperedConfigRestoreRequest true).trace
              = (afterRestore resettableWorker tamperedConfigRestoreRequest.m_passphrase queries
                  (sortedGroup resettableWorker.reg g) st).1 ++ extra ++ rest
            ∧ (afterRollback resettableWorker tamperedConfigRestoreRequest.m_passphrase queries
                (sortedGroup resettableWorker.reg g) st).1
              = (afterRestore resettableWorker tamperedConfigRestoreRequest.m_passphrase queries
                  (sortedGroup resettableWorker.reg g) st).1 ++ extra
            ∧ extra.filter isRestore
              = ((rollbackMap (staged resettableWorker tamperedConfigRestoreRequest.m_passphrase
                    (sortedGroup resettableWorker.reg g) st).2).map
                  (fun kv => restoreRequest resettableWorker kv.1
                    (rollbackQuery resettableWorker tamperedConfigRestoreRequest.m_passphrase
                      kv.1 kv.2.feature))).take k
            ∧ (∀ b, (afterRollback resettableWorker tamperedConfigRestoreRequest.m_passphrase
                  queries (sortedGroup resettableWorker.reg g) st).2 = .ok b →
                k = (rollbackMap (staged resettableWorker
                      tamperedConfigRestoreRequest.m_passphrase
                      (sortedGroup resettableWorker.reg g) st).2).length
                ∧ failedStatus g failed
                  ∈ (requestRestore resettableWorker tamperedConfigRestoreRequest
                      true).response.m_status_list))) :=
  have h : [evalDataIntegrity referenceRegistry tamperedAssetsPayload, configPayload].map
        withoutDigest
      = [tamperedAssetsPayload, tamperedConfigPayload].map withoutDigest := by decide
  ⟨h, by decide, by decide, by decide, by decide, by rfl, by decide, by rfl, by rfl, by rfl,
    force_skips_integrity_only resettableWorker tamperedConfigRestoreRequest
      [tamperedAssetsPayload, tamperedConfigPayload]
      [evalDataIntegrity referenceRegistry tamperedAssetsPayload, configPayload] rfl rfl h⟩

/-! ## Restart aggregation -/

set_option maxRecDepth 100000 in
/-- C5 fails in the branch of version 1.0: `discovery`, whose registry entry
has `m_restart` set, is restored with SUCCESS, and the restart flag of the
call stays false. The branch of version 2.0 sets the flag for the same
feature. -/
theorem restart_not_aggregated_v1 :
    (requestRestore obligingWorker
        ⟨"1.0", "Eaton1234!", "Eaton1234!", .V1 [payloadOf F_DISCOVERY]⟩ false).response.m_status_list
      = [⟨"discovery", "SUCCESS", ""⟩]
    ∧ ((requestRestore obligingWorker
        ⟨"1.0", "Eaton1234!", "Eaton1234!", .V1 [payloadOf F_DISCOVERY]⟩ false).trace.filter
          (fun r => r.action == "restore")).map restoredFeatures = [["discovery"]]
    ∧ (mapFind referenceRegistry.SrrFeatureMap F_DISCOVERY).map (fun d => d.m_restart) = some true
    ∧ (requestRestore obligingWorker
        ⟨"1.0", "Eaton1234!", "Eaton1234!", .V1 [payloadOf F_DISCOVERY]⟩ false).restart = false
    ∧ (requestRestore obligingWorker configRestoreRequest false).restart = true := by
  decide

/-! ## Digest and the order of features of equal priority -/

set_option maxRecDepth 100000 in
/-- C8 fails for features of equal priority: `discovery` and `mass-management`
both have priority 2, the sort leaves them in the order in which it finds
them, and the two orders of the same two features get different digests. A
payload that carries the two in the other order than the digest was taken
over is turned down by the integrity gate. -/
theorem digest_depends_on_order_of_ties :
    (evalDataIntegrity referenceRegistry
        ⟨G_CONFIG, G_CONFIG, [payloadOf F_DISCOVERY, payloadOf F_MASS_MANAGEMENT], ""⟩).m_data_integrity
      ≠ (evalDataIntegrity referenceRegistry
        ⟨G_CONFIG, G_CONFIG, [payloadOf F_MASS_MANAGEMENT, payloadOf F_DISCOVERY], ""⟩).m_data_integrity
    ∧ getPriority referenceRegistry F_DISCOVERY = getPriority referenceRegistry F_MASS_MANAGEMENT
    ∧ (requestRestore obligingWorker
        ⟨"2.0", "Eaton1234!", "Eaton1234!",
          .V2 [{ configPayload with
                  m_features := [F_USER_SESSION_FEATURE_NAME, F_NOTIFICATION_FEATURE_NAME,
                    F_MONITORING_FEATURE_NAME, F_MASS_MANAGEMENT, F_DISCOVERY,
                    F_AUTOMATION_SETTINGS].map payloadOf }]⟩ false).response.m_status
        = statusToString Status.UNKNOWN
    ∧ (requestRestore obligingWorker configRestoreRequest false).response.m_status
        = statusToString Status.SUCCESS := by
  decide

/-! ## Order of the requests of a group -/

/-- C6, as amended. For a registered, complete payload group, as the group
loop receives it (features sorted by priority): the staging loop sends only
save requests; the reset loop then sends the reset requests of a sublist of
the reversed feature list, so in ascending priority order; the restore loop
then sends the restore requests of a prefix of the feature list, so in
descending priority order; every request of the reset loop precedes every
request of the restore loop. What the group sends after the restore loop is
the rollback, whose resets and restores are outside this order. -/
theorem group_request_order
    (w : SrrWorker) (p : String) (group : Group) (st : RestoreState) (g : SrrGroupStruct)
    (queries : List (String × RestoreQuery))
    (hg : mapFind w.reg.SrrGroupMap group.m_group_id = some g)
    (hq : buildRestoreQueries p (ftMapOf (sortedGroup w.reg group).m_features) g.m_fp []
      = .ok queries) :
    ∃ (saves : List Request) (resets restores : List SrrFeature),
      (staged w p (sortedGroup w.reg group) st).1 = st.trace ++ saves
      ∧ (∀ r ∈ saves, r.action = "save")
      ∧ (afterReset w p (sortedGroup w.reg group) st).1
          = (staged w p (sortedGroup w.reg group) st).1
            ++ resets.map (fun f => resetRequest w f.m_feature_name)
      ∧ resets.Sublist (sortedGroup w.reg group).m_features.reverse
      ∧ resets.Pairwise (fun a b =>
          getPriority w.reg a.m_feature_name ≤ getPriority w.reg b.m_feature_name)
      ∧ (afterRestore w p queries (sortedGroup w.reg group) st).1
          = (afterReset w p (sortedGroup w.reg group) st).1
            ++ restores.map (fun f =>
                restoreRequest w f.m_feature_name (queryFor queries f.m_feature_name))
      ∧ restores <+: (sortedGroup w.reg group).m_features
      ∧ restores.Pairwise (fun a b =>
          getPriority w.reg b.m_feature_name ≤ getPriority w.reg a.m_feature_name)
      ∧ ((∃ e, (afterReset w p (sortedGroup w.reg group) st).2 = .error e
            ∧ (restoreGroup w p (sortedGroup w.reg group) st).1.trace
                = (afterReset w p (sortedGroup w.reg group) st).1)
          ∨ ((afterReset w p (sortedGroup w.reg group) st).2 = .ok ()
            ∧ ∃ rollbackRequests,
                (restoreGroup w p (sortedGroup w.reg group) st).1.trace
                  = (afterRestore w p queries (sortedGroup w.reg group) st).1 ++ rollbackRequests
                ∧ ((afterRestore w p queries (sortedGroup w.reg group) st).2.2 = none
                    → rollbackRequests = []))) := by
  have hsorted := sortByPriority_sorted w.reg group.m_features
  obtain ⟨saves, hs1, hs2⟩ :=
    stageRollback_trace w p (sortedGroup w.reg group).m_features {} st.trace
  obtain ⟨resets, hr1, hr2⟩ := resetPhase_trace w (sortedGroup w.reg group).m_features.reverse
    (staged w p (sortedGroup w.reg group) st).1
  obtain ⟨restores, hp1, hp2⟩ := restorePhase_trace w queries (sortedGroup w.reg group).m_features
    st.restart (afterReset w p (sortedGroup w.reg group) st).1
  refine ⟨saves, resets, restores, hs1, hs2, hr2, hr1, ?_, hp2, hp1, ?_, ?_⟩
  · have hrev : (sortedGroup w.reg group).m_features.reverse.Pairwise (fun a b =>
        getPriority w.reg a.m_feature_name ≤ getPriority w.reg b.m_feature_name) :=
      List.pairwise_reverse.mpr hsorted
    exact hrev.sublist hr1
  · exact hsorted.sublist hp1.sublist
  · have hgs : mapFind w.reg.SrrGroupMap (sortedGroup w.reg group).m_group_id = some g := hg
    rw [restoreGroup_eq w p (sortedGroup w.reg group) st g queries hgs hq]
    cases hres : (afterReset w p (sortedGroup w.reg group) st).2 with
    | error e => exact Or.inl ⟨e, rfl, rfl⟩
    | ok u =>
      refine Or.inr ⟨rfl, ?_⟩
      cases hrest : (afterRestore w p queries (sortedGroup w.reg group) st).2.2 with
      | none => exact ⟨[], by simp, fun _ => rfl⟩
      | some failed =>
        obtain ⟨extra, hx⟩ := rollbackLoop_extends w p
          (rollbackMap (staged w p (sortedGroup w.reg group) st).2) false
          (afterRestore w p queries (sortedGroup w.reg group) st).1
        have hx' : (afterRollback w p queries (sortedGroup w.reg group) st).1
            = (afterRestore w p queries (sortedGroup w.reg group) st).1 ++ extra := hx
        refine ⟨extra, ?_, fun h => by cases h⟩
        cases hrb : (afterRollback w p queries (sortedGroup w.reg group) st).2 with
        | ok b => exact hx'
        | error e => exact hx'

set_option maxRecDepth 100000 in
/-- C6 as stated fails where features declare a reset: the restore of
`notification` is refused, and the rollback resets every feature of the group
again, after the restore requests of the restore loop and starting over from
the lowest priority. -/
theorem reset_order_counterexample :
    ((requestRestore resettableWorker configRestoreRequest false).trace.filter
        (fun r => r.action != "save")).map (fun r => (r.action, resetFeatures r ++ restoredFeatures r))
      = [("reset", ["automation-settings"]), ("reset", ["mass-management"]),
         ("reset", ["discovery"]), ("reset", ["monitoring"]), ("reset", ["notification"]),
         ("reset", ["user-session"]),
         ("restore", ["user-session"]), ("restore", ["notification"]),
         ("reset", ["automation-settings"]), ("restore", ["automation-settings"]),
         ("reset", ["discovery"]), ("restore", ["discovery"]),
         ("reset", ["mass-management"]), ("restore", ["mass-management"]),
         ("reset", ["monitoring"]), ("restore", ["monitoring"]),
         ("reset", ["notification"]), ("restore", ["notification"]),
         ("reset", ["user-session"]), ("restore", ["user-session"])]
    ∧ getPriority resettableRegistry "user-session" = 6
    ∧ getPriority resettableRegistry "automation-settings" = 1 := by
  decide

set_option maxRecDepth 100000 in
theorem group_request_order_witness :
    mapFind resettableWorker.reg.SrrGroupMap configPayload.m_group_id = some configDecl
    ∧ buildRestoreQueries "Eaton1234!"
        (ftMapOf (sortedGroup resettableWorker.reg configPayload).m_features) configDecl.m_fp []
        = .ok configQueries
    ∧ ∃ (saves : List Request) (resets restores : List SrrFeature),
      (staged resettableWorker "Eaton1234!" (sortedGroup resettableWorker.reg configPayload) {}).1
        = ({} : RestoreState).trace ++ saves
      ∧ (∀ r ∈ saves, r.action = "save")
      ∧ (afterReset resettableWorker "Eaton1234!"
            (sortedGroup resettableWorker.reg configPayload) {}).1
          = (staged resettableWorker "Eaton1234!"
              (sortedGroup resettableWorker.reg configPayload) {}).1
            ++ resets.map (fun f => resetRequest resettableWorker f.m_feature_name)
      ∧ resets.Sublist (sortedGroup resettableWorker.reg configPayload).m_features.reverse
      ∧ resets.Pairwise (fun a b =>
          getPriority resettableWorker.reg a.m_feature_name
            ≤ getPriority resettableWorker.reg b.m_feature_name)
      ∧ (afterRestore resettableWorker "Eaton1234!" configQueries
            (sortedGroup resettableWorker.reg configPayload) {}).1
          = (afterReset resettableWorker "Eaton1234!"
              (sortedGroup resettableWorker.reg configPayload) {}).1
            ++ restores.map (fun f =>
                restoreRequest resettableWorker f.m_feature_name
                  (queryFor configQueries f.m_feature_name))
      ∧ restores <+: (sortedGroup resettableWorker.reg configPayload).m_features
      ∧ restores.Pairwise (fun a b =>
          getPriority resettableWorker.reg b.m_feature_name
            ≤ getPriority resettableWorker.reg a.m_feature_name)
      ∧ ((∃ e, (afterReset resettableWorker "Eaton1234!"
                (sortedGroup resettableWorker.reg configPayload) {}).2 = .error e
            ∧ (restoreGroup resettableWorker "Eaton1234!"
                (sortedGroup resettableWorker.reg configPayload) {}).1.trace
                = (afterReset resettableWorker "Eaton1234!"
                    (sortedGroup resettableWorker.reg configPayload) {}).1)
          ∨ ((afterReset resettableWorker "Eaton1234!"
                (sortedGroup resettableWorker.reg configPayload) {}).2 = .ok ()
            ∧ ∃ rollbackRequests,
                (restoreGroup resettableWorker "Eaton1234!"
                    (sortedGroup resettableWorker.reg configPayload) {}).1.trace
                  = (afterRestore resettableWorker "Eaton1234!" configQueries
                      (sortedGroup resettableWorker.reg configPayload) {}).1 ++ rollbackRequests
                ∧ ((afterRestore resettableWorker "Eaton1234!" configQueries
                      (sortedGroup resettableWorker.reg configPayload) {}).2.2 = none
                    → rollbackRequests = []))) :=
  have h1 : mapFind resettableWorker.reg.SrrGroupMap configPayload.m_group_id
      = some configDecl := by decide
  have h2 : buildRestoreQueries "Eaton1234!"
      (ftMapOf (sortedGroup resettableWorker.reg configPayload).m_features) configDecl.m_fp []
      = .ok configQueries := by rfl
  ⟨h1, h2, group_request_order resettableWorker "Eaton1234!" configPayload {} configDecl
    configQueries h1 h2⟩

/-! ## Digest: consistency after save -/

/-- C7. After `evalDataIntegrity` has run on a group, `checkDataIntegrity`
returns true on the result: the digest recomputed over the feature list as it
stands, without sorting it again, is the stored one. This holds in particular
for every group of a `requestSave` reply. -/
theorem checkDataIntegrity_evalDataIntegrity (reg : Registry) (group : Group) :
    checkDataIntegrity (evalDataIntegrity reg group) = true
    ∧ ∀ (w : SrrWorker) (req : SrrSaveRequest),
        ∀ g ∈ (requestSave w req).response.m_data, checkDataIntegrity g = true := by
  refine ⟨by simp [checkDataIntegrity, evalDataIntegrity], ?_⟩
  intro w req g hg
  unfold requestSave at hg
  split at hg
  · split at hg
    · simp only [assembleGroups, List.mem_map] at hg
      obtain ⟨e, _, rfl⟩ := hg
      simp [checkDataIntegrity, evalDataIntegrity]
    · simp at hg
  · simp at hg

/-! ## Order of the features of a saved group -/

/-- In the reference tables a feature of `config` is known by its priority,
up to the two features of priority 2. -/
theorem config_feature_of_priority :
    ∀ x ∈ [F_AUTOMATION_SETTINGS, F_DISCOVERY, F_MASS_MANAGEMENT, F_MONITORING_FEATURE_NAME,
        F_NOTIFICATION_FEATURE_NAME, F_USER_SESSION_FEATURE_NAME],
      (getPriority referenceRegistry x = 6 → x = F_USER_SESSION_FEATURE_NAME)
      ∧ (getPriority referenceRegistry x = 5 → x = F_NOTIFICATION_FEATURE_NAME)
      ∧ (getPriority referenceRegistry x = 3 → x = F_MONITORING_FEATURE_NAME)
      ∧ (getPriority referenceRegistry x = 2 → x = F_DISCOVERY ∨ x = F_MASS_MANAGEMENT)
      ∧ (getPriority referenceRegistry x = 1 → x = F_AUTOMATION_SETTINGS) := by
  decide

theorem config_names_sorted (names : List FeatureName)
    (hperm : names.Perm [F_AUTOMATION_SETTINGS, F_DISCOVERY, F_MASS_MANAGEMENT,
      F_MONITORING_FEATURE_NAME, F_NOTIFICATION_FEATURE_NAME, F_USER_SESSION_FEATURE_NAME])
    (hsorted : names.Pairwise
      (fun a b => getPriority referenceRegistry b ≤ getPriority referenceRegistry a)) :
    names = [F_USER_SESSION_FEATURE_NAME, F_NOTIFICATION_FEATURE_NAME, F_MONITORING_FEATURE_NAME,
        F_DISCOVERY, F_MASS_MANAGEMENT, F_AUTOMATION_SETTINGS]
    ∨ names = [F_USER_SESSION_FEATURE_NAME, F_NOTIFICATION_FEATURE_NAME,
        F_MONITORING_FEATURE_NAME, F_MASS_MANAGEMENT, F_DISCOVERY, F_AUTOMATION_SETTINGS] := by
  have hprio : names.map (getPriority referenceRegistry) = [6, 5, 3, 2, 2, 1] := by
    apply List.eq_of_perm_of_sorted (r := fun a b : Nat => b ≤ a)
    · refine (hperm.map _).trans ?_
      decide
    · exact (List.pairwise_map.mpr hsorted)
    · decide
  have hmem : ∀ x ∈ names, x ∈ [F_AUTOMATION_SETTINGS, F_DISCOVERY, F_MASS_MANAGEMENT,
      F_MONITORING_FEATURE_NAME, F_NOTIFICATION_FEATURE_NAME, F_USER_SESSION_FEATURE_NAME] :=
    fun x hx => hperm.mem_iff.mp hx
  have hnodup : names.Nodup := hperm.nodup_iff.mpr (by decide)
  have hlen : names.length = 6 := hperm.length_eq
  rcases names with _ | ⟨a, _ | ⟨b, _ | ⟨c, _ | ⟨d, _ | ⟨e, _ | ⟨f, _ | ⟨x, rest⟩⟩⟩⟩⟩⟩⟩ <;>
    simp only [List.length_cons, List.length_nil] at hlen <;> try omega
  ·
    simp only [List.map_cons, List.map_nil, List.cons.injEq, and_true] at hprio
    obtain ⟨ha, hb, hc, hd, he, hf⟩ := hprio
    have ka := (config_feature_of_priority a (hmem a (by simp))).1 ha
    have kb := (config_feature_of_priority b (hmem b (by simp))).2.1 hb
    have kc := (config_feature_of_priority c (hmem c (by simp))).2.2.1 hc
    have kd := (config_feature_of_priority d (hmem d (by simp))).2.2.2.1 hd
    have ke := (config_feature_of_priority e (hmem e (by simp))).2.2.2.1 he
    have kf := (config_feature_of_priority f (hmem f (by simp))).2.2.2.2 hf
    have hde : d ≠ e := by
      intro h
      subst h
      simp at hnodup
    subst ka kb kc kf
    rcases kd with kd | kd <;> rcases ke with ke | ke
    · exact absurd (kd.trans ke.symm) hde
    · subst kd ke; exact Or.inl rfl
    · subst kd ke; exact Or.inr rfl
    · exact absurd (kd.trans ke.symm) hde

/-- C9, as amended. Every group of a `requestSave` reply lists its features in
non-increasing priority order. The order of features of equal priority is not
tied to the registry: for the group `config` of the reference tables with all
six features returned, the list is `user-session`, `notification`,
`monitoring`, then `discovery` and `mass-management` in one of the two orders,
then `automation-settings`. -/
theorem saved_group_order (w : SrrWorker) (req : SrrSaveRequest) (g : Group)
    (hg : g ∈ (requestSave w req).response.m_data) :
    g.m_features.Pairwise (fun a b =>
      getPriority w.reg b.m_feature_name ≤ getPriority w.reg a.m_feature_name)
    ∧ (w.reg = referenceRegistry →
        (featureNames g).Perm [F_AUTOMATION_SETTINGS, F_DISCOVERY, F_MASS_MANAGEMENT,
          F_MONITORING_FEATURE_NAME, F_NOTIFICATION_FEATURE_NAME, F_USER_SESSION_FEATURE_NAME] →
        featureNames g = [F_USER_SESSION_FEATURE_NAME, F_NOTIFICATION_FEATURE_NAME,
            F_MONITORING_FEATURE_NAME, F_DISCOVERY, F_MASS_MANAGEMENT, F_AUTOMATION_SETTINGS]
        ∨ featureNames g = [F_USER_SESSION_FEATURE_NAME, F_NOTIFICATION_FEATURE_NAME,
            F_MONITORING_FEATURE_NAME, F_MASS_MANAGEMENT, F_DISCOVERY, F_AUTOMATION_SETTINGS]) := by
  have hsorted : g.m_features.Pairwise (fun a b =>
      getPriority w.reg b.m_feature_name ≤ getPriority w.reg a.m_feature_name) := by
    have h := (requestSave_group w req g hg).1
    have h2 := sortByPriority_sorted w.reg g.m_features
    have h3 : sortByPriority w.reg g.m_features = g.m_features := by
      have := congrArg Group.m_features h
      simpa [sortedGroup] using this
    rw [h3] at h2
    exact h2
  refine ⟨hsorted, ?_⟩
  intro hreg hperm
  apply config_names_sorted _ hperm
  rw [hreg] at hsorted
  exact List.pairwise_map.mpr hsorted

set_option maxRecDepth 100000 in
/-- C9 as stated fails: the agent of `config` returns its snapshots with
`mass-management` ahead of `discovery`; the two have the same priority, the
sort leaves them as they come, and the saved group lists `mass-management`
first, against the order of registration. -/
theorem saved_group_order_counterexample :
    (requestSave reversingWorker ⟨"Eaton1234!", ["config"]⟩).response.m_status
      = statusToString Status.SUCCESS
    ∧ (requestSave reversingWorker ⟨"Eaton1234!", ["config"]⟩).response.m_data.map featureNames
      = [["user-session", "notification", "monitoring", "mass-management", "discovery",
          "automation-settings"]] := by
  decide

set_option maxRecDepth 100000 in
theorem saved_group_order_witness :
    evalDataIntegrity referenceRegistry
        ⟨G_CONFIG, G_CONFIG,
          [F_AUTOMATION_SETTINGS, F_DISCOVERY, F_MASS_MANAGEMENT, F_MONITORING_FEATURE_NAME,
            F_NOTIFICATION_FEATURE_NAME, F_USER_SESSION_FEATURE_NAME].map
              (fun n => ⟨n, snapshotOf n⟩), ""⟩
      ∈ (requestSave obligingWorker ⟨"Eaton1234!", ["config"]⟩).response.m_data
    ∧ ((evalDataIntegrity referenceRegistry
          ⟨G_CONFIG, G_CONFIG,
            [F_AUTOMATION_SETTINGS, F_DISCOVERY, F_MASS_MANAGEMENT, F_MONITORING_FEATURE_NAME,
              F_NOTIFICATION_FEATURE_NAME, F_USER_SESSION_FEATURE_NAME].map
                (fun n => ⟨n, snapshotOf n⟩), ""⟩).m_features.Pairwise (fun a b =>
        getPriority obligingWorker.reg b.m_feature_name
          ≤ getPriority obligingWorker.reg a.m_feature_name)
      ∧ (obligingWorker.reg = referenceRegistry →
          (featureNames (evalDataIntegrity referenceRegistry
            ⟨G_CONFIG, G_CONFIG,
              [F_AUTOMATION_SETTINGS, F_DISCOVERY, F_MASS_MANAGEMENT, F_MONITORING_FEATURE_NAME,
                F_NOTIFICATION_FEATURE_NAME, F_USER_SESSION_FEATURE_NAME].map
                  (fun n => ⟨n, snapshotOf n⟩), ""⟩)).Perm
            [F_AUTOMATION_SETTINGS, F_DISCOVERY, F_MASS_MANAGEMENT,
              F_MONITORING_FEATURE_NAME, F_NOTIFICATION_FEATURE_NAME,
              F_USER_SESSION_FEATURE_NAME] →
          featureNames (evalDataIntegrity referenceRegistry
            ⟨G_CONFIG, G_CONFIG,
              [F_AUTOMATION_SETTINGS, F_DISCOVERY, F_MASS_MANAGEMENT, F_MONITORING_FEATURE_NAME,
                F_NOTIFICATION_FEATURE_NAME, F_USER_SESSION_FEATURE_NAME].map
                  (fun n => ⟨n, snapshotOf n⟩), ""⟩)
            = [F_USER_SESSION_FEATURE_NAME, F_NOTIFICATION_FEATURE_NAME,
                F_MONITORING_FEATURE_NAME, F_DISCOVERY, F_MASS_MANAGEMENT, F_AUTOMATION_SETTINGS]
          ∨ featureNames (evalDataIntegrity referenceRegistry
            ⟨G_CONFIG, G_CONFIG,
              [F_AUTOMATION_SETTINGS, F_DISCOVERY, F_MASS_MANAGEMENT, F_MONITORING_FEATURE_NAME,
                F_NOTIFICATION_FEATURE_NAME, F_USER_SESSION_FEATURE_NAME].map
                  (fun n => ⟨n, snapshotOf n⟩), ""⟩)
            = [F_USER_SESSION_FEATURE_NAME, F_NOTIFICATION_FEATURE_NAME,
                F_MONITORING_FEATURE_NAME, F_MASS_MANAGEMENT, F_DISCOVERY,
                F_AUTOMATION_SETTINGS])) :=
  have h : evalDataIntegrity referenceRegistry
        ⟨G_CONFIG, G_CONFIG,
          [F_AUTOMATION_SETTINGS, F_DISCOVERY, F_MASS_MANAGEMENT, F_MONITORING_FEATURE_NAME,
            F_NOTIFICATION_FEATURE_NAME, F_USER_SESSION_FEATURE_NAME].map
              (fun n => ⟨n, snapshotOf n⟩), ""⟩
      ∈ (requestSave obligingWorker ⟨"Eaton1234!", ["config"]⟩).response.m_data := by
    decide
  ⟨h, saved_group_order obligingWorker ⟨"Eaton1234!", ["config"]⟩ _ h⟩

/-! ## Save, then restore -/

theorem requestSave_checksum (w : SrrWorker) (req : SrrSaveRequest)
    (hfmt : w.fty.checkPassphraseFormat req.m_passphrase = true) :
    (requestSave w req).response.m_checksum = w.fty.encrypt req.m_passphrase req.m_passphrase := by
  unfold requestSave
  simp only [hfmt, if_true]
  split <;> rfl

theorem groupsIntegrityCheckFailed_nil (groups : List Group)
    (h : ∀ g ∈ groups, checkDataIntegrity g = true) : groupsIntegrityCheckFailed groups = [] := by
  simp only [groupsIntegrityCheckFailed, List.map_eq_nil_iff, List.filter_eq_nil_iff]
  intro g hg
  simp [h g hg]

/-- C10, as amended. A passphrase that `checkPassphraseFormat` accepts and that
the passphrase helpers decrypt back, a successful `requestSave` reply whose
groups hold at most 16 features (the range on which `std::sort` is the
insertion sort of `stdSort`), and a version 2.0 restore without `force` of
checksum, passphrase and groups of that reply, unmodified (the restoring
worker has the same tables and helpers, its bus is free): the passphrase check
passes; sorting a group again leaves it as it is and its recomputed digest is
the stored one, so the gate passes and the restore is the group loop over the
saved groups. If moreover every saved group holds all the features declared
for it, its features are registered, every reset request that is due is
answered and every restore request is answered with SUCCESS, then the overall
status is SUCCESS, the status list has one SUCCESS entry per group, and the
restart flag is set exactly when a feature of the reply asks for a restart.
With the reference tables no reset is due and every grouped feature is
registered and asks for a restart: the restart flag is set exactly when the
reply holds at least one group. -/
theorem save_restore_round_trip (w w' : SrrWorker) (saveReq : SrrSaveRequest)
    (hreg : w'.reg = w.reg) (hfty : w'.fty = w.fty)
    (hfmt : w.fty.checkPassphraseFormat saveReq.m_passphrase = true)
    (hcrypt : w.fty.decrypt (w.fty.encrypt saveReq.m_passphrase saveReq.m_passphrase)
      saveReq.m_passphrase = saveReq.m_passphrase)
    (_hsucc : (requestSave w saveReq).response.m_status = statusToString Status.SUCCESS)
    (_hsmall : ∀ g ∈ (requestSave w saveReq).response.m_data, g.m_features.length ≤ 16) :
    w'.fty.decrypt (requestSave w saveReq).response.m_checksum saveReq.m_passphrase
      = saveReq.m_passphrase
    ∧ (∀ g ∈ (requestSave w saveReq).response.m_data,
        sortedGroup w'.reg g = g ∧ checkDataIntegrity (sortedGroup w'.reg g) = true)
    ∧ restoreTry w'
        ⟨"2.0", (requestSave w saveReq).response.m_checksum, saveReq.m_passphrase,
          .V2 (requestSave w saveReq).response.m_data⟩ false
      = ((restoreGroups w' saveReq.m_passphrase (requestSave w saveReq).response.m_data {}).1,
          (restoreGroups w' saveReq.m_passphrase (requestSave w saveReq).response.m_data {}).2.map
            (fun _ => statusToString Status.SUCCESS))
    ∧ ((∀ g ∈ (requestSave w saveReq).response.m_data,
          Complete w.reg g ∧ ∀ f ∈ g.m_features, Registered w.reg f.m_feature_name) →
        RestoresSucceed w' →
        ResetsAnswered w' →
        (requestRestore w'
            ⟨"2.0", (requestSave w saveReq).response.m_checksum, saveReq.m_passphrase,
              .V2 (requestSave w saveReq).response.m_data⟩ false).response.m_status
          = statusToString Status.SUCCESS
        ∧ (requestRestore w'
            ⟨"2.0", (requestSave w saveReq).response.m_checksum, saveReq.m_passphrase,
              .V2 (requestSave w saveReq).response.m_data⟩ false).response.m_status_list
          = (requestSave w saveReq).response.m_data.map successStatus
        ∧ (requestRestore w'
            ⟨"2.0", (requestSave w saveReq).response.m_checksum, saveReq.m_passphrase,
              .V2 (requestSave w saveReq).response.m_data⟩ false).restart
          = anyAsksRestart w.reg (requestSave w saveReq).response.m_data)
    ∧ (w.reg = referenceRegistry →
        (∀ g ∈ (requestSave w saveReq).response.m_data, Complete w.reg g) →
        RestoresSucceed w' →
        (requestRestore w'
            ⟨"2.0", (requestSave w saveReq).response.m_checksum, saveReq.m_passphrase,
              .V2 (requestSave w saveReq).response.m_data⟩ false).response.m_status
          = statusToString Status.SUCCESS
        ∧ (requestRestore w'
            ⟨"2.0", (requestSave w saveReq).response.m_checksum, saveReq.m_passphrase,
              .V2 (requestSave w saveReq).response.m_data⟩ false).response.m_status_list
          = (requestSave w saveReq).response.m_data.map successStatus
        ∧ (requestRestore w'
            ⟨"2.0", (requestSave w saveReq).response.m_checksum, saveReq.m_passphrase,
              .V2 (requestSave w saveReq).response.m_data⟩ false).restart
          = !(requestSave w saveReq).response.m_data.isEmpty) := by
  have hpass : w'.fty.decrypt (requestSave w saveReq).response.m_checksum saveReq.m_passphrase
      = saveReq.m_passphrase := by
    rw [requestSave_checksum w saveReq hfmt, hfty, hcrypt]
  have hgroups : ∀ g ∈ (requestSave w saveReq).response.m_data,
      sortedGroup w'.reg g = g ∧ checkDataIntegrity (sortedGroup w'.reg g) = true := by
    intro g hg
    obtain ⟨h1, h2, _⟩ := requestSave_group w saveReq g hg
    rw [hreg, h1]
    exact ⟨rfl, h2⟩
  have hsort : sortGroups w'.reg (requestSave w saveReq).response.m_data
      = (requestSave w saveReq).response.m_data := by
    unfold sortGroups
    conv_rhs => rw [← List.map_id (requestSave w saveReq).response.m_data]
    apply List.map_congr_left
    intro g hg
    exact (hgroups g hg).1
  have hv : ¬ (("2.0" : String) = "1.0") := by decide
  have htry : restoreTry w'
        ⟨"2.0", (requestSave w saveReq).response.m_checksum, saveReq.m_passphrase,
          .V2 (requestSave w saveReq).response.m_data⟩ false
      = ((restoreGroups w' saveReq.m_passphrase (requestSave w saveReq).response.m_data {}).1,
          (restoreGroups w' saveReq.m_passphrase (requestSave w saveReq).response.m_data {}).2.map
            (fun _ => statusToString Status.SUCCESS)) := by
    have hnone : groupsIntegrityCheckFailed (requestSave w saveReq).response.m_data = [] :=
      groupsIntegrityCheckFailed_nil _ (fun g hg => by
        have := (hgroups g hg).2
        rw [(hgroups g hg).1] at this
        exact this)
    unfold restoreTry
    simp only [hpass, ne_eq, not_true_eq_false, if_false, hv, if_true, restoreV2, hsort, hnone,
      List.isEmpty_nil, Bool.not_true, Bool.and_false, Bool.false_eq_true, Bool.not_false]
    rcases restoreGroups w' saveReq.m_passphrase (requestSave w saveReq).response.m_data {}
      with ⟨st, r⟩
    cases r <;> rfl
  have hgeneral : (∀ g ∈ (requestSave w saveReq).response.m_data,
        Complete w.reg g ∧ ∀ f ∈ g.m_features, Registered w.reg f.m_feature_name) →
      RestoresSucceed w' → ResetsAnswered w' →
      ∃ t', restoreGroups w' saveReq.m_passphrase (requestSave w saveReq).response.m_data {}
        = (⟨t', (requestSave w saveReq).response.m_data.map successStatus,
            anyAsksRestart w.reg (requestSave w saveReq).response.m_data⟩, .ok ()) := by
    intro hcomplete hbus hresets
    have hall : ∀ g ∈ (requestSave w saveReq).response.m_data,
        (mapFind w'.reg.SrrGroupMap g.m_group_id).isSome = true
        ∧ Complete w'.reg g ∧ ∀ f ∈ g.m_features, Registered w'.reg f.m_feature_name := by
      intro g hg
      obtain ⟨_, _, h3, h4, h5⟩ := requestSave_group w saveReq g hg
      rw [hreg]
      refine ⟨?_, (hcomplete g hg).1, (hcomplete g hg).2⟩
      obtain ⟨f, hf⟩ := List.exists_mem_of_ne_nil _ h4
      have := h5 f hf
      rw [← this] at h3 ⊢
      exact getGroupFromFeature_registered _ _ h3
    obtain ⟨t', hloop⟩ := restoreGroups_succeeds_general w' hbus hresets saveReq.m_passphrase _
      hall {}
    refine ⟨t', ?_⟩
    rw [hloop, hreg]
    simp
  refine ⟨hpass, hgroups, htry, ?_, ?_⟩
  · intro hcomplete hbus hresets
    obtain ⟨t', hloop⟩ := hgeneral hcomplete hbus hresets
    unfold requestRestore
    rw [htry, hloop]
    simp only [Except.map]
    exact ⟨trivial, trivial, trivial⟩
  · intro href hcomplete hbus
    have hgrouped : ∀ g ∈ (requestSave w saveReq).response.m_data,
        g.m_features ≠ [] ∧ ∀ f ∈ g.m_features,
          (getGroupFromFeature referenceRegistry f.m_feature_name).isEmpty = false := by
      intro g hg
      obtain ⟨_, _, h3, h4, h5⟩ := requestSave_group w saveReq g hg
      refine ⟨h4, ?_⟩
      intro f hf
      have := h5 f hf
      rw [href] at this
      rw [this]
      exact h3
    have hregd : ∀ g ∈ (requestSave w saveReq).response.m_data,
        Complete w.reg g ∧ ∀ f ∈ g.m_features, Registered w.reg f.m_feature_name := by
      intro g hg
      refine ⟨hcomplete g hg, ?_⟩
      intro f hf
      obtain ⟨d, hd, _⟩ := reference_grouped_feature f.m_feature_name ((hgrouped g hg).2 f hf)
      unfold Registered
      rw [href, featureAt_registered hd]
      rfl
    obtain ⟨t', hloop⟩ := hgeneral hregd hbus (reference_resetsAnswered w' (hreg.trans href))
    unfold requestRestore
    rw [htry, hloop]
    simp only [Except.map]
    refine ⟨trivial, trivial, ?_⟩
    show anyAsksRestart w.reg (requestSave w saveReq).response.m_data = _
    rw [href]
    exact reference_anyAsksRestart _ hgrouped

theorem complete_of_isComplete (reg : Registry) (group : Group)
    (h : isComplete reg group = true) : Complete reg group := by
  intro decl hdecl fp hfp
  unfold isComplete at h
  rw [hdecl] at h
  simp only [Option.all_some, List.all_eq_true, decide_eq_true_eq] at h
  exact h fp hfp

theorem resetAnsweringWorker_restoresSucceed : RestoresSucceed resetAnsweringWorker := by
  intro t queue agent q
  refine ⟨successReply, ?_, rfl⟩
  show resetAnsweringBus (t ++ [⟨"restore", queue, agent, .restore q⟩]) = .ok successReply
  simp [resetAnsweringBus]

theorem resetAnsweringWorker_resetsAnswered : ResetsAnswered resetAnsweringWorker := by
  intro t queue agent n _
  refine ⟨⟨{}, ⟨⟨.SUCCESS, ""⟩⟩, ⟨[n].map (fun f => (f, ⟨.SUCCESS, ""⟩))⟩⟩, ?_, ?_⟩
  · show resetAnsweringBus (t ++ [⟨"reset", queue, agent, .reset "2.0" [n]⟩]) = _
    simp [resetAnsweringBus]
  · simp [List.lookup_cons]

theorem obligingBus_restoresSucceed : RestoresSucceed obligingWorker := by
  intro t queue agent q
  refine ⟨successReply, ?_, rfl⟩
  show obligingBus (t ++ [⟨"restore", queue, agent, .restore q⟩]) = .ok successReply
  simp [obligingBus]

set_option maxRecDepth 100000 in
/-- C10 as stated fails. The agent leaves `discovery` out of its save reply:
the save succeeds, and the restore of that reply, each restore request
answered with SUCCESS, reports the group `config` as FAILED. And a save of no
group succeeds with no data; its restore does not set the restart flag. -/
theorem save_restore_round_trip_counterexample :
    sampleFty.checkPassphraseFormat "Eaton1234!" = true
    ∧ (requestSave forgetfulWorker ⟨"Eaton1234!", ["assets", "config"]⟩).response.m_status
      = statusToString Status.SUCCESS
    ∧ RestoresSucceed obligingWorker
    ∧ (requestRestore obligingWorker
        ⟨"2.0", (requestSave forgetfulWorker ⟨"Eaton1234!", ["assets", "config"]⟩).response.m_checksum,
          "Eaton1234!",
          .V2 (requestSave forgetfulWorker ⟨"Eaton1234!", ["assets", "config"]⟩).response.m_data⟩
        false).response.m_status_list
      = [⟨"assets", "SUCCESS", ""⟩,
         ⟨"config", "FAILED", "Group config cannot be restored. Missing features"⟩]
    ∧ (requestSave obligingWorker ⟨"Eaton1234!", []⟩).response.m_status
      = statusToString Status.SUCCESS
    ∧ (requestRestore obligingWorker
        ⟨"2.0", (requestSave obligingWorker ⟨"Eaton1234!", []⟩).response.m_checksum, "Eaton1234!",
          .V2 (requestSave obligingWorker ⟨"Eaton1234!", []⟩).response.m_data⟩ false).restart
      = false :=
  ⟨by decide, by decide, obligingBus_restoresSucceed, by decide, by decide, by decide⟩

set_option maxRecDepth 100000 in
theorem save_restore_round_trip_witness :
    resetAnsweringWorker.reg = resetAnsweringWorker.reg
    ∧ resetAnsweringWorker.fty = resetAnsweringWorker.fty
    ∧ resetAnsweringWorker.fty.checkPassphraseFormat roundTripSave.m_passphrase = true
    ∧ resetAnsweringWorker.fty.decrypt
        (resetAnsweringWorker.fty.encrypt roundTripSave.m_passphrase roundTripSave.m_passphrase)
        roundTripSave.m_passphrase = roundTripSave.m_passphrase
    ∧ (requestSave resetAnsweringWorker roundTripSave).response.m_status
        = statusToString Status.SUCCESS
    ∧ (∀ g ∈ (requestSave resetAnsweringWorker roundTripSave).response.m_data,
        g.m_features.length ≤ 16)
    ∧ (∀ g ∈ (requestSave resetAnsweringWorker roundTripSave).response.m_data,
        Complete resetAnsweringWorker.reg g
        ∧ ∀ f ∈ g.m_features, Registered resetAnsweringWorker.reg f.m_feature_name)
    ∧ RestoresSucceed resetAnsweringWorker
    ∧ ResetsAnswered resetAnsweringWorker
    ∧ ((requestSave resetAnsweringWorker roundTripSave).response.m_data.map
        (fun g => (g.m_group_id, g.m_features.map (fun f => f.m_feature_name))))
      = [("assets", ["asset-agent"]),
         ("config", ["user-session", "notification", "monitoring", "discovery",
           "mass-management", "automation-settings"])]
    ∧ (requestRestore resetAnsweringWorker
        ⟨"2.0", (requestSave resetAnsweringWorker roundTripSave).response.m_checksum,
          roundTripSave.m_passphrase,
          .V2 (requestSave resetAnsweringWorker roundTripSave).response.m_data⟩ false).response
      = { m_status := statusToString Status.SUCCESS, m_error := "",
          m_status_list := [⟨"assets", "SUCCESS", ""⟩, ⟨"config", "SUCCESS", ""⟩] }
    ∧ (resetAnsweringWorker.fty.decrypt (requestSave resetAnsweringWorker roundTripSave).response.m_checksum roundTripSave.m_passphrase
        = roundTripSave.m_passphrase
      ∧ (∀ g ∈ (requestSave resetAnsweringWorker roundTripSave).response.m_data,
          sortedGroup resetAnsweringWorker.reg g = g ∧ checkDataIntegrity (sortedGroup resetAnsweringWorker.reg g) = true)
      ∧ restoreTry resetAnsweringWorker
          ⟨"2.0", (requestSave resetAnsweringWorker roundTripSave).response.m_checksum, roundTripSave.m_passphrase,
            .V2 (requestSave resetAnsweringWorker roundTripSave).response.m_data⟩ false
        = ((restoreGroups resetAnsweringWorker roundTripSave.m_passphrase (requestSave resetAnsweringWorker roundTripSave).response.m_data {}).1,
            (restoreGroups resetAnsweringWorker roundTripSave.m_passphrase (requestSave resetAnsweringWorker roundTripSave).response.m_data {}).2.map
              (fun _ => statusToString Status.SUCCESS))
      ∧ ((∀ g ∈ (requestSave resetAnsweringWorker roundTripSave).response.m_data,
            Complete resetAnsweringWorker.reg g ∧ ∀ f ∈ g.m_features, Registered resetAnsweringWorker.reg f.m_feature_name) →
          RestoresSucceed resetAnsweringWorker →
          ResetsAnswered resetAnsweringWorker →
          (requestRestore resetAnsweringWorker
              ⟨"2.0", (requestSave resetAnsweringWorker roundTripSave).response.m_checksum, roundTripSave.m_passphrase,
                .V2 (requestSave resetAnsweringWorker roundTripSave).response.m_data⟩ false).response.m_status
            = statusToString Status.SUCCESS
          ∧ (requestRestore resetAnsweringWorker
              ⟨"2.0", (requestSave resetAnsweringWorker roundTripSave).response.m_checksum, roundTripSave.m_passphrase,
                .V2 (requestSave resetAnsweringWorker roundTripSave).response.m_data⟩ false).response.m_status_list
            = (requestSave resetAnsweringWorker roundTripSave).response.m_data.map successStatus
          ∧ (requestRestore resetAnsweringWorker
              ⟨"2.0", (requestSave resetAnsweringWorker roundTripSave).response.m_checksum, roundTripSave.m_passphrase,
                .V2 (requestSave resetAnsweringWorker roundTripSave).response.m_data⟩ false).restart
            = anyAsksRestart resetAnsweringWorker.reg (requestSave resetAnsweringWorker roundTripSave).response.m_data)
      ∧ (resetAnsweringWorker.reg = referenceRegistry →
          (∀ g ∈ (requestSave resetAnsweringWorker roundTripSave).response.m_data, Complete resetAnsweringWorker.reg g) →
          RestoresSucceed resetAnsweringWorker →
          (requestRestore resetAnsweringWorker
              ⟨"2.0", (requestSave resetAnsweringWorker roundTripSave).response.m_checksum, roundTripSave.m_passphrase,
                .V2 (requestSave resetAnsweringWorker roundTripSave).response.m_data⟩ false).response.m_status
            = statusToString Status.SUCCESS
          ∧ (requestRestore resetAnsweringWorker
              ⟨"2.0", (requestSave resetAnsweringWorker roundTripSave).response.m_checksum, roundTripSave.m_passphrase,
                .V2 (requestSave resetAnsweringWorker roundTripSave).response.m_data⟩ false).response.m_status_list
            = (requestSave resetAnsweringWorker roundTripSave).response.m_data.map successStatus
          ∧ (requestRestore resetAnsweringWorker
              ⟨"2.0", (requestSave resetAnsweringWorker roundTripSave).response.m_checksum, roundTripSave.m_passphrase,
                .V2 (requestSave resetAnsweringWorker roundTripSave).response.m_data⟩ false).restart
            = !(requestSave resetAnsweringWorker roundTripSave).response.m_data.isEmpty)) :=
  have h3 : resetAnsweringWorker.fty.checkPassphraseFormat roundTripSave.m_passphrase = true := by
    decide
  have h4 : resetAnsweringWorker.fty.decrypt
      (resetAnsweringWorker.fty.encrypt roundTripSave.m_passphrase roundTripSave.m_passphrase)
      roundTripSave.m_passphrase = roundTripSave.m_passphrase := by decide
  have h5 : (requestSave resetAnsweringWorker roundTripSave).response.m_status
      = statusToString Status.SUCCESS := by decide
  have h6 : ∀ g ∈ (requestSave resetAnsweringWorker roundTripSave).response.m_data,
      g.m_features.length ≤ 16 := by decide
  have h7 : ∀ g ∈ (requestSave resetAnsweringWorker roundTripSave).response.m_data,
      Complete resetAnsweringWorker.reg g
      ∧ ∀ f ∈ g.m_features, Registered resetAnsweringWorker.reg f.m_feature_name := by
    have hc : ∀ g ∈ (requestSave resetAnsweringWorker roundTripSave).response.m_data,
        isComplete resetAnsweringWorker.reg g = true
        ∧ ∀ f ∈ g.m_features,
          (mapFind resetAnsweringWorker.reg.SrrFeatureMap f.m_feature_name).isSome = true := by
      decide
    intro g hg
    exact ⟨complete_of_isComplete _ _ (hc g hg).1, (hc g hg).2⟩
  ⟨rfl, rfl, h3, h4, h5, h6, h7, resetAnsweringWorker_restoresSucceed,
    resetAnsweringWorker_resetsAnswered, by decide, by decide,
    save_restore_round_trip resetAnsweringWorker resetAnsweringWorker roundTripSave
      rfl rfl h3 h4 h5 h6⟩

/-! ## Invalid passphrase -/

/-- C11. A restore payload, of any version, whose checksum does not decrypt to
its passphrase: `requestRestore` sends no request, starts no restart, and
returns the status FAILED with the error "Invalid passphrase" and an empty
status list. -/
theorem invalid_passphrase (w : SrrWorker) (req : SrrRestoreRequest) (force : Bool)
    (hbad : w.fty.decrypt req.m_checksum req.m_passphrase ≠ req.m_passphrase) :
    (requestRestore w req force).trace = []
    ∧ (requestRestore w req force).restart = false
    ∧ (requestRestore w req force).response
      = { m_status := statusToString Status.FAILED, m_error := "Invalid passphrase",
          m_status_list := [] } := by
  have htry : restoreTry w req force = ({}, .error (.runtime_error "Invalid passphrase")) := by
    unfold restoreTry
    simp only [hbad, ne_eq, not_false_eq_true, if_true]
  unfold requestRestore
  rw [htry]
  exact ⟨rfl, rfl, rfl⟩

theorem invalid_passphrase_witness :
    obligingWorker.fty.decrypt "tampered" "Eaton1234!" ≠ "Eaton1234!"
    ∧ ((requestRestore obligingWorker ⟨"1.0", "tampered", "Eaton1234!", .V1 []⟩ true).trace = []
      ∧ (requestRestore obligingWorker ⟨"1.0", "tampered", "Eaton1234!", .V1 []⟩ true).restart
          = false
      ∧ (requestRestore obligingWorker ⟨"1.0", "tampered", "Eaton1234!", .V1 []⟩ true).response
        = { m_status := statusToString Status.FAILED, m_error := "Invalid passphrase",
            m_status_list := [] }) :=
  have h : obligingWorker.fty.decrypt "tampered" "Eaton1234!" ≠ "Eaton1234!" := by decide
  ⟨h, invalid_passphrase obligingWorker ⟨"1.0", "tampered", "Eaton1234!", .V1 []⟩ true h⟩

/-! ## Version check -/

set_option maxRecDepth 100000 in
/-- C12 fails: a worker constructed with "1.0" as its only supported version
receives a version 2.0 payload. `isVerstionCompatible` says no, yet
`requestRestore`, which compares the version with the literals "1.0" and
"2.0" and never asks `isVerstionCompatible`, restores the payload. -/
theorem version_set_not_consulted :
    isVerstionCompatible legacyWorker "2.0" = false
    ∧ legacyWorker.fty.decrypt configRestoreRequest.m_checksum configRestoreRequest.m_passphrase
        = configRestoreRequest.m_passphrase
    ∧ configRestoreRequest.m_version = "2.0"
    ∧ (requestRestore legacyWorker configRestoreRequest false).response
      = { m_status := statusToString Status.SUCCESS, m_error := "",
          m_status_list := [⟨"config", "SUCCESS", ""⟩] }
    ∧ (requestRestore legacyWorker configRestoreRequest false).trace.length = 12 := by
  decide

/-! ## Version 1.0: the overall status -/

set_option maxRecDepth 100000 in
/-- C17 fails: a version 1.0 payload with a valid passphrase, every restore
answered with SUCCESS. The status list has the entry of the feature, as
claimed, but the overall status is FAILED: the branch of version 1.0 never
sets it to SUCCESS. -/
theorem v1_success_reports_failed :
    (requestRestore obligingWorker
        ⟨"1.0", "Eaton1234!", "Eaton1234!",
          .V1 [payloadOf F_DISCOVERY, payloadOf F_ASSET_AGENT]⟩ false).response
      = { m_status := statusToString Status.FAILED, m_error := "",
          m_status_list := [⟨"discovery", "SUCCESS", ""⟩, ⟨"asset-agent", "SUCCESS", ""⟩] }
    ∧ RestoresSucceed obligingWorker :=
  ⟨by decide, by
    intro t queue agent q
    refine ⟨successReply, ?_, rfl⟩
    show obligingBus (t ++ [⟨"restore", queue, agent, .restore q⟩]) = .ok successReply
    simp [obligingBus]⟩

/-! ## The static tables -/

theorem reference_tables_closed :
    (∀ g ∈ referenceRegistry.SrrGroupMap, ∀ fp ∈ g.2.m_fp,
      (mapFind referenceRegistry.SrrFeatureMap fp.m_feature).any (fun d =>
        d.m_id == fp.m_feature && d.m_name == fp.m_feature
          && (mapFind referenceRegistry.agentToQueue d.m_agent).isSome) = true
      ∧ getGroupFromFeature referenceRegistry fp.m_feature = g.1)
    ∧ (groupedFeatures referenceRegistry).Nodup := by
  decide

/-- C18. In the tables of `fty_srr_groups.h`: every feature that a group of
`SrrGroupMap` lists is a key of `SrrFeatureMap`, its entry has the key as id
and as name and an owning agent that is a key of `agentToQueue`; no feature is
listed twice, in one group or in two; and the reverse lookup of the feature
returns the group that lists it. -/
theorem registry_closure :
    (∀ g ∈ referenceRegistry.SrrGroupMap, ∀ fp ∈ g.2.m_fp,
      (∃ d, mapFind referenceRegistry.SrrFeatureMap fp.m_feature = some d
        ∧ d.m_id = fp.m_feature ∧ d.m_name = fp.m_feature
        ∧ ∃ queue, mapFind referenceRegistry.agentToQueue d.m_agent = some queue)
      ∧ getGroupFromFeature referenceRegistry fp.m_feature = g.1)
    ∧ (groupedFeatures referenceRegistry).Nodup
    ∧ (∀ g ∈ referenceRegistry.SrrGroupMap, ∀ g' ∈ referenceRegistry.SrrGroupMap,
        ∀ fp ∈ g.2.m_fp, ∀ fp' ∈ g'.2.m_fp, fp.m_feature = fp'.m_feature → g.1 = g'.1) := by
  obtain ⟨h1, h2⟩ := reference_tables_closed
  refine ⟨?_, h2, ?_⟩
  · intro g hg fp hfp
    obtain ⟨ha, hb⟩ := h1 g hg fp hfp
    refine ⟨?_, hb⟩
    cases hd : mapFind referenceRegistry.SrrFeatureMap fp.m_feature with
    | none => rw [hd] at ha; simp at ha
    | some d =>
      rw [hd] at ha
      simp only [Option.any_some, Bool.and_eq_true, beq_iff_eq] at ha
      obtain ⟨⟨hid, hname⟩, hq⟩ := ha
      obtain ⟨queue, hqueue⟩ := Option.isSome_iff_exists.mp hq
      exact ⟨d, rfl, hid, hname, queue, hqueue⟩
  · intro g hg g' hg' fp hfp fp' hfp' heq
    rw [← (h1 g hg fp hfp).2, ← (h1 g' hg' fp' hfp').2, heq]

/-! ## Version 2.0: the overall status -/

/-- C14, as amended. A reset that the agent answers is never fatal, whatever
status the answer carries: for every worker, request and `force`, the restore
sends the same requests and returns the same reply and restart flag as on the
bus whose answered resets all report SUCCESS. A reset request that fails on
the bus is not covered: both sides of the equation see the same failure. -/
theorem reset_refusals_not_fatal (w : SrrWorker) (req : SrrRestoreRequest) (force : Bool) :
    requestRestore w req force = requestRestore (withResetsSucceeding w) req force := by
  unfold requestRestore
  rw [restoreTry_resets]

set_option maxRecDepth 100000 in
/-- C14 as stated fails when the reset request itself fails on the bus: the
first reset of the group `config` times out, the exception leaves the restore,
no further reset and no restore request is sent, and the reply is FAILED,
whereas with the resets answered the reply is SUCCESS after six resets and six
restores. -/
theorem reset_bus_failure_counterexample :
    (requestRestore resetDeafWorker configRestoreRequest false).response
      = { m_status := statusToString Status.FAILED, m_error := "timeout", m_status_list := [] }
    ∧ ((requestRestore resetDeafWorker configRestoreRequest false).trace.filter
        (fun r => r.action != "save")).map (fun r => (r.action, resetFeatures r ++ restoredFeatures r))
      = [("reset", ["automation-settings"])]
    ∧ (requestRestore resetAnsweringWorker configRestoreRequest false).response.m_status
      = statusToString Status.SUCCESS
    ∧ ((requestRestore resetAnsweringWorker configRestoreRequest false).trace.filter
        (fun r => r.action != "save")).map (fun r => r.action)
      = ["reset", "reset", "reset", "reset", "reset", "reset",
         "restore", "restore", "restore", "restore", "restore", "restore"] := by
  decide

/-! ## Version 1.0: a refused restore -/

/-- C16, as amended. In a version 1.0 restore whose loop ran through the
features before position k and whose feature `f` at position k is saved, reset
and then refused by its agent (`restoreFeature` raises `SrrRestoreFailed`):
the requests sent are those up to the refused restore followed by those of the
rollback over the snapshots saved so far, so nothing is sent for the features
after `f`; the reply is FAILED and carries the statuses of the features before
`f`; when the rollback returns, the error names `f` and the restart flag is
that of the rollback; when a request of the rollback fails on the bus, the
error is the text of that failure instead. -/
theorem v1_failure_handling (w : SrrWorker) (req : SrrRestoreRequest) (force : Bool)
    (pre : List SrrFeature) (f : SrrFeature) (post : List SrrFeature) (st : V1State)
    (t1 t2 t3 : List Request) (saved : Except Exn SaveResponse) (e : Exn)
    (hpass : w.fty.decrypt req.m_checksum req.m_passphrase = req.m_passphrase)
    (hver : req.m_version = "1.0")
    (hdata : req.m_data = .V1 (pre ++ f :: post))
    (hpre : restoreV1Loop w req.m_passphrase pre ⟨[], {}, [], ""⟩ = (st, .completed))
    (hsave : saveFeatures w [f.m_feature_name] req.m_passphrase st.trace = (t1, saved))
    (hreset : resetIfSupported w f.m_feature_name t1 = (t2, .ok ()))
    (hrestore : restoreFeature w f.m_feature_name (featureQuery req.m_passphrase f) t2
      = (t3, .error e))
    (he : e.isRestoreFailed = true) :
    (requestRestore w req force).trace
      = (rollback w (accumulate st.rollbackSaveResponse saved) req.m_passphrase t3).1
    ∧ (requestRestore w req force).response.m_status = statusToString Status.FAILED
    ∧ (requestRestore w req force).response.m_status_list = st.status_list
    ∧ (∀ b, (rollback w (accumulate st.rollbackSaveResponse saved) req.m_passphrase t3).2 = .ok b →
        (requestRestore w req force).response.m_error
          = "Restore of feature " ++ f.m_feature_name ++ " failed"
        ∧ (requestRestore w req force).restart = b)
    ∧ (∀ x, (rollback w (accumulate st.rollbackSaveResponse saved) req.m_passphrase t3).2
          = .error x →
        (requestRestore w req force).response.m_error = (catchStatus x).2
        ∧ (requestRestore w req force).restart = false) := by
  have hloop : restoreV1Loop w req.m_passphrase (pre ++ f :: post) ⟨[], {}, [], ""⟩
      = (⟨t3, accumulate st.rollbackSaveResponse saved, st.status_list, f.m_feature_name⟩,
          .restoreFailed) := by
    rw [restoreV1Loop_append w req.m_passphrase (f :: post) pre _ st hpre]
    exact restoreV1Loop_refused w req.m_passphrase f post st t1 t2 t3 saved e hsave hreset
      hrestore he
  have hfeat : req.m_data.getSrrFeatures = pre ++ f :: post := by rw [hdata]; rfl
  unfold requestRestore restoreTry restoreV1
  simp only [hpass, ne_eq, not_true_eq_false, if_false, hver, if_true, hfeat, hloop]
  rcases hrb : rollback w (accumulate st.rollbackSaveResponse saved) req.m_passphrase t3
    with ⟨t4, x | b⟩
  · have hx : x.isIntegrityCheckFailed = false :=
      rollbackLoop_error w req.m_passphrase _ false t3 t4 x hrb
    refine ⟨rfl, ?_, rfl, ?_, ?_⟩
    · cases x <;> first | rfl | cases hx
    · intro b hb; cases hb
    · intro y hy; cases hy; exact ⟨rfl, rfl⟩
  · refine ⟨rfl, rfl, rfl, ?_, ?_⟩
    · intro b' hb; cases hb; exact ⟨rfl, by simp⟩
    · intro y hy; cases hy

set_option maxRecDepth 100000 in
/-- C16 as stated fails when a request of the rollback fails on the bus: the
restore of `discovery` is refused, the restore request of the rollback times
out, and the error of the reply is that of the bus, which does not name the
feature. -/
theorem v1_failure_handling_counterexample :
    discoveryRestoreRequestV1.m_version = "1.0"
    ∧ (requestRestore rollbackDeafWorker discoveryRestoreRequestV1 false).response
      = { m_status := statusToString Status.FAILED, m_error := "timeout", m_status_list := [] }
    ∧ (requestRestore rollbackDeafWorker discoveryRestoreRequestV1 false).trace.map
        (fun r => (r.action, restoredFeatures r))
      = [("save", []), ("restore", ["discovery"]), ("restore", ["discovery"])] := by
  decide

set_option maxRecDepth 100000 in
theorem v1_failure_handling_witness :
    resettableWorker.fty.decrypt threeFeaturesRestoreRequestV1.m_checksum
        threeFeaturesRestoreRequestV1.m_passphrase = threeFeaturesRestoreRequestV1.m_passphrase
    ∧ threeFeaturesRestoreRequestV1.m_version = "1.0"
    ∧ threeFeaturesRestoreRequestV1.m_data
      = .V1 ([payloadOf F_DISCOVERY] ++ payloadOf F_NOTIFICATION_FEATURE_NAME
          :: [payloadOf F_MONITORING_FEATURE_NAME])
    ∧ restoreV1Loop resettableWorker threeFeaturesRestoreRequestV1.m_passphrase
        [payloadOf F_DISCOVERY] ⟨[], {}, [], ""⟩ = (afterDiscovery, .completed)
    ∧ saveFeatures resettableWorker [(payloadOf F_NOTIFICATION_FEATURE_NAME).m_feature_name]
        threeFeaturesRestoreRequestV1.m_passphrase afterDiscovery.trace
      = (notificationSave.1, notificationSave.2)
    ∧ resetIfSupported resettableWorker (payloadOf F_NOTIFICATION_FEATURE_NAME).m_feature_name
        notificationSave.1 = (notificationReset.1, .ok ())
    ∧ restoreFeature resettableWorker (payloadOf F_NOTIFICATION_FEATURE_NAME).m_feature_name
        (featureQuery threeFeaturesRestoreRequestV1.m_passphrase
          (payloadOf F_NOTIFICATION_FEATURE_NAME)) notificationReset.1
      = (notificationRestore.1,
          .error (.SrrRestoreFailed "Restore procedure failed for feature notification"))
    ∧ (Exn.SrrRestoreFailed "Restore procedure failed for feature notification").isRestoreFailed
      = true
    ∧ (requestRestore resettableWorker threeFeaturesRestoreRequestV1 false).response
      = { m_status := statusToString Status.FAILED,
          m_error := "Restore of feature notification failed",
          m_status_list := [⟨"discovery", "SUCCESS", ""⟩] }
    ∧ (requestRestore resettableWorker threeFeaturesRestoreRequestV1 false).trace.map
        (fun r => (r.action, resetFeatures r ++ restoredFeatures r))
      = [("save", []), ("reset", ["discovery"]), ("restore", ["discovery"]),
         ("save", []), ("reset", ["notification"]), ("restore", ["notification"]),
         ("reset", ["discovery"]), ("restore", ["discovery"]),
         ("reset", ["notification"]), ("restore", ["notification"])]
    ∧ ((requestRestore resettableWorker threeFeaturesRestoreRequestV1 false).trace
        = (rollback resettableWorker
            (accumulate afterDiscovery.rollbackSaveResponse notificationSave.2)
            threeFeaturesRestoreRequestV1.m_passphrase notificationRestore.1).1
      ∧ (requestRestore resettableWorker threeFeaturesRestoreRequestV1 false).response.m_status
        = statusToString Status.FAILED
      ∧ (requestRestore resettableWorker threeFeaturesRestoreRequestV1 false).response.m_status_list
        = afterDiscovery.status_list
      ∧ (∀ b, (rollback resettableWorker
            (accumulate afterDiscovery.rollbackSaveResponse notificationSave.2)
            threeFeaturesRestoreRequestV1.m_passphrase notificationRestore.1).2 = .ok b →
          (requestRestore resettableWorker threeFeaturesRestoreRequestV1 false).response.m_error
            = "Restore of feature " ++ (payloadOf F_NOTIFICATION_FEATURE_NAME).m_feature_name
                ++ " failed"
          ∧ (requestRestore resettableWorker threeFeaturesRestoreRequestV1 false).restart = b)
      ∧ (∀ x, (rollback resettableWorker
            (accumulate afterDiscovery.rollbackSaveResponse notificationSave.2)
            threeFeaturesRestoreRequestV1.m_passphrase notificationRestore.1).2 = .error x →
          (requestRestore resettableWorker threeFeaturesRestoreRequestV1 false).response.m_error
            = (catchStatus x).2
          ∧ (requestRestore resettableWorker threeFeaturesRestoreRequestV1 false).restart
            = false)) :=
  ⟨rfl, rfl, rfl, by rfl, by rfl, by rfl, by rfl, rfl, by decide, by decide,
    v1_failure_handling resettableWorker threeFeaturesRestoreRequestV1 false
      [payloadOf F_DISCOVERY] (payloadOf F_NOTIFICATION_FEATURE_NAME)
      [payloadOf F_MONITORING_FEATURE_NAME] afterDiscovery notificationSave.1
      notificationReset.1 notificationRestore.1 notificationSave.2
      (.SrrRestoreFailed "Restore procedure failed for feature notification")
      rfl rfl rfl (by rfl) (by rfl) (by rfl) (by rfl) rfl⟩

/-! ## Save fan-out -/

/-- C19, as amended. `saveFeatures` walks the agent map of the listed
features, whose keys are the distinct owning agents of the registered listed
features, in ascending order, and which holds under each agent exactly the
listed feature names that the agent owns, each once. It sends the save request
of each entry in turn and stops at the first request that fails on the bus:
the requests sent are an initial part of the per-agent requests, and all of
them when `saveFeatures` returns; only a bus failure makes it throw. A feature
that is not registered is in no request, and a list without a registered
feature sends nothing. -/
theorem save_fan_out (w : SrrWorker) (features : List FeatureName) (p : String)
    (t : List Request) :
    (∃ k, (saveFeatures w features p t).1
        = t ++ ((groupFeaturesByAgent w.reg features).map (saveRequest w p)).take k
      ∧ ((∃ r, (saveFeatures w features p t).2 = .ok r) →
          k = (groupFeaturesByAgent w.reg features).length)
      ∧ (∀ e, (saveFeatures w features p t).2 = .error e → ∃ s, e = .SrrException s))
    ∧ ((groupFeaturesByAgent w.reg features).map Prod.fst).Pairwise
        (fun a b => stringLess a b = true)
    ∧ (∀ e ∈ groupFeaturesByAgent w.reg features,
        e.2.Pairwise (fun x y => stringLess x y = true)
        ∧ ∀ f, f ∈ e.2 ↔ (f ∈ features ∧ OwnedBy w.reg e.1 f))
    ∧ (∀ f ∈ features, ∀ d, mapFind w.reg.SrrFeatureMap f = some d →
        ∃ e ∈ groupFeaturesByAgent w.reg features, e.1 = d.m_agent ∧ f ∈ e.2)
    ∧ ((∀ f ∈ features, mapFind w.reg.SrrFeatureMap f = none) →
        (saveFeatures w features p t).1 = t) := by
  obtain ⟨hS, hV, hN⟩ := groupFeaturesByAgent_inv w.reg features
  have hfan := saveAgents_prefix w p (groupFeaturesByAgent w.reg features) {} t
  have hentry : ∀ e ∈ groupFeaturesByAgent w.reg features,
      e.2.Pairwise (fun x y => stringLess x y = true) ∧ e.2 ≠ []
      ∧ ∀ f, f ∈ e.2 ↔ (f ∈ features ∧ OwnedBy w.reg e.1 f) := by
    intro e he
    exact hV e.1 e.2 ((mem_iff_mapFind _ hS e.1 e.2).mp he)
  refine ⟨hfan, hS, fun e he => ⟨(hentry e he).1, (hentry e he).2.2⟩, ?_, ?_⟩
  · intro f hf d hd
    cases hfind : mapFind (groupFeaturesByAgent w.reg features) d.m_agent with
    | none => exact absurd ⟨d, hd, rfl⟩ (hN d.m_agent hfind f hf)
    | some s =>
      refine ⟨(d.m_agent, s), (mem_iff_mapFind _ hS _ _).mpr hfind, rfl, ?_⟩
      exact ((hV d.m_agent s hfind).2.2 f).mpr ⟨hf, d, hd, rfl⟩
  · intro hnone
    have hnil : groupFeaturesByAgent w.reg features = [] := by
      cases hg : groupFeaturesByAgent w.reg features with
      | nil => rfl
      | cons e tl =>
        have he : e ∈ groupFeaturesByAgent w.reg features := by rw [hg]; exact List.mem_cons_self _ _
        obtain ⟨_, hne, hmem⟩ := hentry e he
        obtain ⟨f, hf⟩ := List.exists_mem_of_ne_nil _ hne
        obtain ⟨hfeat, d, hd, _⟩ := (hmem f).mp hf
        rw [hnone f hfeat] at hd
        cases hd
    unfold saveFeatures
    rw [hnil]
    rfl

set_option maxRecDepth 100000 in
/-- C19 as stated fails when a save fails on the bus: `asset-agent` and
`discovery` have different owning agents, the save request to the first of
them times out, and the second agent is sent no request. -/
theorem save_fan_out_counterexample :
    (saveFeatures deafWorker [F_ASSET_AGENT, F_DISCOVERY] "Eaton1234!" []).1
      = [⟨"save", ASSET_AGENT_MSG_QUEUE_NAME, ASSET_AGENT_NAME, .save [F_ASSET_AGENT] "Eaton1234!"⟩]
    ∧ (groupFeaturesByAgent deafWorker.reg [F_ASSET_AGENT, F_DISCOVERY]).map Prod.fst
      = [ASSET_AGENT_NAME, CONFIG_AGENT_NAME] := by
  decide

/-! ## Scope and order of rollback -/

end srr
